import Mathlib

/-!
# Rooms: matchmaking queue, room logs and the battle inactivity timer

A shallow embedding of `rooms.js` (Pokemon Showdown server core).

* JavaScript objects with identity (users) are references `UserRef` into a
  store `UserRef → User`; `===` on users is equality of references.
* Tick counters and list indices are integers. The numbers of the matchmaking
  range test (ratings, ticket times, `elapsed / 300`) are IEEE 754 doubles,
  `JSNumber`, with round-to-nearest-even arithmetic, infinities and `NaN`.
* Loops over `this.searchers` that `splice` while iterating keep the index
  `i` of the source; the number of iterations left is the structural argument.
* Effects on collaborators that are not part of `rooms.js` (sockets, user
  messages, the simulator process) are recorded in a trace.
-/

namespace Rooms

/-! ## JavaScript numbers -/

/-- A JavaScript number, an IEEE 754 double: `NaN`, an infinity, or the finite
value `m * 2 ^ e`. The operations return finite values with `m` odd, and
`fin 0 0` for zero: the sign of a zero is not kept, as nothing here divides by
a zero or prints one. -/
inductive JSNumber where
  | nan
  | inf (negative : Bool)
  | fin (m : Int) (e : Int)
  deriving DecidableEq

namespace JSNumber

/-- The number of halvings that bring `n` below 2, at most `k` of them:
`floor (log2 n)` for `0 < n < 2 ^ (k + 1)`. -/
def log2 : Nat → Nat → Nat
  | 0, _ => 0
  | k + 1, n => if 2 ≤ n then log2 k (n / 2) + 1 else 0

/-- `floor (log2 (a / d))` for positive `a` and `d`. -/
def floorLog2 (a d : Nat) : Int :=
  let p : Int := (log2 a a : Int) - (log2 d d : Int)
  if 0 ≤ p then (if d * 2 ^ p.toNat ≤ a then p else p - 1)
  else (if d ≤ a * 2 ^ (-p).toNat then p else p - 1)

/-- The integer nearest to `x / y`, the even one of two that are equally near. -/
def divRoundEven (x y : Nat) : Nat :=
  let q := x / y
  let r := x % y
  if y < 2 * r ∨ (2 * r = y ∧ q % 2 = 1) then q + 1 else q

/-- The finite value `m * 2 ^ e` with the factors of two moved from `m` into
the exponent; `k` bounds their number. -/
def stripZeros : Nat → Int → Int → JSNumber
  | 0, m, e => fin m e
  | k + 1, m, e => if m % 2 = 0 then stripZeros k (m / 2) (e + 1) else fin m e

/-- The finite value `m * 2 ^ e` for `|m| ≤ 2 ^ 53`, zero as `fin 0 0`. -/
def normalize (m e : Int) : JSNumber :=
  if m = 0 then fin 0 0 else stripZeros 64 m e

/-- The double nearest to `n / d * 2 ^ e` (round to nearest, ties to even):
53 significant bits, the last place not below `2 ^ -1074`, and an infinity
from `2 ^ 1024` on. -/
def roundRatio (n : Int) (d : Nat) (e : Int) : JSNumber :=
  if n = 0 ∨ d = 0 then fin 0 0
  else
    let a := n.natAbs
    let last : Int := max (floorLog2 a d + e - 52) (-1074)
    let shift : Int := e - last
    let mantissa : Nat :=
      if 0 ≤ shift then divRoundEven (a * 2 ^ shift.toNat) d
      else divRoundEven a (d * 2 ^ (-shift).toNat)
    if 971 < last ∨ (last = 971 ∧ 2 ^ 53 ≤ mantissa) then inf (decide (n < 0))
    else normalize (if n < 0 then -(mantissa : Int) else (mantissa : Int)) last

/-- The number that an integer literal denotes. -/
def ofInt (n : Int) : JSNumber :=
  roundRatio n 1 0

/-- Unary minus. -/
def neg : JSNumber → JSNumber
  | nan => nan
  | inf negative => inf (!negative)
  | fin m e => fin (-m) e

/-- `Math.abs(x)`. -/
def abs : JSNumber → JSNumber
  | nan => nan
  | inf _ => inf false
  | fin m e => fin (m.natAbs : Int) e

/-- `x + y`. -/
def add : JSNumber → JSNumber → JSNumber
  | nan, _ => nan
  | _, nan => nan
  | inf a, inf b => if a = b then inf a else nan
  | inf a, fin _ _ => inf a
  | fin _ _, inf b => inf b
  | fin m1 e1, fin m2 e2 =>
    let e := min e1 e2
    roundRatio (m1 * 2 ^ (e1 - e).toNat + m2 * 2 ^ (e2 - e).toNat) 1 e

/-- `x - y`. -/
def sub (x y : JSNumber) : JSNumber :=
  add x (neg y)

/-- `x / y`; a zero divisor counts as `+0`. -/
def div : JSNumber → JSNumber → JSNumber
  | nan, _ => nan
  | _, nan => nan
  | inf _, inf _ => nan
  | inf a, fin m _ => inf (a != decide (m < 0))
  | fin _ _, inf _ => fin 0 0
  | fin m1 e1, fin m2 e2 =>
    if m2 = 0 then (if m1 = 0 then nan else inf (decide (m1 < 0)))
    else roundRatio (if m2 < 0 then -m1 else m1) m2.natAbs (e1 - e2)

/-- `x > y`. -/
def gt : JSNumber → JSNumber → Bool
  | nan, _ => false
  | _, nan => false
  | inf a, inf b => !a && b
  | inf a, fin _ _ => !a
  | fin _ _, inf b => b
  | fin m1 e1, fin m2 e2 =>
    decide (m2 * 2 ^ (e2 - min e1 e2).toNat < m1 * 2 ^ (e1 - min e1 e2).toNat)

/-- `x <= y`. -/
def le : JSNumber → JSNumber → Bool
  | nan, _ => false
  | _, nan => false
  | inf a, inf b => a || !b
  | inf a, fin _ _ => a
  | fin _ _, inf b => !b
  | fin m1 e1, fin m2 e2 =>
    decide (m1 * 2 ^ (e1 - min e1 e2).toNat ≤ m2 * 2 ^ (e2 - min e1 e2).toNat)

/-- `Math.min(x, y)`. -/
def min : JSNumber → JSNumber → JSNumber
  | nan, _ => nan
  | _, nan => nan
  | x, y => if le x y then x else y

end JSNumber

instance instOfNatJSNumber (n : Nat) : OfNat JSNumber n := ⟨JSNumber.ofInt n⟩

namespace JSNumber

/-- Not negative: `NaN`, `+Infinity`, or a finite value whose numerator is
not negative. -/
def NonNeg : JSNumber → Prop
  | nan => True
  | inf negative => negative = false
  | fin m _ => 0 ≤ m

/-- The exact value of `fin m e`. -/
def value (m e : Int) : ℚ :=
  (m : ℚ) * (2 : ℚ) ^ e

end JSNumber

/-! ## Users and search tickets -/

/-- A reference to a user object; `===` on users is equality of references. -/
abbrev UserRef := Nat

/-- The fields of a user object that `rooms.js` reads or writes. -/
structure User where
  userid : String
  name : String
  connected : Bool
  searching : Nat
  latestIp : String
  lastMatch : Option String
  deriving DecidableEq, Repr

/-- A matchmaking ticket, as built by `finishSearchBattle`:
`{userid, formatid, team, rating, time}`. -/
structure Search where
  userid : String
  formatid : String
  team : String
  rating : JSNumber
  time : JSNumber
  deriving DecidableEq

/-- The tri-state `lockdown` flag of the global room: `false`, `true`, `'pre'`. -/
inductive Lockdown where
  | off
  | on
  | pre
  deriving DecidableEq, Repr

/-- Effects of the global room on its collaborators, in the order they happen. -/
inductive Event where
  /-- `user.cancelChallengeTo()` -/
  | cancelChallengeTo (user : UserRef)
  /-- `user.send('|updatesearch|' + JSON.stringify({searching: false}))` -/
  | updateSearchOff (user : UserRef)
  /-- `user.popup(message)` -/
  | popup (user : UserRef) (message : String)
  /-- an invocation `this.startBattle(p1, p2, format, ...)` -/
  | startBattle (p1 p2 : Option UserRef) (format : String)
  /-- `rooms.global.writeNumRooms()` -/
  | writeNumRooms
  /-- `ResourceMonitor.countBattle(ip, name)` -/
  | countBattle (ip name : String)
  /-- `new BattleRoom(roomid, format, p1, p2, options)` -/
  | newBattleRoom (roomid format : String) (p1 p2 : UserRef) (rated : Bool)
  /-- `p.joinRoom(newRoom)` -/
  | joinRoom (user : UserRef) (roomid : String)
  /-- `newRoom.joinBattle(p, team)` -/
  | joinBattle (user : UserRef) (roomid team : String)
  deriving DecidableEq

/-- The state the matchmaking methods of `GlobalRoom` work on.

`get` is `Users.get` on a user id and `user` is the store of user objects;
the `Users` module is not part of `rooms.js`, so both are data of the state.
`rooms` lists the ids registered in the room registry. -/
structure GlobalRoom where
  get : String → Option UserRef
  user : UserRef → User
  searchers : List Search
  lockdown : Lockdown
  lastBattle : Nat
  rooms : List String
  trace : List Event

/-- What is left of one character after `toLowerCase()` and the removal of
everything outside `a-z0-9`: an ASCII letter in lower case or a digit. Two
characters outside ASCII count as well: U+212A (the Kelvin sign) lower-cases
to `k`, and U+0130 to `i` followed by U+0307. Every other character
lower-cases to characters outside `a-z0-9`. -/
def lowerAlnum (c : Char) : List Char :=
  if c = Char.ofNat 0x212A then ['k']
  else if c = Char.ofNat 0x130 then ['i']
  else if c.toLower.isLower || c.toLower.isDigit then [c.toLower]
  else []

/-- `text.toLowerCase().replace(/[^a-z0-9]+/g, '')` on a string. -/
def toLowerAlnum (text : String) : String :=
  String.mk (text.toList.flatMap lowerAlnum)

namespace GlobalRoom

/-- Assignment to fields of one user object. -/
def setUser (W : GlobalRoom) (r : UserRef) (f : User → User) : GlobalRoom :=
  { W with user := fun x => if x = r then f (W.user r) else W.user x }

/-- Record an effect. -/
def emit (W : GlobalRoom) (e : Event) : GlobalRoom :=
  { W with trace := W.trace ++ [e] }

/-- `this.searchers.splice(i, 1)` -/
def splice (W : GlobalRoom) (i : Nat) : GlobalRoom :=
  { W with searchers := W.searchers.eraseIdx i }

/-- The loop of `cancelSearch` (rooms.js 379-393). `n` counts the iterations
left, `i` is the loop index: after a `splice` the source does `i--; continue`,
so the index stays and the queue is one shorter. -/
def cancelSearchLoop (user : UserRef) : Nat → Nat → GlobalRoom → GlobalRoom
  | 0, _, W => W
  | n + 1, i, W =>
    match W.searchers[i]? with
    | none => W
    | some search =>
      match W.get search.userid with
      | none => cancelSearchLoop user n i (W.splice i)
      | some searchUser =>
        if searchUser = user then cancelSearchLoop user n i (W.splice i)
        else if (W.user searchUser).connected = false then
          cancelSearchLoop user n i
            ((W.splice i).setUser searchUser (fun u => { u with searching := 0 }))
        else cancelSearchLoop user n (i + 1) W

/-- `GlobalRoom.prototype.cancelSearch(user)` (rooms.js 376-397), for a user
object: the new state and the returned boolean. -/
def cancelSearch (W : GlobalRoom) (user : UserRef) : GlobalRoom × Bool :=
  let W := W.emit (.cancelChallengeTo user)
  if (W.user user).searching = 0 then (W, false)
  else
    let W := cancelSearchLoop user W.searchers.length 0 W
    let W := W.setUser user (fun u => { u with searching := 0 })
    (W.emit (.updateSearchOff user), true)

/-- The range within which two ratings match (rooms.js 443-446). -/
def searchRange (search1 search2 : Search) : JSNumber :=
  let searchRange : JSNumber := 100
  let formatid := search1.formatid
  let elapsed : JSNumber := JSNumber.abs (JSNumber.sub search1.time search2.time)
  let searchRange : JSNumber :=
    if formatid = "ou" ∨ formatid = "oucurrent" ∨ formatid = "randombattle" then 50
    else searchRange
  let searchRange := JSNumber.add searchRange (JSNumber.div elapsed 300)
  if JSNumber.gt searchRange 300 then 300 else searchRange

/-- `GlobalRoom.prototype.matchmakingOK` (rooms.js 432-452): the returned
boolean and the state, in which a successful match records `lastMatch`. -/
def matchmakingOK (W : GlobalRoom) (search1 search2 : Search) (user1 user2 : UserRef) :
    Bool × GlobalRoom :=
  if user1 = user2 then (false, W)
  else if (W.user user1).latestIp = (W.user user2).latestIp then (false, W)
  else if (W.user user1).lastMatch = some (W.user user2).userid
      ∨ (W.user user2).lastMatch = some (W.user user1).userid then (false, W)
  else if JSNumber.gt (JSNumber.abs (JSNumber.sub search1.rating search2.rating))
      (searchRange search1 search2) then (false, W)
  else
    let W1 := W.setUser user1 (fun u => { u with lastMatch := some (W.user user2).userid })
    let W2 := W1.setUser user2 (fun u => { u with lastMatch := some (W1.user user1).userid })
    (true, W2)

/-- `format.toLowerCase().replace(/[^a-z0-9]+/g, '')` (rooms.js 631). -/
def formaturlid (format : String) : String :=
  toLowerAlnum format

/-- The probe `while (rooms['battle-' + formaturlid + i]) i++` (rooms.js 632-634);
`n` bounds the iterations. -/
def probeBattle (rooms : List String) (urlid : String) : Nat → Nat → Nat
  | 0, i => i
  | n + 1, i =>
    if ("battle-" ++ urlid ++ toString i) ∈ rooms then probeBattle rooms urlid n (i + 1)
    else i

/-- `Rooms.createBattle(roomid, format, p1, p2, options)` (rooms.js 1601-1612)
for a non-empty id string and two user objects: a room is constructed and
registered unless the id is registered already. -/
def createBattle (W : GlobalRoom) (roomid format : String) (p1 p2 : UserRef) (rated : Bool) :
    GlobalRoom :=
  if roomid ∈ W.rooms then W
  else
    let W := W.emit (.countBattle (W.user p1).latestIp (W.user p1).name)
    let W := W.emit (.countBattle (W.user p2).latestIp (W.user p2).name)
    let W := W.emit (.newBattleRoom roomid format p1 p2 rated)
    { W with rooms := W.rooms ++ [roomid] }

/-- `GlobalRoom.prototype.startBattle` (rooms.js 603-655). `p1` and `p2` are
the results of `Users.get(p1)` and `Users.get(p2)`. The result is the state
and the returned room id, or the exception thrown when `cancelSearch` is
called on a user that does not exist (`user.cancelChallengeTo()` on
`undefined`). The log of the lobby and the ladder IP log are not part of the
state. -/
def startBattle (W : GlobalRoom) (p1 p2 : Option UserRef) (format p1team p2team : String)
    (rated : Bool) : Except String (GlobalRoom × Option String) :=
  let W := W.emit (.startBattle p1 p2 format)
  match p1, p2 with
  | none, _ => .error "TypeError: Cannot read property cancelChallengeTo of undefined"
  | some _, none => .error "TypeError: Cannot read property cancelChallengeTo of undefined"
  | some p1, some p2 =>
    if p1 = p2 then
      let W := (W.cancelSearch p1).1
      let W := (W.cancelSearch p2).1
      .ok (W.emit (.popup p1 ("You can\x27t battle your own account. Please use " ++
        "something like Private Browsing to battle yourself.")), none)
    else if W.lockdown = .on then
      let W := (W.cancelSearch p1).1
      let W := (W.cancelSearch p2).1
      let W := W.emit (.popup p1
        "The server is shutting down. Battles cannot be started at this time.")
      let W := W.emit (.popup p2
        "The server is shutting down. Battles cannot be started at this time.")
      .ok (W, none)
    else
      let urlid := formaturlid format
      let i := probeBattle W.rooms urlid (W.rooms.length + 1) (W.lastBattle + 1)
      let W := { W with lastBattle := i }
      let W := W.emit .writeNumRooms
      let roomid := "battle-" ++ urlid ++ "-" ++ toString i
      let W := W.createBattle roomid format p1 p2 rated
      let W := W.emit (.joinRoom p1 roomid)
      let W := W.emit (.joinRoom p2 roomid)
      let W := W.emit (.joinBattle p1 roomid p1team)
      let W := W.emit (.joinBattle p2 roomid p2team)
      let W := (W.cancelSearch p1).1
      let W := (W.cancelSearch p2).1
      .ok (W, some roomid)

/-- The end of `addSearch` (rooms.js 472-473): `user.searching++` and the push. -/
def enqueue (W : GlobalRoom) (newSearch : Search) (user : UserRef) : GlobalRoom :=
  let W := W.setUser user (fun u => { u with searching := u.searching + 1 })
  { W with searchers := W.searchers ++ [newSearch] }

/-- The loop of `addSearch` (rooms.js 455-471) followed by the enqueue; `n`
counts the iterations left and `i` is the loop index. -/
def addSearchLoop (newSearch : Search) (user : UserRef) :
    Nat → Nat → GlobalRoom → Except String GlobalRoom
  | 0, _, W => .ok (W.enqueue newSearch user)
  | n + 1, i, W =>
    match W.searchers[i]? with
    | none => .ok (W.enqueue newSearch user)
    | some search =>
      match W.get search.userid with
      | none => addSearchLoop newSearch user n i (W.splice i)
      | some searchUser =>
        if (W.user searchUser).connected = false then
          addSearchLoop newSearch user n i (W.splice i)
        else if newSearch.formatid = search.formatid ∧ searchUser = user then .ok W
        else if newSearch.formatid = search.formatid then
          match W.matchmakingOK search newSearch searchUser user with
          | (true, W) =>
            let W := (W.cancelSearch user).1
            let W := (W.cancelSearch searchUser).1
            let W := W.emit (.updateSearchOff user)
            match W.startBattle (some searchUser) (some user) search.formatid search.team
                newSearch.team true with
            | .ok (W, _) => .ok W
            | .error e => .error e
          | (false, W) => addSearchLoop newSearch user n (i + 1) W
        else addSearchLoop newSearch user n (i + 1) W

/-- `GlobalRoom.prototype.addSearch(newSearch, user)` (rooms.js 453-474). -/
def addSearch (W : GlobalRoom) (newSearch : Search) (user : UserRef) :
    Except String GlobalRoom :=
  if (W.user user).connected = false then .ok W
  else addSearchLoop newSearch user W.searchers.length 0 W

/-- The tickets of the queue that belong to `user` for `formatid`: those whose
`userid` resolves (`Users.get`) to `user`. -/
def ticketsOf (W : GlobalRoom) (user : UserRef) (formatid : String) : List Search :=
  W.searchers.filter (fun s => decide (W.get s.userid = some user) && decide (s.formatid = formatid))

/-- The queue invariant: at most one ticket per (user, formatid) pair. -/
def QueueInv (W : GlobalRoom) : Prop :=
  ∀ user formatid, (W.ticketsOf user formatid).length ≤ 1

/-- The loop of `cancelSearch` keeps exactly the tickets of connected users
other than `user`. -/
def keeps (W : GlobalRoom) (user : UserRef) (s : Search) : Bool :=
  match W.get s.userid with
  | none => false
  | some searchUser => decide (searchUser ≠ user) && (W.user searchUser).connected

/-- The invocations of `startBattle` recorded in a trace. -/
def battleStarts (t : List Event) : List (Option UserRef × Option UserRef × String) :=
  t.filterMap (fun e => match e with
    | .startBattle p1 p2 format => some (p1, p2, format)
    | _ => none)

/-- `W'` has the user table of `W` and a queue obtained from the queue of `W`
by removing tickets. -/
def Pruned (W W' : GlobalRoom) : Prop :=
  W'.get = W.get ∧ List.Sublist W'.searchers W.searchers

end GlobalRoom

/-! ## Concrete states used in examples -/

namespace Example

/-- User objects: 0 is alice (1.1.1.1), 1 is bob (2.2.2.2), 2 is carol
(3.3.3.3); every other reference is a disconnected guest. -/
def users : UserRef → User := fun r =>
  if r = 0 then ⟨"alice", "Alice", true, 1, "1.1.1.1", none⟩
  else if r = 1 then ⟨"bob", "Bob", true, 0, "2.2.2.2", none⟩
  else if r = 2 then ⟨"carol", "Carol", true, 1, "3.3.3.3", none⟩
  else ⟨"guest", "Guest", false, 0, "", none⟩

/-- The table of `Users.get` for the three users. -/
def get : String → Option UserRef := fun id =>
  if id = "alice" then some 0 else if id = "bob" then some 1
  else if id = "carol" then some 2 else none

def ticketAlice : Search := ⟨"alice", "ou", "", 1000, 0⟩

def ticketBob : Search := ⟨"bob", "ou", "", 1020, 0⟩

def ticketCarol : Search := ⟨"carol", "ou", "", 1010, 0⟩

/-- A ticket of alice rated `50 + 100 / 300`, the double 50.333333333333336,
taken at time 100. -/
def ticketRounded : Search :=
  ⟨"alice", "ou", "", JSNumber.add 50 (JSNumber.div 100 300), 100⟩

/-- A ticket of bob rated 0, taken at time 0. -/
def ticketZero : Search := ⟨"bob", "ou", "", 0, 0⟩

/-- A ticket of alice whose rating is `NaN`. -/
def ticketNaN : Search := ⟨"alice", "ou", "", JSNumber.nan, 0⟩

/-- Alice is searching `ou`; nobody else is. -/
def oneSearcher : GlobalRoom :=
  { get := get, user := users, searchers := [ticketAlice], lockdown := .off,
    lastBattle := 0, rooms := [], trace := [] }

/-- Carol and alice are searching `ou`, carol first. -/
def twoSearchers : GlobalRoom :=
  { oneSearcher with searchers := [ticketCarol, ticketAlice] }

/-- Alice has a ticket in the queue while her `searching` counter is 0. -/
def staleCounter : GlobalRoom :=
  { oneSearcher with
    user := fun r => if r = 0 then ⟨"alice", "Alice", true, 0, "1.1.1.1", none⟩ else users r }

end Example

namespace GlobalRoom

/-- The matchmaking range in the words of the specification:
`min(300, base + |time1 - time2| / 300)` with base 50 for the formats `ou`,
`oucurrent` and `randombattle` and 100 otherwise, each operation the one of
JavaScript numbers (`Math.min`, `+`, `Math.abs`, `-`, `/`). -/
def specSearchRange (search1 search2 : Search) : JSNumber :=
  JSNumber.min 300
    (JSNumber.add (if search1.formatid ∈ ["ou", "oucurrent", "randombattle"] then 50 else 100)
      (JSNumber.div (JSNumber.abs (JSNumber.sub search1.time search2.time)) 300))

/-- Compatibility of two tickets in the words of the specification: different
users, different latest IPs, neither the last match of the other, and ratings
within the range, `<=` being the comparison of JavaScript numbers. -/
def SpecCompatible (W : GlobalRoom) (search1 search2 : Search) (user1 user2 : UserRef) : Prop :=
  user1 ≠ user2 ∧
  (W.user user1).latestIp ≠ (W.user user2).latestIp ∧
  (W.user user1).lastMatch ≠ some (W.user user2).userid ∧
  (W.user user2).lastMatch ≠ some (W.user user1).userid ∧
  JSNumber.le (JSNumber.abs (JSNumber.sub search1.rating search2.rating))
    (specSearchRange search1 search2) = true

end GlobalRoom

namespace GlobalRoom

/-- The loop of `addSearch(newSearch, user)` passes over the ticket `s`
without returning and without a match: the ticket is stale (its user is gone
or disconnected, so it is pruned), or it has another format, or it belongs to
another user and `matchmakingOK` refuses the pair. -/
def PassedOver (W : GlobalRoom) (newSearch : Search) (user : UserRef) (s : Search) : Prop :=
  match W.get s.userid with
  | none => True
  | some searchUser =>
    (W.user searchUser).connected = false ∨
    newSearch.formatid ≠ s.formatid ∨
    (searchUser ≠ user ∧ (W.matchmakingOK s newSearch searchUser user).1 = false)

/-- The queue holds no ticket whose userid resolves to `user`. -/
def NoTicket (W : GlobalRoom) (user : UserRef) : Prop :=
  ∀ s ∈ W.searchers, W.get s.userid ≠ some user

end GlobalRoom

/-! ## Rooms and their logs -/

/-- `~~x` for a non-negative integer `x`: the low 32 bits read as a signed
integer. -/
def toInt32 (n : Nat) : Int :=
  if n % 4294967296 < 2147483648 then (n % 4294967296 : Nat)
  else ((n % 4294967296 : Nat) : Int) - 4294967296

/-- What a room hands to the sockets and to its users. -/
inductive RoomEvent where
  /-- `this.send(message)`: a broadcast on the channel of the room -/
  | send (message : String)
  /-- `this.sendUser(user, message)` -/
  | sendUser (userid message : String)
  /-- the broadcast of `update()`: the pending join reports (chat rooms only)
  followed by the log lines `log.slice(lastUpdate)`, joined with newlines -/
  | update (joins lines : List String)
  deriving DecidableEq

/-- The fields of `Room` (rooms.js 25-36) that carry the log. `now` is the
value `Date.now()` returns, `sent` the trace of what the room sent. -/
structure Room where
  id : String
  title : String
  log : List String
  lastUpdate : Nat
  now : Nat
  sent : List RoomEvent

namespace Room

/-- The line that `add` stores: a chat line `|c|...` of a room with
`logTimes` gets its timestamp (rooms.js 64-66). -/
def stamp (logTimes : Bool) (now : Nat) (message : String) : String :=
  if logTimes && message.take 3 == "|c|" then
    "|c:|" ++ toString (toInt32 (now / 1000)) ++ "|" ++ message.drop 3
  else message

/-- `Room.prototype.add(message)` (rooms.js 61-68) for a string. `logTimes` is
the field `this.logTimes`, which only chat rooms have; `logEntry` writes to
the log file and does not touch the room. -/
def add (r : Room) (logTimes : Bool) (message : String) : Room :=
  { r with log := r.log ++ [stamp logTimes r.now message] }

/-- `Room.prototype.addRaw(message)` (rooms.js 70-72). -/
def addRaw (r : Room) (logTimes : Bool) (message : String) : Room :=
  r.add logTimes ("|raw|" ++ message)

/-- `Room.prototype.send(message)` (rooms.js 45-49). -/
def send (r : Room) (message : String) : Room :=
  { r with sent := r.sent ++ [.send message] }

/-- `Room.prototype.sendUser(user, message)` (rooms.js 58-60). -/
def sendUser (r : Room) (userid message : String) : Room :=
  { r with sent := r.sent ++ [.sendUser userid message] }

/-- The constructor `Room(roomid, title)` (rooms.js 26-36) with the prototype
value `lastUpdate = 0`. -/
def new (roomid title : String) (now : Nat) : Room :=
  { id := roomid, title := if title = "" then roomid else title, log := [], lastUpdate := 0,
    now := now, sent := [] }

end Room

/-- The log lines broadcast by `update()`, in the order they were sent. -/
def sentLines : List RoomEvent → List String
  | [] => []
  | .update _ lines :: rest => lines ++ sentLines rest
  | _ :: rest => sentLines rest

/-- A chat room: a room with the queue of join reports, which exists only
when `Config.reportjoinsperiod` is set, and its timer. -/
structure ChatRoom extends Room where
  logTimes : Bool
  reportJoinsQueue : Option (List String)
  reportJoinsInterval : Bool

namespace ChatRoom

/-- The constructor `ChatRoom(roomid, title, options)` (rooms.js 1310-1339),
as far as the log is concerned. -/
def new (roomid title : String) (now : Nat) (reportjoinsperiod : Bool) : ChatRoom :=
  { Room.new roomid title now with
    logTimes := true
    reportJoinsQueue := if reportjoinsperiod then some [] else none
    reportJoinsInterval := false }

/-- `add`, inherited from `Room`. -/
def add (r : ChatRoom) (message : String) : ChatRoom :=
  { r with toRoom := r.toRoom.add r.logTimes message }

/-- `addRaw`, inherited from `Room`. -/
def addRaw (r : ChatRoom) (message : String) : ChatRoom :=
  { r with toRoom := r.toRoom.addRaw r.logTimes message }

/-- `ChatRoom.prototype.update()` (rooms.js 1455-1472). The cached user list
is not part of the state. -/
def update (r : ChatRoom) : ChatRoom :=
  if r.log.length ≤ r.lastUpdate then r
  else
    let entries := r.log.drop r.lastUpdate
    let flush : Bool := match r.reportJoinsQueue with
      | some queue => queue.length != 0
      | none => false
    let joins := if flush then r.reportJoinsQueue.getD [] else []
    let log := if r.log.length > 100 then r.log.drop (r.log.length - 100) else r.log
    { r with
      log := log
      lastUpdate := log.length
      reportJoinsQueue := if flush then some [] else r.reportJoinsQueue
      reportJoinsInterval := if flush then false else r.reportJoinsInterval
      sent := r.sent ++ [.update joins entries] }

end ChatRoom

/-- The calls on the log of a room: `add(message)`, `update()`, and the clock
moving on. -/
inductive LogOp where
  | add (message : String)
  | update
  | clock (now : Nat)

/-- The lines that the `add` calls of a sequence store, in order; `logTimes`
and `now` are the flag of the room and the clock at the start. -/
def storedLines (logTimes : Bool) : Nat → List LogOp → List String
  | _, [] => []
  | now, .add message :: ops => Room.stamp logTimes now message :: storedLines logTimes now ops
  | now, .update :: ops => storedLines logTimes now ops
  | _, .clock now :: ops => storedLines logTimes now ops

namespace ChatRoom

/-- One call on a chat room. -/
def step (r : ChatRoom) : LogOp → ChatRoom
  | .add message => r.add message
  | .update => r.update
  | .clock now => { r with now := now }

/-- A sequence of calls on a chat room. -/
def run (r : ChatRoom) (ops : List LogOp) : ChatRoom :=
  ops.foldl step r

end ChatRoom

/-! ## Battle rooms and the inactivity timer -/

/-- `TIMEOUT_EMPTY_DEALLOCATE` (rooms.js 12), in milliseconds. -/
def TIMEOUT_EMPTY_DEALLOCATE : Nat := 10 * 60 * 1000

/-- `TIMEOUT_INACTIVE_DEALLOCATE` (rooms.js 13), in milliseconds. -/
def TIMEOUT_INACTIVE_DEALLOCATE : Nat := 40 * 60 * 1000

/-- `a[i]` for a two-element array `a` and a number `i`: `undefined` unless
`i` is 0 or 1. -/
def pick {α : Type} (a : α × α) (i : Int) : Option α :=
  if i = 0 then some a.1 else if i = 1 then some a.2 else none

/-- Modelled from the spec: the BattleActor (the simulator object of
`simulator.js`, which is not part of the sources), reduced to the flags and
fields that `rooms.js` reads: `started`, `ended`, `active`, the seated
`players` and their ids, the names `p1` and `p2` (empty when the player is
absent), `inactiveSide` and `endType`. `sent` records the messages passed to
`send(type, data)`, which go to the simulator process. -/
structure Battle where
  started : Bool
  ended : Bool
  active : Bool
  players : Option User × Option User
  playerids : Option String × Option String
  p1 : String
  p2 : String
  inactiveSide : Int
  endType : Option String
  sent : List (String × Option String)
  deriving DecidableEq

namespace Battle

/-- Modelled from the spec: `getPlayer(slot)` of the BattleActor, the player
seated in `slot`, `players[slot]`. -/
def getPlayer (b : Battle) (slot : Int) : Option User :=
  (pick b.players slot).join

/-- Modelled from the spec: `getSlot(user)` of the BattleActor, the slot the
user is seated in, or -1. -/
def getSlot (b : Battle) (user : User) : Int :=
  if b.players.1 = some user then 0 else if b.players.2 = some user then 1 else -1

/-- Modelled from the spec: `send(type, data)` of the BattleActor; the message
goes to the simulator process and the flags of the object do not change. -/
def send (b : Battle) (type : String) (data : Option String) : Battle :=
  { b with sent := b.sent ++ [(type, data)] }

end Battle

/-- The value of `rated`: `{p1, p2, format}`. -/
structure Rated where
  p1 : String
  p2 : String
  format : String
  deriving DecidableEq

/-- A battle room (rooms.js 670-729). `rated`, `tour`, `battle` and `users`
are `none` for `false` or `null`; a timer is the delay it was set with. -/
structure BattleRoom extends Room where
  format : String
  rated : Option Rated
  tour : Option (Rated × String)
  battle : Option Battle
  users : Option (List String)
  auth : List (String × String)
  p1 : User
  p2 : User
  active : Bool
  sideTicksLeft : Int × Int
  sideTurnTicks : Int × Int
  disconnectTickDiff : Int × Int
  resetTimer : Option Nat
  resetUser : String
  expireTimer : Option Nat

/-- A battle room together with `rooms.global.battleCount`, which some of its
methods update. -/
structure BattleWorld where
  battleCount : Int
  room : BattleRoom

/-- The first argument of `requestKickInactive`: a user object, `false`, or
nothing. -/
inductive Requester where
  | user (u : User)
  | isFalse
  | undef

namespace BattleRoom

/-- `add`, inherited from `Room`; a battle room has no `logTimes`. -/
def add (r : BattleRoom) (message : String) : BattleRoom :=
  { r with toRoom := r.toRoom.add false message }

/-- `addRaw`, inherited from `Room`. -/
def addRaw (r : BattleRoom) (message : String) : BattleRoom :=
  { r with toRoom := r.toRoom.addRaw false message }

/-- `send`, inherited from `Room`. -/
def send (r : BattleRoom) (message : String) : BattleRoom :=
  { r with toRoom := r.toRoom.send message }

/-- `sendUser`, inherited from `Room`. -/
def sendUser (r : BattleRoom) (userid message : String) : BattleRoom :=
  { r with toRoom := r.toRoom.sendUser userid message }

/-- `BattleRoom.prototype.push(message)` (rooms.js 731-737): a string is
pushed, an array is concatenated. -/
def push (r : BattleRoom) (message : String ⊕ List String) : BattleRoom :=
  match message with
  | .inl line => { r with log := r.log ++ [line] }
  | .inr lines => { r with log := r.log ++ lines }

/-- `BattleRoom.prototype.update()` (rooms.js 872-892). -/
def update (r : BattleRoom) : BattleRoom :=
  if r.log.length ≤ r.lastUpdate then r
  else
    let hasUsers : Bool := match r.users with
      | some users => users.length != 0
      | none => false
    { r with
      sent := r.sent ++ [.update [] (r.log.drop r.lastUpdate)]
      lastUpdate := r.log.length
      expireTimer :=
        some (if hasUsers then TIMEOUT_INACTIVE_DEALLOCATE else TIMEOUT_EMPTY_DEALLOCATE) }

/-- `BattleRoom.prototype.getInactiveSide()` (rooms.js 920-924), on the battle
of the room. -/
def getInactiveSide (b : Battle) : Int :=
  if b.players.1.isSome ∧ b.players.2.isNone then 1
  else if b.players.2.isSome ∧ b.players.1.isNone then 0
  else b.inactiveSide

/-- The message of a forfeit (rooms.js 928): `' forfeited.'` unless one is given. -/
def forfeitMessage (message : Option String) : String :=
  match message with
  | some m => if m = "" then " forfeited." else m
  | none => " forfeited."

/-- The side that forfeits (rooms.js 930-934): the given side, or else the
side of the user among the player ids of the battle, if any. -/
def forfeitSide (battle : Battle) (user : Option User) (side : Option Int) : Option Int :=
  match side with
  | some s => some s
  | none =>
    let s : Option Int := match user with
      | some u => if some u.userid = battle.playerids.1 then some 0 else none
      | none => none
    match user with
    | some u => if some u.userid = battle.playerids.2 then some 1 else s
    | none => s

/-- The name shown for the side that forfeits (rooms.js 936-944). -/
def forfeitName (r : BattleRoom) (user : Option User) (side : Int) : String :=
  let name := "Player " ++ toString (side + 1)
  match user with
  | some u => u.name
  | none => match r.rated with
    | some rated => (pick (rated.p1, rated.p2) side).getD "undefined"
    | none => name

/-- The end of `forfeit` (rooms.js 946-951): the message is logged, the battle
is told that the other side wins, and `active` and the global battle count
follow the battle. -/
def declareForfeit (w : BattleWorld) (battle : Battle) (name message : String) (side : Int) :
    BattleWorld :=
  let r : BattleRoom := w.room.add ("|-message|" ++ name ++ message)
  let battle : Battle := { battle with endType := some "forfeit" }
  let battle : Battle := battle.send "win" (pick ("p2", "p1") side)
  let r : BattleRoom := { r with battle := some battle }
  let battleCount := w.battleCount
    + ((if battle.active then 1 else 0) - (if r.active then 1 else 0))
  let r : BattleRoom := { r with active := battle.active }
  { battleCount := battleCount, room := r.update }

/-- `BattleRoom.prototype.forfeit(user, message, side)` (rooms.js 925-953):
the new state and the returned boolean. -/
def forfeit (w : BattleWorld) (user : Option User) (message : Option String)
    (side : Option Int) : BattleWorld × Bool :=
  match w.room.battle with
  | none => (w, false)
  | some battle =>
    if battle.ended ∨ battle.started = false then (w, false)
    else
      match forfeitSide battle user side with
      | none => (w, false)
      | some side =>
        (declareForfeit w battle (forfeitName w.room user side) (forfeitMessage message) side,
          true)

/-- `BattleRoom.prototype.sendPlayer(num, message)` (rooms.js 954-958). -/
def sendPlayer (r : BattleRoom) (battle : Battle) (num : Int) (message : String) : BattleRoom :=
  match battle.getPlayer num with
  | none => r
  | some player => r.sendUser player.userid message

/-- The announcement of the remaining time on a tick that does not end the
battle (rooms.js 982-1000). -/
def announceTicks (r : BattleRoom) (battle : Battle) (inactiveSide : Int)
    (ticksLeft : Int × Int) : BattleRoom :=
  if inactiveSide = 0 ∨ inactiveSide = 1 then
    let inactiveTicksLeft := if inactiveSide = 0 then ticksLeft.1 else ticksLeft.2
    let inactiveUser := battle.getPlayer inactiveSide
    if inactiveTicksLeft % 3 = 0 ∨ inactiveTicksLeft ≤ 4 then
      r.send ("|inactive|" ++ (match inactiveUser with
          | some u => u.name
          | none => "Player " ++ toString (inactiveSide + 1))
        ++ " has " ++ toString (inactiveTicksLeft * 10) ++ " seconds left.")
    else r
  else
    let r : BattleRoom := match battle.getPlayer 0 with
      | some u0 =>
        if ticksLeft.1 % 3 = 0 ∨ ticksLeft.1 ≤ 4 then
          r.sendUser u0.userid ("|inactive|" ++ u0.name ++ " has "
            ++ toString (ticksLeft.1 * 10) ++ " seconds left.")
        else r
      | none => r
    match battle.getPlayer 1 with
    | some u1 =>
      if ticksLeft.2 % 3 = 0 ∨ ticksLeft.2 ≤ 4 then
        r.sendUser u1.userid ("|inactive|" ++ u1.name ++ " has "
          ++ toString (ticksLeft.2 * 10) ++ " seconds left.")
      else r
    | none => r

/-- The decrements of a tick (rooms.js 968-977): the turn budget and the bank
of every side that is on the clock go down by one. -/
def decrementTicks (r : BattleRoom) (inactiveSide : Int) : BattleRoom :=
  let r : BattleRoom := if inactiveSide ≠ 1 then
      -- side 0 is inactive
      { r with
        sideTurnTicks := (r.sideTurnTicks.1 - 1, r.sideTurnTicks.2)
        sideTicksLeft := (r.sideTicksLeft.1 - 1, r.sideTicksLeft.2) }
    else r
  if inactiveSide ≠ 0 then
    -- side 1 is inactive
    { r with
      sideTurnTicks := (r.sideTurnTicks.1, r.sideTurnTicks.2 - 1)
      sideTicksLeft := (r.sideTicksLeft.1, r.sideTicksLeft.2 - 1) }
  else r

/-- The effective remaining ticks of the two sides (rooms.js 978-979): the
lesser of the turn budget and the bank. -/
def ticksLeft (r : BattleRoom) : Int × Int :=
  (min r.sideTurnTicks.1 r.sideTicksLeft.1, min r.sideTurnTicks.2 r.sideTicksLeft.2)

/-- The side that loses when the clock runs out (rooms.js 1005-1008). -/
def losingSide (inactiveSide : Int) (ticksLeft : Int × Int) : Int :=
  if inactiveSide < 0 then
    if ticksLeft.1 ≠ 0 then 1 else if ticksLeft.2 ≠ 0 then 0 else inactiveSide
  else inactiveSide

/-- `clearTimeout(this.resetTimer); this.resetTimer = null` (rooms.js 960-961). -/
def clearTimer (r : BattleRoom) : BattleRoom :=
  { r with resetTimer := none }

/-- `BattleRoom.prototype.kickInactive()` (rooms.js 959-1012), the callback of
the inactivity timer. -/
def kickInactive (w : BattleWorld) : BattleWorld :=
  let r : BattleRoom := w.room.clearTimer
  match r.battle with
  | none => { w with room := r }
  | some battle =>
    if battle.ended ∨ battle.started = false then { w with room := r }
    else
      let inactiveSide := getInactiveSide battle
      let r : BattleRoom := r.decrementTicks inactiveSide
      let ticksLeft := r.ticksLeft
      if ticksLeft.1 ≠ 0 ∧ ticksLeft.2 ≠ 0 then
        let r : BattleRoom := announceTicks r battle inactiveSide ticksLeft
        { w with room := { r with resetTimer := some (10 * 1000) } }
      else
        let inactiveSide := losingSide inactiveSide ticksLeft
        let w : BattleWorld := (forfeit { w with room := r } (battle.getPlayer inactiveSide)
          (some " lost due to inactivity.") (some inactiveSide)).1
        { w with room := { w.room with resetUser := "" } }

/-- The start of `requestKickInactive` once no timer is scheduled (rooms.js
1018-1025): `none` when the request is refused (`return false`), else the room
with the requester recorded and the announcement made. -/
def recordRequester (r : BattleRoom) (battle : Battle) (user : Requester) (force : Bool) :
    Option BattleRoom :=
  match user with
  | .user u =>
    if force = false ∧ battle.getSlot u < 0 then none
    else some (({ r with resetUser := u.userid }).send
      ("|inactive|Battle timer is now ON: inactive players will automatically lose when " ++
        "time\x27s up. (requested by " ++ u.name ++ ")"))
  | .isFalse => some (({ r with resetUser := "~" }).add
      ("|inactive|Battle timer is ON: inactive players will automatically lose when " ++
        "time\x27s up."))
  | .undef => some r

/-- The per-turn budget `maxTicksLeft` in ticks of 10 seconds (rooms.js
1029-1034). -/
def maxTicksLeft (r : BattleRoom) (battle : Battle) : Int :=
  let maxTicksLeft : Int := 15
  let maxTicksLeft : Int := if battle.p1 = "" ∨ battle.p2 = "" then 6 else maxTicksLeft
  if r.rated.isNone then 30 else maxTicksLeft

/-- The additions to the banks when the timer is armed (rooms.js 1039-1045). -/
def topUpBank (r : BattleRoom) (inactiveSide : Int) : BattleRoom :=
  let r : BattleRoom := if inactiveSide < 0 then
      -- add 10 seconds to bank if they are below 160 seconds
      let r : BattleRoom := if r.sideTicksLeft.1 < 16 then
          { r with sideTicksLeft := (r.sideTicksLeft.1 + 1, r.sideTicksLeft.2) }
        else r
      if r.sideTicksLeft.2 < 16 then
        { r with sideTicksLeft := (r.sideTicksLeft.1, r.sideTicksLeft.2 + 1) }
      else r
    else r
  { r with sideTicksLeft := (r.sideTicksLeft.1 + 1, r.sideTicksLeft.2 + 1) }

/-- The messages to the players on the clock when the timer is armed (rooms.js
1046-1055). -/
def announceBudget (r : BattleRoom) (battle : Battle) (inactiveSide maxTicksLeft : Int) :
    BattleRoom :=
  let r : BattleRoom := if inactiveSide ≠ 1 then
      r.sendPlayer battle 0 ("|inactive|You have "
        ++ toString (min (r.sideTicksLeft.1 + 1) maxTicksLeft * 10)
        ++ " seconds to make your decision.")
    else r
  if inactiveSide ≠ 0 then
    r.sendPlayer battle 1 ("|inactive|You have "
      ++ toString (min (r.sideTicksLeft.2 + 1) maxTicksLeft * 10)
      ++ " seconds to make your decision.")
  else r

/-- The body of `requestKickInactive` once no timer is scheduled (rooms.js
1018-1058), on the battle of the room. -/
def armTimer (r : BattleRoom) (battle : Battle) (user : Requester) (force : Bool) :
    BattleRoom × Bool :=
  match r.recordRequester battle user force with
  | none => (r, false)
  | some r =>
    let maxTicksLeft := r.maxTicksLeft battle
    let r : BattleRoom := { r with sideTurnTicks := (maxTicksLeft, maxTicksLeft) }
    let inactiveSide := getInactiveSide battle
    let r : BattleRoom := r.topUpBank inactiveSide
    let r : BattleRoom := r.announceBudget battle inactiveSide maxTicksLeft
    ({ r with resetTimer := some (10 * 1000) }, true)

/-- `BattleRoom.prototype.requestKickInactive(user, force)` (rooms.js
1013-1059): the new state and the returned boolean, or the exception of
reading a field of the battle of a destroyed room. -/
def requestKickInactive (r : BattleRoom) (user : Requester) (force : Bool) :
    Except String (BattleRoom × Bool) :=
  if r.resetTimer.isSome then
    match user with
    | .user u =>
      .ok (r.sendUser u.userid "|inactive|The inactivity timer is already counting down.", false)
    | _ => .ok (r, false)
  else
    match r.battle with
    | none => .error "TypeError: Cannot read property of null"
    | some battle => .ok (r.armTimer battle user force)

/-- `BattleRoom.prototype.nextInactive()` (rooms.js 1060-1067). -/
def nextInactive (r : BattleRoom) : Except String BattleRoom :=
  if r.resetTimer.isSome then
    let r : BattleRoom := r.update
    let r : BattleRoom := r.clearTimer
    match r.requestKickInactive .undef false with
    | .ok (r, _) => .ok r
    | .error e => .error e
  else .ok r

/-- `BattleRoom.prototype.stopKickInactive(user, force)` (rooms.js 1068-1077). -/
def stopKickInactive (r : BattleRoom) (user : Option User) (force : Bool) : BattleRoom × Bool :=
  let refused : Bool := match user with
    | some u => force = false ∧ u.userid ≠ r.resetUser
    | none => false
  if refused then (r, false)
  else if r.resetTimer.isSome then
    (r.clearTimer.send "|inactiveoff|Battle timer is now OFF.", true)
  else (r, false)

/-- The offsets given back when both players are present (rooms.js
1104-1116): the room and the value of `changed`, `none` for `false`. -/
def giveBackTicks (r : BattleRoom) : BattleRoom × Option Int :=
  -- Only one of the following conditions should happen, but do
  -- them both since you never know...
  let first : BattleRoom × Option Int := if r.disconnectTickDiff.1 ≠ 0 then
      ({ r with
          sideTurnTicks := (r.sideTurnTicks.1 + r.disconnectTickDiff.1, r.sideTurnTicks.2)
          disconnectTickDiff := (0, r.disconnectTickDiff.2) }, some 0)
    else (r, none)
  if first.1.disconnectTickDiff.2 ≠ 0 then
    ({ first.1 with
        sideTurnTicks :=
          (first.1.sideTurnTicks.1, first.1.sideTurnTicks.2 + first.1.disconnectTickDiff.2)
        disconnectTickDiff := (first.1.disconnectTickDiff.1, 0) }, some 1)
  else first

/-- `BattleRoom.prototype.kickInactiveUpdate()` (rooms.js 1078-1127). -/
def kickInactiveUpdate (r : BattleRoom) : Except String (BattleRoom × Bool) :=
  if r.rated.isNone then .ok (r, false)
  else if r.resetTimer.isSome then
    match r.battle with
    | none => .error "TypeError: Cannot read property of null"
    | some battle =>
      let inactiveSide := getInactiveSide battle
      if (battle.p1 = "" ∨ battle.p2 = "") ∧ r.disconnectTickDiff.1 = 0
          ∧ r.disconnectTickDiff.2 = 0 then
        if (battle.p1 = "" ∧ inactiveSide = 0) ∨ (battle.p2 = "" ∧ inactiveSide = 1) then
          let inactiveUser := battle.getPlayer inactiveSide
          let notice := "|inactive|" ++ (match inactiveUser with
              | some u => u.name
              | none => "Player " ++ toString (inactiveSide + 1))
            ++ " disconnected and has a minute to reconnect!"
          if battle.p1 = "" ∧ inactiveSide = 0 ∧ r.sideTurnTicks.1 > 7 then
            let r : BattleRoom := { r with
              disconnectTickDiff := (r.sideTurnTicks.1 - 7, r.disconnectTickDiff.2)
              sideTurnTicks := (7, r.sideTurnTicks.2) }
            .ok (r.send notice, true)
          else if battle.p2 = "" ∧ inactiveSide = 1 ∧ r.sideTurnTicks.2 > 7 then
            let r : BattleRoom := { r with
              disconnectTickDiff := (r.disconnectTickDiff.1, r.sideTurnTicks.2 - 7)
              sideTurnTicks := (r.sideTurnTicks.1, 7) }
            .ok (r.send notice, true)
          else .ok (r, false)
        else .ok (r, false)
      else if battle.p1 ≠ "" ∧ battle.p2 ≠ "" then
        match r.giveBackTicks with
        | (r, some changed) =>
          let user := battle.getPlayer changed
          .ok (r.send ("|inactive|" ++ (match user with
              | some u => u.name
              | none => "Player " ++ toString (changed + 1))
            ++ " reconnected and has "
            ++ toString ((pick r.sideTurnTicks changed).getD 0 * 10) ++ " seconds left!"), true)
        | (r, none) => .ok (r, false)
      else .ok (r, false)
  else .ok (r, false)

/-- The constructor `BattleRoom(roomid, format, p1, p2, options)` (rooms.js
671-722). `optionsRated` and `optionsTour` are `options.rated` and
`options.tour`, `formatRated` is `Tools.getFormat(formatid).rated !== false`,
`battle` is the object returned by `Simulator.create`, and `forcetimer` is
`Config.forcetimer`. -/
def new (roomid format : String) (p1 p2 : User) (optionsRated : Bool)
    (optionsTour : Option String) (formatRated : Bool) (battle : Battle) (forcetimer : Bool)
    (now : Nat) : BattleRoom :=
  let rated : Option Rated :=
    if optionsRated ∧ formatRated then some ⟨p1.userid, p2.userid, format⟩ else none
  let r : BattleRoom :=
    { Room.new roomid (p1.name ++ " vs. " ++ p2.name) now with
      format := format
      auth := []
      tour := optionsTour.map (fun t => (⟨p1.userid, p2.userid, format⟩, t))
      rated := rated
      battle := some battle
      users := some []
      p1 := p1
      p2 := p2
      active := false
      sideTicksLeft := if rated.isNone then (28, 28) else (21, 21)
      sideTurnTicks := (0, 0)
      disconnectTickDiff := (0, 0)
      resetTimer := none
      resetUser := ""
      expireTimer := none }
  if forcetimer then
    match r.requestKickInactive .isFalse false with
    | .ok (r, _) => r
    | .error _ => r
  else r

/-- One call on the log of a battle room. -/
def step (r : BattleRoom) : LogOp → BattleRoom
  | .add message => r.add message
  | .update => r.update
  | .clock now => { r with now := now }

/-- A sequence of calls on the log of a battle room. -/
def run (r : BattleRoom) (ops : List LogOp) : BattleRoom :=
  ops.foldl step r

end BattleRoom

namespace Example

def alice : User := users 0

def bob : User := users 1

/-- A battle as the simulator creates it: nobody seated, not started. -/
def freshBattle : Battle :=
  { started := false, ended := false, active := false, players := (none, none),
    playerids := (none, none), p1 := "", p2 := "", inactiveSide := -1, endType := none,
    sent := [] }

/-- A rated battle of alice and bob in progress, both seated. -/
def runningBattle : Battle :=
  { started := true, ended := false, active := true, players := (some alice, some bob),
    playerids := (some "alice", some "bob"), p1 := "Alice", p2 := "Bob", inactiveSide := 0,
    endType := none, sent := [] }

/-- A new chat room. -/
def lobby : ChatRoom := ChatRoom.new "lobby" "Lobby" 5000 false

/-- A new rated battle room, timer not forced. -/
def battleRoom : BattleRoom :=
  BattleRoom.new "battle-ou-1" "ou" alice bob true none true freshBattle false 5000

/-- Three lines added around two updates. -/
def logOps : List LogOp := [.add "|j|alice", .update, .add "hello", .add "|raw|x", .update]

end Example

namespace BattleRoom

/-- The state of the inactivity timer: the banks, the turn budgets, the
disconnect offsets and the scheduled callback. -/
def timer (r : BattleRoom) : (Int × Int) × (Int × Int) × (Int × Int) × Option Nat :=
  (r.sideTicksLeft, r.sideTurnTicks, r.disconnectTickDiff, r.resetTimer)

/-- The tick floor: none of the four counters is negative. -/
def TickFloor (r : BattleRoom) : Prop :=
  0 ≤ r.sideTicksLeft.1 ∧ 0 ≤ r.sideTicksLeft.2 ∧ 0 ≤ r.sideTurnTicks.1 ∧ 0 ≤ r.sideTurnTicks.2

/-- The invariant behind the tick floor: the offsets are not negative either,
and while a callback is scheduled every counter is at least 1. -/
def TimerInv (r : BattleRoom) : Prop :=
  TickFloor r ∧ 0 ≤ r.disconnectTickDiff.1 ∧ 0 ≤ r.disconnectTickDiff.2 ∧
  (r.resetTimer.isSome →
    1 ≤ r.sideTicksLeft.1 ∧ 1 ≤ r.sideTicksLeft.2 ∧ 1 ≤ r.sideTurnTicks.1 ∧ 1 ≤ r.sideTurnTicks.2)

/-- The states of a battle room and the global battle count that are reached
from a newly constructed room by the timer methods; the callback
`kickInactive` fires only while it is scheduled. The step `other` is anything
else that happens to the room or to its battle (players joining and leaving,
the simulator starting or ending the battle and moving the clock between the
sides, log lines, the result being reported) and leaves the timer state alone. -/
inductive Reachable : BattleWorld → Prop where
  | new (battleCount : Int) (roomid format : String) (p1 p2 : User) (optionsRated : Bool)
      (optionsTour : Option String) (formatRated : Bool) (battle : Battle) (forcetimer : Bool)
      (now : Nat) :
      Reachable ⟨battleCount, BattleRoom.new roomid format p1 p2 optionsRated optionsTour
        formatRated battle forcetimer now⟩
  | requestKickInactive (w : BattleWorld) (user : Requester) (force : Bool) (r : BattleRoom)
      (result : Bool) :
      Reachable w → w.room.requestKickInactive user force = .ok (r, result) →
      Reachable { w with room := r }
  | kickInactive (w : BattleWorld) :
      Reachable w → w.room.resetTimer.isSome → Reachable (BattleRoom.kickInactive w)
  | nextInactive (w : BattleWorld) (r : BattleRoom) :
      Reachable w → w.room.nextInactive = .ok r → Reachable { w with room := r }
  | stopKickInactive (w : BattleWorld) (user : Option User) (force : Bool) :
      Reachable w → Reachable { w with room := (w.room.stopKickInactive user force).1 }
  | kickInactiveUpdate (w : BattleWorld) (r : BattleRoom) (result : Bool) :
      Reachable w → w.room.kickInactiveUpdate = .ok (r, result) →
      Reachable { w with room := r }
  | other (w w' : BattleWorld) :
      Reachable w → w'.room.timer = w.room.timer → Reachable w'

end BattleRoom

namespace Example

/-- The rated battle room of alice and bob with the battle in progress and
side 0 on the clock, as the timer is requested by alice. -/
def startedRoom : BattleRoom :=
  { battleRoom with battle := some runningBattle, active := true, users := some ["alice", "bob"] }

/-- The same room with the timer armed and the bank of side 0 at one tick. -/
def lastTickRoom : BattleRoom :=
  { (startedRoom.armTimer runningBattle (.user alice) false).1 with sideTicksLeft := (1, 22) }

end Example

namespace BattleRoom

/-- The per-turn budget in the words of the specification: 15 ticks nominally,
reduced to 6 if one player has disconnected, expanded to 30 if the battle is
unrated, the adjustments applied in this order. -/
def specTurnBudget (rated playerMissing : Bool) : Int :=
  let budget : Int := 15
  let budget : Int := if playerMissing then 6 else budget
  if rated then budget else 30

end BattleRoom

namespace Example

/-- The running battle after alice dropped out of her slot. -/
def droppedBattle : Battle :=
  { runningBattle with players := (none, some bob), p1 := "" }

/-- The armed rated room with 10 ticks left on the turn of side 0, as alice
drops out. -/
def tenTicksRoom : BattleRoom :=
  { (startedRoom.armTimer runningBattle (.user alice) false).1 with
    sideTurnTicks := (10, 15), battle := some droppedBattle }

end Example

/-! ## The end of a battle -/

/-- `toId(text)` (app.js 294-299) for a string: lower case, with everything
but the letters `a-z` and the digits stripped. -/
def toId (text : String) : String :=
  toLowerAlnum text

/-- What `win` reads outside the room: `Config.logchallenges`,
`Config.autosavereplays`, the lookups `Users.getExact` and `Users.get`, and of
the user with a given id whether it is `authenticated` and whether it has a
connection (`connections[0]`). -/
structure WinEnv where
  logchallenges : Bool
  autosavereplays : Bool
  getExact : String → Option User
  get : String → Option User
  authenticated : String → Bool
  hasConnection : String → Bool

/-- The calls `win` makes on its collaborators. -/
inductive WinEffect where
  /-- `LoginServer.request` of a `ladderupdate` with `p1`, `p2`, `score` and `format` -/
  | ladderupdate (p1 p2 : String) (score : ℚ) (format : String)
  /-- `this.logBattle(p1score)` -/
  | logBattle (p1score : ℚ)
  /-- `CommandParser.parse('/savereplay', this, uploader, ...)` -/
  | savereplay (uploader : String)
  /-- `tour.onBattleWin(this, winner)` -/
  | onBattleWin (tour : String) (winner : Option String)

namespace WinEffect

def isLadderupdate : WinEffect → Bool
  | .ladderupdate _ _ _ _ => true
  | _ => false

def isLogBattle : WinEffect → Bool
  | .logBattle _ => true
  | _ => false

end WinEffect

/-- The number of ladder update requests among the calls made. -/
def ladderRequests (effects : List WinEffect) : Nat :=
  (effects.filter WinEffect.isLadderupdate).length

/-- The number of `logBattle` calls among the calls made. -/
def battleLogs (effects : List WinEffect) : Nat :=
  (effects.filter WinEffect.isLogBattle).length

namespace BattleRoom

/-- The score of player 1 (rooms.js 740, 748-752 and 827-831): 0.5 unless the
winner is one of the two players. -/
def p1score (winnerid p1 p2 : String) : ℚ :=
  if winnerid = p1 then 1 else if winnerid = p2 then 0 else 1 / 2

/-- The name under which a player goes to the ladder (rooms.js 754-757). -/
def ladderName (env : WinEnv) (userid : String) : String :=
  match env.getExact userid with
  | some u => u.name
  | none => userid

/-- The rated branch of `win` (rooms.js 745-824): `rated` is cleared, and
unless a player id is empty the ladder update is requested. The handler of the
response runs later and is not part of the call. -/
def reportRated (env : WinEnv) (r : BattleRoom) (rated : Rated) (winnerid : String) :
    BattleRoom × List WinEffect :=
  let r : BattleRoom := { r with rated := none }
  if rated.p1 = "" ∨ rated.p2 = "" then
    (r.push (.inl "|raw|ERROR: Ladder not updated: a player does not exist"), [])
  else
    let r : BattleRoom := match env.get winnerid with
      | some winner =>
        if env.authenticated winner.userid then r
        else r.sendUser winner.userid ("|askreg|" ++ winner.userid)
      | none => r
    let r : BattleRoom := r.push (.inl "|raw|Ladder updating...")
    (r, [.ladderupdate (ladderName env rated.p1) (ladderName env rated.p2)
      (p1score winnerid rated.p1 rated.p2) (toId rated.format)])

/-- `BattleRoom.prototype.logBattle(p1score)` (rooms.js 893-916) as `win`
calls it: it reads `this.battle.logData`, which throws without a battle, and
writes the log file. -/
def logBattle (r : BattleRoom) (p1score : ℚ) : Except String WinEffect :=
  match r.battle with
  | none => .error "TypeError: Cannot read property \x27logData\x27 of null"
  | some _ => .ok (.logBattle p1score)

/-- The branch of `win` for a battle that is not rated, with
`Config.logchallenges` set (rooms.js 825-834). -/
def reportChallenge (r : BattleRoom) (winnerid : String) :
    Except String (BattleRoom × List WinEffect) :=
  let r : BattleRoom := r.update
  match r.logBattle (p1score winnerid r.p1.userid r.p2.userid) with
  | .error e => .error e
  | .ok logged => .ok (r, [logged])

/-- The replay saved for the winner (rooms.js 835-840). -/
def saveReplay (env : WinEnv) (winnerid : String) : List WinEffect :=
  if env.autosavereplays then
    match env.get winnerid with
    | some uploader =>
      if env.hasConnection uploader.userid then [.savereplay uploader.userid] else []
    | none => []
  else []

/-- The tournament told of the result (rooms.js 841-846). -/
def tourWin (env : WinEnv) (r : BattleRoom) (winnerid : String) : List WinEffect :=
  match r.tour with
  | some (_, tour) => [.onBattleWin tour ((env.get winnerid).map (fun u => u.userid))]
  | none => []

/-- The end of `win` (rooms.js 847-849): the global battle count gives up the
room if it was active, `active` is cleared and the room is updated. -/
def deactivate (battleCount : Int) (r : BattleRoom) : BattleWorld :=
  let battleCount := battleCount + (0 - (if r.active then 1 else 0))
  let r : BattleRoom := { r with active := false }
  { battleCount := battleCount, room := r.update }

/-- `BattleRoom.prototype.win(winner)` (rooms.js 738-850): the new state and
the calls made on the login server, the battle log, the command parser and the
tournament; an error where the code throws. -/
def win (env : WinEnv) (w : BattleWorld) (winner : String) :
    Except String (BattleWorld × List WinEffect) :=
  let winnerid := toId winner
  let reported : Except String (BattleRoom × List WinEffect) :=
    match w.room.rated with
    | some rated => .ok (reportRated env w.room rated winnerid)
    | none =>
      if env.logchallenges then reportChallenge w.room winnerid
      else .ok (w.room, [])
  match reported with
  | .error e => .error e
  | .ok (r, effects) =>
    .ok (deactivate w.battleCount r, effects ++ saveReplay env winnerid ++ tourWin env r winnerid)

end BattleRoom

namespace Example

/-- The lookups of `Users` on the two example users, with challenges logged
and no replays saved. -/
def winEnv : WinEnv :=
  { logchallenges := true, autosavereplays := false, getExact := fun id => get id |>.map users,
    get := fun id => get id |>.map users, authenticated := fun _ => true,
    hasConnection := fun _ => true }

/-- The battle room of alice and bob in progress, not rated. -/
def challengeRoom : BattleRoom :=
  { startedRoom with rated := none }

end Example

/-! ## Destruction and creation of rooms -/

/-- The calls `destroy` makes on the objects it lets go of. -/
inductive DestroyCall where
  /-- `this.users[i].leaveRoom(this)` -/
  | leaveRoom (userid : String)
  /-- `this.battle.destroy()` -/
  | battleDestroy
  /-- `clearTimeout(timer)` on a timer set with the given delay -/
  | clearTimeout (delay : Nat)
  deriving DecidableEq

namespace BattleRoom

/-- `BattleRoom.prototype.destroy()` (rooms.js 1278-1305) on the room and the
table `rooms`: the table, the room and the calls made. Every step is defined
in every state: the loop over `users` does nothing when `users` is null, and
the battle and the two timers are touched only when they are set. The methods
`leaveRoom` of a user (users.js) and `destroy` of the simulator object are not
part of the sources; they are recorded as calls. -/
def destroy {α : Type} (r : BattleRoom) (rooms : String → Option α) :
    (String → Option α) × BattleRoom × List DestroyCall :=
  let left : List DestroyCall := match r.users with
    | some users => users.map .leaveRoom
    | none => []
  let r : BattleRoom := { r with users := none }
  let released : List DestroyCall := if r.battle.isSome then [.battleDestroy] else []
  let r : BattleRoom := { r with battle := none }
  let reset : List DestroyCall := match r.resetTimer with
    | some delay => [.clearTimeout delay]
    | none => []
  let r : BattleRoom := { r with resetTimer := none }
  let expire : List DestroyCall := match r.expireTimer with
    | some delay => [.clearTimeout delay]
    | none => []
  let r : BattleRoom := { r with expireTimer := none }
  (fun roomid => if roomid = r.id then none else rooms roomid, r,
    left ++ released ++ reset ++ expire)

end BattleRoom

/-- A reference to a room object: its position among the objects constructed. -/
abbrev RoomRef := Nat

/-- A room object. -/
inductive RoomObject where
  | battle (room : BattleRoom)
  | chat (room : ChatRoom)

/-- The state `Rooms.createBattle` and `Rooms.createChatRoom` work on: the room
objects constructed so far, the table `rooms` (rooms.js 21) from ids to
objects, and the calls of `ResourceMonitor.countBattle(ip, name)`. -/
structure Registry where
  objects : List RoomObject
  rooms : String → Option RoomRef
  countBattle : List (String × String)

namespace Registry

/-- `rooms[roomid] = new ...`: the object is constructed and entered in the
table under the id; the result is the state and the reference to the object. -/
def register (R : Registry) (roomid : String) (object : RoomObject) : Registry × RoomRef :=
  let room : RoomRef := R.objects.length
  ({ R with
    objects := R.objects ++ [object]
    rooms := fun id => if id = roomid then some room else R.rooms id }, room)

end Registry

/-- `Rooms.createBattle(roomid, format, p1, p2, options)` (rooms.js 1601-1612)
for an id string: the state and the returned room, `none` for `false`. The
arguments after `p2` are those of the constructor `BattleRoom.new`. -/
def createBattle (R : Registry) (roomid format : String) (p1 p2 : Option User)
    (optionsRated : Bool) (optionsTour : Option String) (formatRated : Bool) (battle : Battle)
    (forcetimer : Bool) (now : Nat) : Registry × Option RoomRef :=
  match p1, p2 with
  | some p1, some p2 =>
    let roomid := if roomid = "" then "default" else roomid
    match R.rooms roomid with
    | some room => (R, some room)
    | none =>
      let R : Registry := { R with
        countBattle := R.countBattle ++ [(p1.latestIp, p1.name), (p2.latestIp, p2.name)] }
      let created := R.register roomid (.battle (BattleRoom.new roomid format p1 p2 optionsRated
        optionsTour formatRated battle forcetimer now))
      (created.1, created.1.rooms roomid)
  | _, _ => (R, none)

/-- `Rooms.createChatRoom(roomid, title, data)` (rooms.js 1613-1619): the state
and the returned room. The arguments after `title` are those of the
constructor `ChatRoom.new`. -/
def createChatRoom (R : Registry) (roomid title : String) (now : Nat)
    (reportjoinsperiod : Bool) : Registry × RoomRef :=
  match R.rooms roomid with
  | some room => (R, room)
  | none => R.register roomid (.chat (ChatRoom.new roomid title now reportjoinsperiod))

namespace Example

/-- The registry holds a battle room under the id `battle-ou-1` while
`lastBattle` is 0, as after a restart with a stale counter. -/
def registeredBattle : GlobalRoom :=
  { oneSearcher with searchers := [], rooms := ["battle-ou-1"] }

/-- The empty registry. -/
def noRooms : Registry :=
  { objects := [], rooms := fun _ => none, countBattle := [] }

end Example

namespace GlobalRoom

/-- The ids of the battle rooms constructed (`new BattleRoom`) in a trace. -/
def constructed (t : List Event) : List String :=
  t.filterMap (fun e => match e with
    | .newBattleRoom roomid _ _ _ _ => some roomid
    | _ => none)

end GlobalRoom

namespace GlobalRoom

/-- A ticket is stale when its user does not exist or is not connected: the
test `!searchUser || !searchUser.connected` of `addSearch` (rooms.js 458). -/
def stale (W : GlobalRoom) (s : Search) : Bool :=
  match W.get s.userid with
  | none => true
  | some searchUser => !(W.user searchUser).connected

end GlobalRoom

namespace Example

/-- A ticket of a user that does not exist. -/
def ticketGhost : Search := ⟨"ghost", "ou", "", 1000, 0⟩

/-- Alice is searching `ou`, and behind her ticket the queue holds the ticket
of a user that does not exist. -/
def staleBehind : GlobalRoom :=
  { oneSearcher with searchers := [ticketAlice, ticketGhost] }

/-- Only the ticket of a user that does not exist is queued. -/
def staleOnly : GlobalRoom :=
  { oneSearcher with searchers := [ticketGhost] }

end Example

namespace Example

/-- The running battle with both sides on the clock. -/
def bothOnClockBattle : Battle :=
  { runningBattle with inactiveSide := -1 }

/-- The armed rated room with both sides on the clock and one tick left in
both banks. -/
def bothLastTick : BattleRoom :=
  { (startedRoom.armTimer runningBattle (.user alice) false).1 with
    sideTicksLeft := (1, 1), battle := some bothOnClockBattle }

end Example

/-! ## The users of the global room -/

/-- The global room with its table of users and the gauges that go with it
(rooms.js 287-290): `users` lists the entries of `this.users` with their keys,
`userCount` is the cache of its size, `maxUsers` and `maxUsersDate` the peak.
`global` is the matchmaking state, `greeted` lists the users whose connection
was sent the init data. -/
structure GlobalUsers where
  global : GlobalRoom
  users : List (String × UserRef)
  userCount : Int
  maxUsers : Int
  maxUsersDate : Nat
  greeted : List UserRef

/-- A call of `onJoin` or `onLeave` on the global room; the user is `none`
when the argument is not a user object, `now` is the value of `Date.now()`. -/
inductive UserOp where
  | onJoin (user : Option UserRef) (merging : Bool) (now : Nat)
  | onLeave (user : Option UserRef)

namespace GlobalUsers

/-- The table and the gauges as the constructor of `GlobalRoom` sets them
(rooms.js 287-290). -/
def new (W : GlobalRoom) : GlobalUsers :=
  { global := W, users := [], userCount := 0, maxUsers := 0, maxUsersDate := 0, greeted := [] }

/-- The property names that a plain object such as `this.users = {}`
(rooms.js 287) inherits from `Object.prototype`; their values are truthy. -/
def objectPrototypeKeys : List String :=
  ["constructor", "__defineGetter__", "__defineSetter__", "hasOwnProperty",
    "__lookupGetter__", "__lookupSetter__", "isPrototypeOf", "propertyIsEnumerable",
    "toString", "valueOf", "__proto__", "toLocaleString"]

/-- `GlobalRoom.prototype.onJoin(user, connection, merging)` (rooms.js
573-590). The test `this.users[user.userid]` is truthy for an entry of
`users` and for a key inherited from `Object.prototype`. -/
def onJoin (G : GlobalUsers) (user : Option UserRef) (merging : Bool) (now : Nat) :
    GlobalUsers :=
  match user with
  | none => G
  | some u =>
    let userid := (G.global.user u).userid
    if (G.users.lookup userid).isSome ∨ userid ∈ objectPrototypeKeys then G
    else
      let G : GlobalUsers := { G with users := G.users ++ [(userid, u)] }
      let G : GlobalUsers := { G with userCount := G.userCount + 1 }
      let G : GlobalUsers :=
        if G.userCount > G.maxUsers then
          { G with maxUsers := G.userCount, maxUsersDate := now }
        else G
      if merging then G else { G with greeted := G.greeted ++ [u] }

/-- `GlobalRoom.prototype.onLeave(user)` (rooms.js 597-602). -/
def onLeave (G : GlobalUsers) (user : Option UserRef) : GlobalUsers :=
  match user with
  | none => G
  | some u =>
    let userid := (G.global.user u).userid
    let G : GlobalUsers := { G with users := G.users.filter (fun entry => entry.1 ≠ userid) }
    let G : GlobalUsers := { G with userCount := G.userCount - 1 }
    { G with global := (G.global.cancelSearch u).1 }

/-- One call. -/
def step (G : GlobalUsers) : UserOp → GlobalUsers
  | .onJoin user merging now => G.onJoin user merging now
  | .onLeave user => G.onLeave user

/-- A sequence of calls. -/
def run (G : GlobalUsers) (ops : List UserOp) : GlobalUsers :=
  ops.foldl step G

/-- Every `onLeave` of the sequence is for a user that is in `users` when the
call is made. -/
def LeavesMembers : GlobalUsers → List UserOp → Prop
  | _, [] => True
  | G, .onJoin user merging now :: ops => LeavesMembers (G.onJoin user merging now) ops
  | G, .onLeave user :: ops =>
    (∀ u, user = some u → (G.users.lookup (G.global.user u).userid).isSome) ∧
    LeavesMembers (G.onLeave user) ops

end GlobalUsers

namespace GlobalUsers

/-- The invariant of the gauges: the keys of `users` are distinct and
`userCount` is their number. -/
def Counted (G : GlobalUsers) : Prop :=
  (G.users.map Prod.fst).Nodup ∧ G.userCount = G.users.length

end GlobalUsers

/-! ## The writers of the global room -/

/-- The closure of `writeChatRoomData` (rooms.js 255-284): the flags `writing`
and `writePending`, with two counters that the code does not keep: the writes
started and not yet finished (a write runs from `fs.writeFile` to the call of
`finishWriting` at its end) and the writes started so far. -/
structure ChatRoomDataWriter where
  writing : Bool
  writePending : Bool
  inFlight : Nat
  started : Nat
  deriving DecidableEq

namespace ChatRoomDataWriter

/-- The closure as the constructor of `GlobalRoom` creates it. -/
def new : ChatRoomDataWriter :=
  { writing := false, writePending := false, inFlight := 0, started := 0 }

/-- A call of `writeChatRoomData()` (rooms.js 265-283). -/
def writeChatRoomData (s : ChatRoomDataWriter) : ChatRoomDataWriter :=
  if s.writing then { s with writePending := true }
  else { s with writing := true, inFlight := s.inFlight + 1, started := s.started + 1 }

/-- The end of a write: `finishWriting()` (rooms.js 258-264). -/
def finishWriting (s : ChatRoomDataWriter) : ChatRoomDataWriter :=
  let s : ChatRoomDataWriter := { s with writing := false, inFlight := s.inFlight - 1 }
  if s.writePending then
    let s : ChatRoomDataWriter := { s with writePending := false }
    s.writeChatRoomData
  else s

/-- The states reached from the new closure by requests and by the ends of
writes; a write ends only while one is in flight. -/
inductive Reachable : ChatRoomDataWriter → Prop where
  | new : Reachable ChatRoomDataWriter.new
  | request (s : ChatRoomDataWriter) : Reachable s → Reachable s.writeChatRoomData
  | finish (s : ChatRoomDataWriter) : Reachable s → 0 < s.inFlight → Reachable s.finishWriting

end ChatRoomDataWriter

/-- The closure of `writeNumRooms` (rooms.js 224-253): the flag `writing` and
`lastBattle`, the last value written to the file, `none` while it is
`undefined`; `current` is `self.lastBattle`. The counters `inFlight` and
`started` are as for `ChatRoomDataWriter`. -/
structure NumRoomsWriter where
  writing : Bool
  lastBattle : Option Nat
  current : Nat
  inFlight : Nat
  started : Nat
  deriving DecidableEq

namespace NumRoomsWriter

/-- The closure as the constructor of `GlobalRoom` creates it, with
`self.lastBattle` as read from the file. -/
def new (current : Nat) : NumRoomsWriter :=
  { writing := false, lastBattle := none, current := current, inFlight := 0, started := 0 }

/-- `lastBattle >= self.lastBattle`, false while `lastBattle` is `undefined`. -/
def upToDate (s : NumRoomsWriter) : Bool :=
  match s.lastBattle with
  | some written => decide (written ≥ s.current)
  | none => false

/-- A call of `writeNumRooms()` (rooms.js 233-252). -/
def writeNumRooms (s : NumRoomsWriter) : NumRoomsWriter :=
  if s.writing then s
  else if s.upToDate then s
  else
    { s with
      lastBattle := some (s.current + 10)
      writing := true
      inFlight := s.inFlight + 1
      started := s.started + 1 }

/-- The end of a write: `finishWriting()` (rooms.js 227-232);
`lastBattle < self.lastBattle` is false while `lastBattle` is `undefined`. -/
def finishWriting (s : NumRoomsWriter) : NumRoomsWriter :=
  let s : NumRoomsWriter := { s with writing := false, inFlight := s.inFlight - 1 }
  match s.lastBattle with
  | some written => if written < s.current then s.writeNumRooms else s
  | none => s

/-- An assignment to `self.lastBattle`, as `startBattle` makes it. -/
def setLastBattle (s : NumRoomsWriter) (i : Nat) : NumRoomsWriter :=
  { s with current := i }

/-- The states reached from a new closure by requests, by the ends of writes
(only while one is in flight) and by assignments to `self.lastBattle`. -/
inductive Reachable : NumRoomsWriter → Prop where
  | new (current : Nat) : Reachable (NumRoomsWriter.new current)
  | request (s : NumRoomsWriter) : Reachable s → Reachable s.writeNumRooms
  | finish (s : NumRoomsWriter) : Reachable s → 0 < s.inFlight → Reachable s.finishWriting
  | setLastBattle (s : NumRoomsWriter) (i : Nat) : Reachable s → Reachable (s.setLastBattle i)

end NumRoomsWriter

/-! ## Room bans -/

/-- A table from keys to ids, as `bannedUsers` and `bannedIps` are: the
entries in the order in which `for ... in` enumerates them, which for keys
that are not array indices is the order of insertion. -/
abbrev Table := List (String × String)

namespace Table

/-- `table[key]`, `none` when `key in table` is false. -/
def get? : Table → String → Option String
  | [], _ => none
  | (k, v) :: t, key => if k = key then some v else get? t key

/-- `table[key] = value`. -/
def set : Table → String → String → Table
  | [], key, value => [(key, value)]
  | (k, v) :: t, key, value => if k = key then (key, value) :: t else (k, v) :: set t key value

/-- `delete table[key]`. -/
def delete (t : Table) (key : String) : Table :=
  t.filter (fun entry => entry.1 ≠ key)

end Table

/-- The fields of a user object that the room-ban methods read: `ips` lists
the keys of `user.ips`, and `bypassall` is `user.can('bypassall')`. -/
structure RoomUser where
  userid : String
  name : String
  autoconfirmed : String
  ips : List String
  bypassall : Bool
  deriving DecidableEq

/-- The ban lists of a room (rooms.js 34-35), with the ids of the users that
were made to leave the room (`user.leaveRoom(this.id)`). -/
structure BanLists where
  bannedUsers : Table
  bannedIps : Table
  left : List String
  deriving DecidableEq

namespace BanLists

/-- The ban lists of a new room. -/
def new : BanLists :=
  { bannedUsers := [], bannedIps := [], left := [] }

/-- `Room.prototype.isRoomBanned(user)` (rooms.js 93-108): the banning id, or
`none` for `undefined`. -/
def isRoomBanned (b : BanLists) (user : Option RoomUser) : Option String :=
  match user with
  | none => none
  | some user =>
    match b.bannedUsers.get? user.userid with
    | some id => some id
    | none =>
      match b.bannedUsers.get? user.autoconfirmed with
      | some id => some id
      | none => user.ips.findSome? (fun ip => b.bannedIps.get? ip)

/-- The entries `roomBan` writes for one user (rooms.js 126-130). -/
def banEntries (b : BanLists) (user : RoomUser) (userid : String) : BanLists :=
  let b : BanLists := { b with bannedUsers := b.bannedUsers.set userid userid }
  let b : BanLists :=
    { b with bannedIps := user.ips.foldl (fun t ip => t.set ip userid) b.bannedIps }
  if user.bypassall then b else { b with left := b.left ++ [user.userid] }

/-- `roomBan(user, true, userid)`: no alts are looked for. An empty `userid`
stands for none given. -/
def roomBanOne (b : BanLists) (user : RoomUser) (userid : String) : BanLists :=
  let userid := if userid = "" then user.userid else userid
  b.banEntries user userid

/-- `myIp in otherUser.ips` for some `myIp in user.ips` (rooms.js 117-118). -/
def sharesIp (user otherUser : RoomUser) : Bool :=
  user.ips.any (fun myIp => decide (myIp ∈ otherUser.ips))

/-- One turn of the loop of `roomBan` over `Users.users` (rooms.js 115-123):
the ban lists and `alts`. -/
def banAlt (user : RoomUser) (userid : String) (state : BanLists × List String)
    (otherUser : RoomUser) : BanLists × List String :=
  if otherUser = user then state
  else if sharesIp user otherUser then
    (state.1.roomBanOne otherUser userid, state.2 ++ [otherUser.name])
  else state

/-- `Room.prototype.roomBan(user, noRecurse, userid)` (rooms.js 109-132): the
ban lists and the returned `alts`, `none` for `undefined`. `users` lists the
objects of `Users.users`, one per user id, so that `otherUser === user` is
equality of the records. -/
def roomBan (b : BanLists) (users : List RoomUser) (user : RoomUser) (noRecurse : Bool)
    (userid : String) : BanLists × Option (List String) :=
  let userid := if userid = "" then user.userid else userid
  if noRecurse then (b.banEntries user userid, none)
  else
    let found : BanLists × List String := users.foldl (banAlt user userid) (b, [])
    (found.1.banEntries user userid, some found.2)

/-- Every entry of the ban lists names `userid` as the banning id. -/
def BannedBy (b : BanLists) (userid : String) : Prop :=
  (∀ key id, b.bannedUsers.get? key = some id → id = userid) ∧
  (∀ ip id, b.bannedIps.get? ip = some id → id = userid)

/-- The loop of `unRoomBan` over `bannedUsers` (rooms.js 136-145) on the keys
found when it starts: a key deleted meanwhile is not visited. `recurse` is
the call `this.unRoomBan(entry, true)`. -/
def unbanUsers (recurse : BanLists → String → BanLists) (userid : String) :
    List String → BanLists × Option String → BanLists × Option String
  | [], state => state
  | i :: keys, (b, successUserid) =>
    match b.bannedUsers.get? i with
    | none => unbanUsers recurse userid keys (b, successUserid)
    | some entry =>
      if i = userid ∨ entry = userid then
        let b : BanLists := { b with bannedUsers := b.bannedUsers.delete i }
        let b : BanLists := if entry ≠ userid then recurse b entry else b
        unbanUsers recurse userid keys (b, some entry)
      else unbanUsers recurse userid keys (b, successUserid)

/-- The loop of `unRoomBan` over `bannedIps` (rooms.js 146-151). -/
def unbanIps (userid : String) (state : BanLists × Option String) : BanLists × Option String :=
  if state.1.bannedIps.any (fun entry => entry.2 = userid) then
    ({ state.1 with bannedIps := state.1.bannedIps.filter (fun entry => entry.2 ≠ userid) },
      some userid)
  else state

/-- `unRoomBan(userid, true)`: entries are not followed. -/
def unRoomBanOne (b : BanLists) (userid : String) : BanLists × Option String :=
  let userid := toId userid
  unbanIps userid
    (unbanUsers (fun b _ => b) userid (b.bannedUsers.map Prod.fst) (b, none))

/-- `Room.prototype.unRoomBan(userid, noRecurse)` (rooms.js 133-153): the ban
lists and the returned id, `none` for `false`. -/
def unRoomBan (b : BanLists) (userid : String) (noRecurse : Bool) : BanLists × Option String :=
  if noRecurse then b.unRoomBanOne userid
  else
    let userid := toId userid
    unbanIps userid
      (unbanUsers (fun b entry => (b.unRoomBanOne entry).1) userid
        (b.bannedUsers.map Prod.fst) (b, none))

end BanLists

namespace Example

/-- Alice on two addresses. -/
def banAlice : RoomUser :=
  { userid := "alice", name := "Alice", autoconfirmed := "", ips := ["1.1.1.1", "4.4.4.4"],
    bypassall := false }

/-- Bob shares the first address of alice. -/
def banBob : RoomUser :=
  { userid := "bob", name := "Bob", autoconfirmed := "", ips := ["1.1.1.1"], bypassall := false }

/-- Carol shares the second address of alice and has one of her own. -/
def banCarol : RoomUser :=
  { userid := "carol", name := "Carol", autoconfirmed := "", ips := ["3.3.3.3", "4.4.4.4"],
    bypassall := false }

/-- Dave shares no address with alice. -/
def banDave : RoomUser :=
  { userid := "dave", name := "Dave", autoconfirmed := "", ips := ["5.5.5.5"],
    bypassall := false }

/-- The objects of `Users.users`. -/
def banUsers : List RoomUser := [banAlice, banBob, banDave, banCarol]

/-- The ban lists after `roomBan(alice)` in a new room. -/
def aliceBanned : BanLists :=
  (BanLists.new.roomBan banUsers banAlice false "").1

end Example

/-! ## Players joining and leaving a battle -/

/-- Modelled from the spec: the methods `join`, `leave` and `sendFor` of the
BattleActor (`simulator.js`, which is not part of the sources), as functions
on the simulator object. What they do to its flags is left open: the room
only reads the object back after the call. -/
structure Simulator where
  join : Battle → User → Option Int → String → Battle
  leave : Battle → User → Battle
  sendFor : Battle → User → String → String → Battle

/-- The number of rooms whose `active` flag is set. -/
def activeRooms (rooms : List BattleRoom) : Int :=
  ((rooms.filter (fun r => r.active)).length : Int)

namespace BattleRoom

/-- The slot that a fixed pair of identities gives a user (rooms.js 1223-1227
and 1234-1238): 0 for `p1`, else 1 for `p2`, else none. -/
def fixedSlot (p1 p2 userid : String) : Option Int :=
  if p1 = userid then some 0 else if p2 = userid then some 1 else none

/-- The change of the global battle count `(battle.active ? 1 : 0) -
(this.active ? 1 : 0)`. -/
def activeDelta (battleActive roomActive : Bool) : Int :=
  (if battleActive then 1 else 0) - (if roomActive then 1 else 0)

/-- The end of `joinBattle` (rooms.js 1244-1258), once the slot is settled:
the state, the returned value (`none` for `undefined`) and the popup shown to
the user, if any. -/
def seat (sim : Simulator) (w : BattleWorld) (user : User) (slot : Option Int) (team : String) :
    Except String (BattleWorld × Option Bool × Option String) :=
  match w.room.battle with
  | none => .error "TypeError: Cannot read property \x27active\x27 of null"
  | some battle =>
    if battle.active then .ok (w, some false, some "This battle already has two players.")
    else
      let r : BattleRoom := { w.room with auth := Table.set w.room.auth user.userid "★" }
      let battle : Battle := sim.join battle user slot team
      let r : BattleRoom := { r with battle := some battle }
      let battleCount := w.battleCount + activeDelta battle.active r.active
      let r : BattleRoom := { r with active := battle.active }
      let r : BattleRoom :=
        if r.active then
          let r : BattleRoom := { r with title := "" ++ battle.p1 ++ " vs. " ++ battle.p2 }
          r.send ("|title|" ++ r.title)
        else r
      let r : BattleRoom := r.update
      match r.kickInactiveUpdate with
      | .ok (r, _) => .ok ({ battleCount := battleCount, room := r }, none, none)
      | .error e => .error e

/-- The tournament check of `joinBattle` (rooms.js 1233-1242); `slot` is the
slot found so far. -/
def joinTour (sim : Simulator) (w : BattleWorld) (user : User) (slot : Option Int)
    (team : String) : Except String (BattleWorld × Option Bool × Option String) :=
  match w.room.tour with
  | some (tour, _) =>
    match fixedSlot tour.p1 tour.p2 user.userid with
    | some slot => seat sim w user (some slot) team
    | none =>
      .ok (w, some false, some ("This is a tournament battle; your username must be "
        ++ tour.p1 ++ " or " ++ tour.p2 ++ " to join."))
  | none => seat sim w user slot team

/-- `BattleRoom.prototype.joinBattle(user, team)` (rooms.js 1220-1259): the
state, the returned value (`none` for `undefined`) and the popup shown to the
user, if any; an error where the code throws. -/
def joinBattle (sim : Simulator) (w : BattleWorld) (user : User) (team : String) :
    Except String (BattleWorld × Option Bool × Option String) :=
  match w.room.rated with
  | some rated =>
    match fixedSlot rated.p1 rated.p2 user.userid with
    | some slot => joinTour sim w user (some slot) team
    | none =>
      .ok (w, some false, some ("This is a rated battle; your username must be "
        ++ rated.p1 ++ " or " ++ rated.p2 ++ " to join."))
  | none => joinTour sim w user none team

/-- `BattleRoom.prototype.leaveBattle(user)` (rooms.js 1260-1273); `inBattle`
is `user.battles[this.id]`. -/
def leaveBattle (sim : Simulator) (w : BattleWorld) (user : Option User) (inBattle : Bool) :
    Except String (BattleWorld × Bool) :=
  match user with
  | none => .ok (w, false)
  | some user =>
    if inBattle then
      match w.room.battle with
      | none => .error "TypeError: Cannot read property \x27leave\x27 of null"
      | some battle =>
        let battle : Battle := sim.leave battle user
        let r : BattleRoom := { w.room with battle := some battle }
        let r : BattleRoom := { r with auth := Table.set r.auth user.userid "+" }
        let battleCount := w.battleCount + activeDelta battle.active r.active
        let r : BattleRoom := { r with active := battle.active }
        let r : BattleRoom := r.update
        match r.kickInactiveUpdate with
        | .ok (r, _) => .ok ({ battleCount := battleCount, room := r }, true)
        | .error e => .error e
    else .ok (w, false)

/-- `BattleRoom.prototype.decision(user, choice, data)` (rooms.js 1128-1135). -/
def decision (sim : Simulator) (w : BattleWorld) (user : User) (choice data : String) :
    Except String BattleWorld :=
  match w.room.battle with
  | none => .error "TypeError: Cannot read property \x27sendFor\x27 of null"
  | some battle =>
    let battle : Battle := sim.sendFor battle user choice data
    let r : BattleRoom := { w.room with battle := some battle }
    let w : BattleWorld :=
      if r.active ≠ battle.active then
        { battleCount := w.battleCount + activeDelta battle.active r.active
          room := { r with active := battle.active } }
      else { w with room := r }
    .ok { w with room := w.room.update }

/-- `delete this.users[userid]`, which throws when `users` is null. -/
def removeUser (r : BattleRoom) (userid : String) : Except String BattleRoom :=
  match r.users with
  | none => .error "TypeError: Cannot convert undefined or null to object"
  | some users => .ok { r with users := some (users.filter (fun id => id ≠ userid)) }

/-- The end of `onLeave` (rooms.js 1204-1218); the counter `userCount` of the
room is not part of the model. -/
def leaveRoomEnd (reportbattlejoins : Bool) (w : BattleWorld) (user : User) :
    Except String BattleWorld :=
  match w.room.removeUser user.userid with
  | .error e => .error e
  | .ok r =>
    let r : BattleRoom :=
      r.add (if reportbattlejoins then "|leave|" ++ user.name else "|L|" ++ user.name)
    let w : BattleWorld :=
      if r.users = some [] then
        { battleCount := w.battleCount + (0 - (if r.active then 1 else 0))
          room := { r with active := false } }
      else { w with room := r }
    let r : BattleRoom := w.room.update
    match r.kickInactiveUpdate with
    | .ok (r, _) => .ok { w with room := r }
    | .error e => .error e

/-- `BattleRoom.prototype.onLeave(user)` (rooms.js 1194-1219); `inBattle` is
`user.battles[this.id]`, `named` is `user.named` and `reportbattlejoins` is
`Config.reportbattlejoins`. -/
def onLeave (sim : Simulator) (reportbattlejoins : Bool) (w : BattleWorld) (user : Option User)
    (inBattle named : Bool) : Except String BattleWorld :=
  match user with
  | none => .ok w
  | some user =>
    if inBattle then
      match w.room.battle with
      | none => .error "TypeError: Cannot read property \x27leave\x27 of null"
      | some battle =>
        let battle : Battle := sim.leave battle user
        let r : BattleRoom := { w.room with battle := some battle }
        let battleCount := w.battleCount + activeDelta battle.active r.active
        let r : BattleRoom := { r with active := battle.active }
        leaveRoomEnd reportbattlejoins { battleCount := battleCount, room := r } user
    else if named = false then
      match w.room.removeUser user.userid with
      | .ok r => .ok { w with room := r }
      | .error e => .error e
    else leaveRoomEnd reportbattlejoins w user

/-- The signed change of the global battle count over a call: one if the room
is active after it, less one if it was active before. -/
def SignedDelta (w w' : BattleWorld) : Prop :=
  w'.battleCount - w.battleCount
    = (if w'.room.active then 1 else 0) - (if w.room.active then 1 else 0)

end BattleRoom

namespace Example

/-- A simulator that seats the user in the slot given, or in the first free
slot, starts the battle when both slots are taken, and empties a slot when its
user leaves. -/
def simulator : Simulator :=
  { join := fun b user slot _ =>
      let players : Option User × Option User :=
        if slot = some 1 ∨ (slot = none ∧ b.players.1.isSome) then (b.players.1, some user)
        else (some user, b.players.2)
      { b with
        players := players
        playerids := (players.1.map (fun u => u.userid), players.2.map (fun u => u.userid))
        p1 := (players.1.map (fun u => u.name)).getD ""
        p2 := (players.2.map (fun u => u.name)).getD ""
        active := players.1.isSome && players.2.isSome
        started := b.started || (players.1.isSome && players.2.isSome) }
    leave := fun b user =>
      { b with
        players := (if b.players.1 = some user then none else b.players.1,
          if b.players.2 = some user then none else b.players.2)
        active := false }
    sendFor := fun b _ choice data => b.send choice (some data) }

/-- The battle of a new room with alice seated and bob not yet. -/
def halfSeatedBattle : Battle :=
  { freshBattle with
    players := (some alice, none)
    p1 := "Alice"
    playerids := (some "alice", none) }

/-- The new rated room with alice seated and bob not yet. -/
def halfSeated : BattleRoom :=
  { battleRoom with battle := some halfSeatedBattle, users := some ["alice", "bob"] }

end Example

namespace BattleRoom

/-- The outcome of an accepted forfeit in the words of the specification: the
log gets exactly one line, `|-message|` followed by the name and the reason,
the end type of the battle is `forfeit`, and the battle is told that `winner`
wins. -/
def Forfeited (w w' : BattleWorld) (b : Battle) (name reason : String)
    (winner : Option String) : Prop :=
  w'.room.log = w.room.log ++ ["|-message|" ++ name ++ reason] ∧
  w'.room.battle = some
    { b with
      endType := some "forfeit"
      sent := b.sent ++ [("win", winner)] }

end BattleRoom

namespace Example

/-- The users of the examples with a fourth user whose id is `constructor`. -/
def withConstructor : GlobalRoom :=
  { oneSearcher with
    user := fun r =>
      if r = 3 then ⟨"constructor", "Constructor", true, 0, "6.6.6.6", none⟩ else users r }

end Example

-- END OF DEFINITIONS

/-! # Lemmas and theorems -/

/-! ## Lemmas on lists -/

theorem take_eraseIdx_self {α : Type} (l : List α) (i : Nat) :
    (l.eraseIdx i).take i = l.take i := by
  induction l generalizing i with
  | nil => simp
  | cons a l ih =>
    cases i with
    | zero => simp
    | succ i => simp [ih]

theorem drop_eraseIdx_self {α : Type} (l : List α) (i : Nat) :
    (l.eraseIdx i).drop i = l.drop (i + 1) := by
  induction l generalizing i with
  | nil => simp
  | cons a l ih =>
    cases i with
    | zero => simp
    | succ i => simp [ih]

theorem drop_of_getElem? {α : Type} {l : List α} {i : Nat} {a : α} (h : l[i]? = some a) :
    l.drop i = a :: l.drop (i + 1) := by
  induction l generalizing i with
  | nil => simp at h
  | cons b l ih =>
    cases i with
    | zero => simp at h; simp [h]
    | succ i => simp at h; simpa using ih h

theorem take_succ_of_getElem? {α : Type} {l : List α} {i : Nat} {a : α} (h : l[i]? = some a) :
    l.take (i + 1) = l.take i ++ [a] := by
  rw [List.take_succ, h]; rfl

namespace GlobalRoom

/-! ## cancelSearch -/

theorem keeps_congr (W W' : GlobalRoom) (hg : W'.get = W.get)
    (hc : ∀ r, (W'.user r).connected = (W.user r).connected) (user : UserRef) :
    keeps W' user = keeps W user := by
  funext s
  simp only [keeps, hg]
  cases W.get s.userid with
  | none => rfl
  | some su => simp [hc]

/-- What the loop of `cancelSearch` leaves untouched. -/
theorem cancelSearchLoop_frame (user : UserRef) : ∀ (n i : Nat) (W : GlobalRoom),
    (cancelSearchLoop user n i W).get = W.get ∧
    (cancelSearchLoop user n i W).lockdown = W.lockdown ∧
    (cancelSearchLoop user n i W).lastBattle = W.lastBattle ∧
    (cancelSearchLoop user n i W).rooms = W.rooms ∧
    (cancelSearchLoop user n i W).trace = W.trace ∧
    (∀ r, ((cancelSearchLoop user n i W).user r).connected = (W.user r).connected) := by
  intro n
  induction n with
  | zero => intro i W; simp [cancelSearchLoop]
  | succ n ih =>
    intro i W
    unfold cancelSearchLoop
    split
    · simp
    · split
      · have := ih i (W.splice i)
        simpa [splice] using this
      · split
        · have := ih i (W.splice i)
          simpa [splice] using this
        · split
          · rename_i searchUser _ _ _
            have := ih i ((W.splice i).setUser searchUser (fun u => { u with searching := 0 }))
            obtain ⟨h1, h2, h3, h4, h5, h6⟩ := this
            refine ⟨h1, h2, h3, h4, h5, fun r => ?_⟩
            rw [h6]
            simp only [setUser, splice]
            split <;> simp_all
          · exact ih (i + 1) W

/-- The loop of `cancelSearch` visits every ticket from index `i` on and
keeps those of connected users other than `user`. -/
theorem cancelSearchLoop_searchers (user : UserRef) : ∀ (n i : Nat) (W : GlobalRoom),
    W.searchers.length ≤ i + n →
    (cancelSearchLoop user n i W).searchers =
      W.searchers.take i ++ (W.searchers.drop i).filter (keeps W user) := by
  intro n
  induction n with
  | zero =>
    intro i W h
    simp only [cancelSearchLoop]
    rw [List.drop_of_length_le (by omega), List.take_of_length_le (by omega)]
    simp
  | succ n ih =>
    intro i W h
    unfold cancelSearchLoop
    split
    · rename_i hnone
      have hlen : W.searchers.length ≤ i := by simpa using hnone
      rw [List.drop_of_length_le hlen, List.take_of_length_le hlen]
      simp
    · rename_i search hsome
      have hlt : i < W.searchers.length := by
        by_contra hc
        rw [List.getElem?_eq_none (by omega)] at hsome
        exact Option.noConfusion hsome
      have hdrop := drop_of_getElem? hsome
      have hlen : (W.splice i).searchers.length ≤ i + n := by
        simp only [splice, List.length_eraseIdx, if_pos hlt]; omega
      split
      · rename_i hget
        have hk : keeps (W.splice i) user = keeps W user := keeps_congr W (W.splice i) rfl (fun _ => rfl) user
        rw [ih i (W.splice i) hlen, hdrop, hk]
        simp [splice, take_eraseIdx_self, drop_eraseIdx_self, keeps, hget]
      · rename_i searchUser hget
        split
        · rename_i hu
          have hk : keeps (W.splice i) user = keeps W user := keeps_congr W (W.splice i) rfl (fun _ => rfl) user
          rw [ih i (W.splice i) hlen, hdrop, hk]
          simp [splice, take_eraseIdx_self, drop_eraseIdx_self, keeps, hget, hu]
        · rename_i hu
          split
          · rename_i hconn
            have hlen2 : ((W.splice i).setUser searchUser
                (fun u => { u with searching := 0 })).searchers.length ≤ i + n := hlen
            have hk : keeps ((W.splice i).setUser searchUser
                (fun u => { u with searching := 0 })) user = keeps W user := by
              have hc : ∀ r, (((W.splice i).setUser searchUser
                  (fun u => { u with searching := 0 })).user r).connected
                  = (W.user r).connected := by
                intro r
                simp only [setUser, splice]
                split <;> simp_all
              exact keeps_congr W ((W.splice i).setUser searchUser
                (fun u => { u with searching := 0 })) rfl hc user
            rw [ih i _ hlen2, hdrop, hk]
            simp [splice, setUser, take_eraseIdx_self, drop_eraseIdx_self, keeps, hget,
              hconn]
          · rename_i hconn
            rw [ih (i + 1) W (by omega), hdrop, take_succ_of_getElem? hsome]
            have : keeps W user search = true := by
              simp [keeps, hget, hu]
              simpa using hconn
            simp [this]

/-- The loop of `cancelSearch` changes no connected user. -/
theorem cancelSearchLoop_user (user : UserRef) : ∀ (n i : Nat) (W : GlobalRoom) (r : UserRef),
    (W.user r).connected = true → (cancelSearchLoop user n i W).user r = W.user r := by
  intro n
  induction n with
  | zero => intro i W r _; rfl
  | succ n ih =>
    intro i W r hr
    unfold cancelSearchLoop
    split
    · rfl
    · split
      · exact ih i (W.splice i) r hr
      · rename_i searchUser _
        split
        · exact ih i (W.splice i) r hr
        · split
          · rename_i hconn
            have hne : r ≠ searchUser := by
              intro h; rw [h, hconn] at hr; exact Bool.noConfusion hr
            have h1 : (((W.splice i).setUser searchUser
                (fun u => { u with searching := 0 })).user r) = W.user r := by
              simp [setUser, splice, hne]
            rw [ih i _ r (by rw [h1]; exact hr), h1]
          · exact ih (i + 1) W r hr

theorem Pruned.refl (W : GlobalRoom) : Pruned W W := ⟨rfl, List.Sublist.refl _⟩

theorem Pruned.trans {W1 W2 W3 : GlobalRoom} (h12 : Pruned W1 W2) (h23 : Pruned W2 W3) :
    Pruned W1 W3 := ⟨h23.1.trans h12.1, h23.2.trans h12.2⟩

theorem pruned_emit (W : GlobalRoom) (e : Event) : Pruned W (W.emit e) :=
  ⟨rfl, List.Sublist.refl _⟩

theorem pruned_setUser (W : GlobalRoom) (r : UserRef) (f : User → User) :
    Pruned W (W.setUser r f) := ⟨rfl, List.Sublist.refl _⟩

theorem cancelSearchLoop_full (user : UserRef) (W : GlobalRoom) :
    (cancelSearchLoop user W.searchers.length 0 W).searchers
      = W.searchers.filter (keeps W user) := by
  rw [cancelSearchLoop_searchers user _ 0 W (by omega)]
  simp

theorem cancelSearch_searchers (W : GlobalRoom) (user : UserRef) :
    (W.cancelSearch user).1.searchers =
      if (W.user user).searching = 0 then W.searchers
      else W.searchers.filter (keeps W user) := by
  unfold cancelSearch
  by_cases h : (W.user user).searching = 0
  · simp [emit, h]
  · have h2 := cancelSearchLoop_full user (W.emit (.cancelChallengeTo user))
    have hk : keeps (W.emit (.cancelChallengeTo user)) user = keeps W user :=
      keeps_congr W (W.emit (.cancelChallengeTo user)) rfl (fun _ => rfl) user
    rw [hk] at h2
    simp only [emit] at h2
    simp [emit, setUser, h, h2]

theorem cancelSearch_get (W : GlobalRoom) (user : UserRef) :
    (W.cancelSearch user).1.get = W.get := by
  unfold cancelSearch
  by_cases h : (W.user user).searching = 0
  · simp [emit, h]
  · have h2 := (cancelSearchLoop_frame user (W.emit (.cancelChallengeTo user)).searchers.length 0
      (W.emit (.cancelChallengeTo user))).1
    simp only [emit] at h2
    simp [emit, setUser, h, h2]

theorem cancelSearch_pruned (W : GlobalRoom) (user : UserRef) :
    Pruned W (W.cancelSearch user).1 := by
  refine ⟨cancelSearch_get W user, ?_⟩
  rw [cancelSearch_searchers]
  split
  · exact List.Sublist.refl _
  · exact List.filter_sublist _

/-- `cancelSearch` never starts a battle. -/
theorem cancelSearch_battleStarts (W : GlobalRoom) (user : UserRef) :
    battleStarts (W.cancelSearch user).1.trace = battleStarts W.trace := by
  unfold cancelSearch
  by_cases h : (W.user user).searching = 0
  · simp [emit, h, battleStarts, List.filterMap_append]
  · have h2 := (cancelSearchLoop_frame user (W.emit (.cancelChallengeTo user)).searchers.length 0
      (W.emit (.cancelChallengeTo user))).2.2.2.2.1
    simp only [emit] at h2
    simp [emit, setUser, h, h2, battleStarts, List.filterMap_append]

/-- `cancelSearch(user)` leaves every other connected user as it was. -/
theorem cancelSearch_user (W : GlobalRoom) (user r : UserRef) (hne : r ≠ user)
    (hr : (W.user r).connected = true) : (W.cancelSearch user).1.user r = W.user r := by
  unfold cancelSearch
  by_cases h : (W.user user).searching = 0
  · simp [emit, h]
  · have h2 := cancelSearchLoop_user user (W.emit (.cancelChallengeTo user)).searchers.length 0
      (W.emit (.cancelChallengeTo user)) r hr
    simp only [emit] at h2
    simp [emit, setUser, h, h2, hne]

end GlobalRoom

namespace GlobalRoom

/-- C5 (as stated, refuted): in a state where alice holds a ticket while her
`searching` counter is 0, `cancelSearch(alice)` returns at the guard
`if (!user.searching) return false` and her ticket stays in the queue. -/
theorem cancelSearch_keeps_ticket_when_counter_zero :
    ¬ (∀ (W : GlobalRoom) (user : UserRef), ∀ s ∈ (W.cancelSearch user).1.searchers,
        (W.cancelSearch user).1.get s.userid ≠ some user) := by
  intro h
  have h1 := h Example.staleCounter 0 Example.ticketAlice
    (by simp [cancelSearch, emit, Example.staleCounter, Example.oneSearcher])
  exact h1 (by simp [cancelSearch, emit, Example.staleCounter, Example.oneSearcher,
    Example.ticketAlice, Example.get])

theorem cancelSearch_no_ticket (W : GlobalRoom) (user : UserRef)
    (h : (W.user user).searching ≠ 0) :
    ∀ s ∈ (W.cancelSearch user).1.searchers,
      (W.cancelSearch user).1.get s.userid ≠ some user := by
  intro s hs
  rw [cancelSearch_get]
  rw [cancelSearch_searchers, if_neg h] at hs
  have hk := (List.mem_filter.mp hs).2
  intro hget
  simp [keeps, hget] at hk

/-- C5 (amended): for every queue state and every user whose `searching`
counter is not zero, `cancelSearch(user)` returns true and afterwards the
queue holds no ticket whose userid resolves to that user, whatever its format. -/
theorem cancelSearch_removes_all (W : GlobalRoom) (user : UserRef)
    (h : (W.user user).searching ≠ 0) :
    (W.cancelSearch user).2 = true ∧
    ∀ s ∈ (W.cancelSearch user).1.searchers,
      (W.cancelSearch user).1.get s.userid ≠ some user :=
  ⟨by simp [cancelSearch, emit, h], cancelSearch_no_ticket W user h⟩

theorem cancelSearch_removes_all_witness :
    (Example.oneSearcher.user 0).searching ≠ 0 ∧
    (Example.oneSearcher.cancelSearch 0).2 = true ∧
    ∀ s ∈ (Example.oneSearcher.cancelSearch 0).1.searchers,
      (Example.oneSearcher.cancelSearch 0).1.get s.userid ≠ some 0 :=
  ⟨by decide, cancelSearch_removes_all Example.oneSearcher 0 (by decide)⟩

end GlobalRoom

/-! ## JavaScript numbers -/

namespace JSNumber

theorem c50 : (50 : JSNumber) = fin 25 1 := by decide

theorem c100 : (100 : JSNumber) = fin 25 2 := by decide

theorem c300 : (300 : JSNumber) = fin 75 2 := by decide

theorem stripZeros_spec (k : Nat) : ∀ (m e : Int),
    ∃ m2 e2, stripZeros k m e = fin m2 e2 ∧ (0 ≤ m → 0 ≤ m2) := by
  induction k with
  | zero => intro m e; exact ⟨m, e, rfl, id⟩
  | succ k ih =>
    intro m e
    unfold stripZeros
    by_cases h : m % 2 = 0
    · rw [if_pos h]
      obtain ⟨m2, e2, h1, h2⟩ := ih (m / 2) (e + 1)
      exact ⟨m2, e2, h1, fun hm => h2 (Int.ediv_nonneg hm (by decide))⟩
    · rw [if_neg h]
      exact ⟨m, e, rfl, id⟩

theorem normalize_spec (m e : Int) :
    ∃ m2 e2, normalize m e = fin m2 e2 ∧ (0 ≤ m → 0 ≤ m2) := by
  unfold normalize
  by_cases h : m = 0
  · rw [if_pos h]; exact ⟨0, 0, rfl, fun _ => le_refl _⟩
  · rw [if_neg h]; exact stripZeros_spec 64 m e

theorem round_spec (c : Prop) [Decidable c] (n : Int) (M : Nat) (last : Int) :
    (if c then inf (decide (n < 0))
      else normalize (if n < 0 then -(M : Int) else (M : Int)) last) ≠ nan ∧
    (0 ≤ n → NonNeg (if c then inf (decide (n < 0))
      else normalize (if n < 0 then -(M : Int) else (M : Int)) last)) := by
  by_cases hc : c
  · rw [if_pos hc]
    refine ⟨fun h => JSNumber.noConfusion h, fun hn => ?_⟩
    show decide (n < 0) = false
    simp [hn]
  · rw [if_neg hc]
    obtain ⟨m2, e2, h1, h2⟩ := normalize_spec (if n < 0 then -(M : Int) else (M : Int)) last
    rw [h1]
    refine ⟨fun h => JSNumber.noConfusion h, fun hn => ?_⟩
    show 0 ≤ m2
    apply h2
    rw [if_neg (not_lt.mpr hn)]
    exact Int.ofNat_nonneg _

/-- Rounding gives a number, and not a negative one for a ratio that is not
negative. -/
theorem roundRatio_spec (n : Int) (d : Nat) (e : Int) :
    roundRatio n d e ≠ nan ∧ (0 ≤ n → NonNeg (roundRatio n d e)) := by
  unfold roundRatio
  by_cases h0 : n = 0 ∨ d = 0
  · rw [if_pos h0]
    exact ⟨fun h => JSNumber.noConfusion h, fun _ => le_refl (0 : Int)⟩
  · rw [if_neg h0]
    exact round_spec _ n _ _

theorem abs_ne_nan (x : JSNumber) (h : x ≠ nan) : abs x ≠ nan := by
  cases x with
  | nan => exact absurd rfl h
  | inf _ => exact fun h2 => JSNumber.noConfusion h2
  | fin _ _ => exact fun h2 => JSNumber.noConfusion h2

theorem abs_nonNeg (x : JSNumber) : NonNeg (abs x) := by
  cases x with
  | nan => trivial
  | inf _ => rfl
  | fin m e => exact Int.ofNat_nonneg _

theorem add_fin_ne_nan (m e : Int) (y : JSNumber) (h : y ≠ nan) : add (fin m e) y ≠ nan := by
  cases y with
  | nan => exact absurd rfl h
  | inf _ => exact fun h2 => JSNumber.noConfusion h2
  | fin m2 e2 => exact (roundRatio_spec _ _ _).1

theorem add_nonNeg (x y : JSNumber) (hx : NonNeg x) (hy : NonNeg y) : NonNeg (add x y) := by
  cases x with
  | nan => cases y <;> trivial
  | inf a =>
    cases y with
    | nan => trivial
    | inf b =>
      have ha : a = false := hx
      have hb : b = false := hy
      subst ha hb
      rfl
    | fin _ _ => exact hx
  | fin m1 e1 =>
    cases y with
    | nan => trivial
    | inf b => exact hy
    | fin m2 e2 =>
      have h1 : 0 ≤ m1 := hx
      have h2 : 0 ≤ m2 := hy
      exact (roundRatio_spec _ _ _).2
        (Int.add_nonneg (Int.mul_nonneg h1 (pow_nonneg (by decide) _))
          (Int.mul_nonneg h2 (pow_nonneg (by decide) _)))

theorem div_pos_ne_nan (x : JSNumber) (m e : Int) (hm : 0 < m) (h : x ≠ nan) :
    div x (fin m e) ≠ nan := by
  cases x with
  | nan => exact absurd rfl h
  | inf _ => exact fun h2 => JSNumber.noConfusion h2
  | fin m1 e1 =>
    simp only [div]
    rw [if_neg (ne_of_gt hm)]
    exact (roundRatio_spec _ _ _).1

theorem div_pos_nonNeg (x : JSNumber) (m e : Int) (hm : 0 < m) (hx : NonNeg x) :
    NonNeg (div x (fin m e)) := by
  cases x with
  | nan => trivial
  | inf a =>
    have ha : a = false := hx
    subst ha
    show (false != decide (m < 0)) = false
    simp [not_lt.mpr (le_of_lt hm)]
  | fin m1 e1 =>
    have h1 : 0 ≤ m1 := hx
    simp only [div]
    rw [if_neg (ne_of_gt hm), if_neg (not_lt.mpr (le_of_lt hm))]
    exact (roundRatio_spec _ _ _).2 h1

theorem gt_zero_of_nonneg (x : JSNumber) (hx : NonNeg x) : gt (fin 0 0) x = false := by
  cases x with
  | nan => rfl
  | inf b => exact hx
  | fin m e =>
    have h1 : 0 ≤ m := hx
    show decide (_ < _) = false
    rw [decide_eq_false_iff_not, not_lt, zero_mul]
    exact mul_nonneg h1 (pow_nonneg (by decide) _)

theorem gt_nan (x : JSNumber) : gt nan x = false := by
  cases x <;> rfl

theorem sub_self_cases (x : JSNumber) : sub x x = nan ∨ sub x x = fin 0 0 := by
  cases x with
  | nan => exact Or.inl rfl
  | inf a => cases a <;> exact Or.inl rfl
  | fin m e =>
    right
    show roundRatio _ 1 _ = fin 0 0
    have h : m * 2 ^ (e - Min.min e e).toNat + -m * 2 ^ (e - Min.min e e).toNat = 0 := by ring
    rw [h]
    rfl

/-- With equal operands the difference is zero or `NaN`, and its absolute
value exceeds no number that is not negative. -/
theorem gt_abs_sub_self (x y : JSNumber) (hy : NonNeg y) : gt (abs (sub x x)) y = false := by
  rcases sub_self_cases x with h | h
  · rw [h]; exact gt_nan y
  · rw [h]; exact gt_zero_of_nonneg y hy

/-- On numbers, `>` fails exactly when `<=` holds. -/
theorem gt_eq_false_iff_le (x y : JSNumber) (hx : x ≠ nan) (hy : y ≠ nan) :
    gt x y = false ↔ le x y = true := by
  cases x with
  | nan => exact absurd rfl hx
  | inf a =>
    cases y with
    | nan => exact absurd rfl hy
    | inf b => cases a <;> cases b <;> decide
    | fin _ _ => cases a <;> simp [gt, le]
  | fin m1 e1 =>
    cases y with
    | nan => exact absurd rfl hy
    | inf b => cases b <;> simp [gt, le]
    | fin m2 e2 =>
      simp only [gt, le, decide_eq_false_iff_not, decide_eq_true_eq, not_lt]

theorem le_fin_iff (m1 e1 m2 e2 : Int) :
    le (fin m1 e1) (fin m2 e2) = true ↔ value m1 e1 ≤ value m2 e2 := by
  have h1 : e1 = Min.min e1 e2 + ((e1 - Min.min e1 e2).toNat : Int) := by
    rw [Int.toNat_of_nonneg (by omega)]; ring
  have h2 : e2 = Min.min e1 e2 + ((e2 - Min.min e1 e2).toNat : Int) := by
    rw [Int.toNat_of_nonneg (by omega)]; ring
  have hpos : (0 : ℚ) < (2 : ℚ) ^ (Min.min e1 e2) := zpow_pos (by norm_num) _
  have v1 : value m1 e1
      = ((m1 * 2 ^ (e1 - Min.min e1 e2).toNat : Int) : ℚ) * (2 : ℚ) ^ (Min.min e1 e2) := by
    unfold value
    conv_lhs => rw [h1]
    rw [zpow_add₀ (by norm_num), zpow_natCast]
    push_cast
    ring
  have v2 : value m2 e2
      = ((m2 * 2 ^ (e2 - Min.min e1 e2).toNat : Int) : ℚ) * (2 : ℚ) ^ (Min.min e1 e2) := by
    unfold value
    conv_lhs => rw [h2]
    rw [zpow_add₀ (by norm_num), zpow_natCast]
    push_cast
    ring
  rw [v1, v2, mul_le_mul_right hpos, Int.cast_le]
  simp only [le, decide_eq_true_eq]

theorem le_transitive (x y z : JSNumber) (h1 : le x y = true) (h2 : le y z = true) :
    le x z = true := by
  cases x with
  | nan => cases y <;> cases h1
  | inf a =>
    cases y with
    | nan => cases h1
    | inf b =>
      cases z with
      | nan => cases h2
      | inf c => cases a <;> cases b <;> cases c <;> simp_all [le]
      | fin _ _ => cases a <;> cases b <;> simp_all [le]
    | fin _ _ =>
      cases z with
      | nan => cases h2
      | inf c => cases a <;> cases c <;> simp_all [le]
      | fin _ _ => cases a <;> simp_all [le]
  | fin m1 e1 =>
    cases y with
    | nan => cases h1
    | inf b =>
      cases z with
      | nan => cases h2
      | inf c => cases b <;> cases c <;> simp_all [le]
      | fin _ _ => cases b <;> simp_all [le]
    | fin m2 e2 =>
      cases z with
      | nan => cases h2
      | inf c => cases c <;> simp_all [le]
      | fin m3 e3 =>
        rw [le_fin_iff] at h1 h2 ⊢
        exact h1.trans h2

/-- A strict `>` gives the converse `<=`. -/
theorem gt_imp_le (x y : JSNumber) (h : gt x y = true) : le y x = true := by
  cases x with
  | nan => cases y <;> cases h
  | inf a =>
    cases y with
    | nan => cases h
    | inf b => cases a <;> cases b <;> first | rfl | cases h
    | fin _ _ => cases a <;> first | rfl | cases h
  | fin m1 e1 =>
    cases y with
    | nan => cases h
    | inf b => cases b <;> first | rfl | cases h
    | fin m2 e2 =>
      simp only [gt, le, decide_eq_true_eq] at h ⊢
      rw [min_comm e2 e1]
      exact le_of_lt h

/-- Capping at 300 with `>` and taking `Math.min(300, s)` bound the same
numbers from above. -/
theorem le_cap_iff (d s : JSNumber) (hs : s ≠ nan) :
    le d (if gt s 300 = true then 300 else s) = true ↔ le d (min 300 s) = true := by
  have h300 : (300 : JSNumber) ≠ nan := by rw [c300]; exact fun h => JSNumber.noConfusion h
  have hmin : min 300 s = if le 300 s = true then 300 else s := by
    rw [c300]
    cases s with
    | nan => exact absurd rfl hs
    | inf b => rfl
    | fin m e => rfl
  rw [hmin]
  by_cases hg : gt s 300 = true
  · rw [if_pos hg, if_pos (gt_imp_le _ _ hg)]
  · rw [if_neg hg]
    have hle : le s 300 = true :=
      (gt_eq_false_iff_le s 300 hs h300).mp (Bool.eq_false_iff.mpr hg)
    by_cases h2 : le 300 s = true
    · rw [if_pos h2]
      exact ⟨fun h => le_transitive _ _ _ h hle, fun h => le_transitive _ _ _ h h2⟩
    · rw [if_neg h2]

theorem cap_ne_nan (s : JSNumber) (hs : s ≠ nan) :
    (if gt s 300 = true then 300 else s) ≠ nan := by
  split
  · rw [c300]; exact fun h => JSNumber.noConfusion h
  · exact hs

theorem cap_nonNeg (s : JSNumber) (hs : NonNeg s) :
    NonNeg (if gt s 300 = true then 300 else s) := by
  split
  · rw [c300]; show (0 : Int) ≤ 75; decide
  · exact hs

theorem base_fin (c : Prop) [Decidable c] :
    ∃ m e, (if c then (50 : JSNumber) else 100) = fin m e ∧ 0 ≤ m := by
  by_cases h : c
  · rw [if_pos h, c50]; exact ⟨25, 1, rfl, by decide⟩
  · rw [if_neg h, c100]; exact ⟨25, 2, rfl, by decide⟩

/-- The range before the cap, `base + |t1 - t2| / 300`, is a number when the
time difference is one. -/
theorem range_ne_nan (c : Prop) [Decidable c] (t : JSNumber) (ht : t ≠ nan) :
    add (if c then (50 : JSNumber) else 100) (div (abs t) 300) ≠ nan := by
  obtain ⟨m, e, h, -⟩ := base_fin c
  rw [h, c300]
  exact add_fin_ne_nan m e _ (div_pos_ne_nan _ 75 2 (by decide) (abs_ne_nan t ht))

/-- The range before the cap is not negative. -/
theorem range_nonNeg (c : Prop) [Decidable c] (t : JSNumber) :
    NonNeg (add (if c then (50 : JSNumber) else 100) (div (abs t) 300)) := by
  obtain ⟨m, e, h, hm⟩ := base_fin c
  rw [h, c300]
  exact add_nonNeg _ _ hm (div_pos_nonNeg _ 75 2 (by decide) (abs_nonNeg t))

end JSNumber

namespace GlobalRoom

/-! ## matchmakingOK -/

/-- The range of the program is the range before the cap, capped at 300. -/
theorem searchRange_cap (search1 search2 : Search) :
    searchRange search1 search2
      = if JSNumber.gt
            (JSNumber.add
              (if search1.formatid ∈ ["ou", "oucurrent", "randombattle"] then 50 else 100)
              (JSNumber.div (JSNumber.abs (JSNumber.sub search1.time search2.time)) 300))
            300 = true
        then 300
        else JSNumber.add
          (if search1.formatid ∈ ["ou", "oucurrent", "randombattle"] then 50 else 100)
          (JSNumber.div (JSNumber.abs (JSNumber.sub search1.time search2.time)) 300) := by
  simp only [searchRange, List.mem_cons, List.mem_singleton, List.not_mem_nil, or_false]

/-- The range is a number when the time difference is one. -/
theorem searchRange_ne_nan (search1 search2 : Search)
    (htime : JSNumber.sub search1.time search2.time ≠ JSNumber.nan) :
    searchRange search1 search2 ≠ JSNumber.nan := by
  rw [searchRange_cap]
  exact JSNumber.cap_ne_nan _ (JSNumber.range_ne_nan _ _ htime)

/-- The range is never negative. -/
theorem searchRange_nonNeg (search1 search2 : Search) :
    JSNumber.NonNeg (searchRange search1 search2) := by
  rw [searchRange_cap]
  exact JSNumber.cap_nonNeg _ (JSNumber.range_nonNeg _ _)

/-- The range of the program and the range in the words of the specification
bound the same numbers from above. -/
theorem le_searchRange_iff (d : JSNumber) (search1 search2 : Search)
    (htime : JSNumber.sub search1.time search2.time ≠ JSNumber.nan) :
    JSNumber.le d (searchRange search1 search2) = true
      ↔ JSNumber.le d (specSearchRange search1 search2) = true := by
  rw [searchRange_cap]
  exact JSNumber.le_cap_iff d _ (JSNumber.range_ne_nan _ _ htime)

/-- The range test of the program fails exactly when the rating difference is
within the range of the specification, for differences that are numbers. -/
theorem range_test_iff (search1 search2 : Search)
    (hrating : JSNumber.sub search1.rating search2.rating ≠ JSNumber.nan)
    (htime : JSNumber.sub search1.time search2.time ≠ JSNumber.nan) :
    ¬ JSNumber.gt (JSNumber.abs (JSNumber.sub search1.rating search2.rating))
        (searchRange search1 search2) = true
      ↔ JSNumber.le (JSNumber.abs (JSNumber.sub search1.rating search2.rating))
        (specSearchRange search1 search2) = true := by
  rw [Bool.not_eq_true, JSNumber.gt_eq_false_iff_le _ _ (JSNumber.abs_ne_nan _ hrating)
    (searchRange_ne_nan _ _ htime)]
  exact le_searchRange_iff _ _ _ htime

/-- The range of two `ou` tickets taken at the same time is 50. -/
theorem range_ou_same_time :
    (if JSNumber.gt (JSNumber.add 50 (JSNumber.div (JSNumber.abs (JSNumber.sub 0 0)) 300)) 300
        = true then (300 : JSNumber)
      else JSNumber.add 50 (JSNumber.div (JSNumber.abs (JSNumber.sub 0 0)) 300)) = 50 := by
  decide

theorem gt_range_1000_1500 :
    JSNumber.gt (JSNumber.abs (JSNumber.sub 1000 1500)) 50 = true := by
  decide

theorem gt_range_1000_1020 :
    JSNumber.gt (JSNumber.abs (JSNumber.sub 1000 1020)) 50 = false := by
  decide

theorem gt_range_1010_1020 :
    JSNumber.gt (JSNumber.abs (JSNumber.sub 1010 1020)) 50 = false := by
  decide

/-- A refused match changes nothing. -/
theorem matchmakingOK_false (W : GlobalRoom) (search1 search2 : Search) (user1 user2 : UserRef)
    (h : (W.matchmakingOK search1 search2 user1 user2).1 = false) :
    (W.matchmakingOK search1 search2 user1 user2).2 = W := by
  unfold matchmakingOK at h ⊢
  split_ifs at h ⊢ <;> rfl

/-- The verdict of `matchmakingOK` depends on the user objects and the two
tickets only. -/
theorem matchmakingOK_congr (W W' : GlobalRoom) (hu : W'.user = W.user)
    (search1 search2 : Search) (user1 user2 : UserRef) :
    (W'.matchmakingOK search1 search2 user1 user2).1
      = (W.matchmakingOK search1 search2 user1 user2).1 := by
  unfold matchmakingOK
  rw [hu]
  split_ifs <;> rfl

/-- C2 (counterexample): two verdicts that the stated condition does not give.
The ticket rated `50 + 100 / 300` (the double `7083786913884843 * 2 ^ -47`,
50.333333333333336) taken at time 100 and the ticket rated 0 taken at time 0
are matched, although as numbers the rating difference exceeds
`min(300, 50 + |100 - 0| / 300)`: the program rounds the range to the same
double. And a ticket whose rating is `NaN` is matched, although
`NaN <= range` is false. -/
theorem matchmakingOK_true_outside_range :
    (Example.oneSearcher.matchmakingOK Example.ticketRounded Example.ticketZero 0 1).1 = true ∧
    Example.ticketRounded.rating = JSNumber.fin 7083786913884843 (-47) ∧
    Example.ticketZero.rating = JSNumber.fin 0 0 ∧
    Example.ticketRounded.time = JSNumber.fin 25 2 ∧
    Example.ticketZero.time = JSNumber.fin 0 0 ∧
    ¬ (|JSNumber.value 7083786913884843 (-47) - JSNumber.value 0 0|
        ≤ min 300 (50 + |JSNumber.value 25 2 - JSNumber.value 0 0| / 300)) ∧
    (Example.oneSearcher.matchmakingOK Example.ticketNaN Example.ticketBob 0 1).1 = true ∧
    ¬ SpecCompatible Example.oneSearcher Example.ticketNaN Example.ticketBob 0 1 := by
  refine ⟨by decide, by decide, by decide, by decide, by decide, ?_, by decide, ?_⟩
  · norm_num [JSNumber.value]
    rw [abs_of_pos (by norm_num)]
    norm_num
  · intro h
    exact absurd h.2.2.2.2 (by decide)

/-- C2: for two tickets whose rating difference and time difference are
numbers (not `NaN`), `matchmakingOK` returns true exactly when the users
differ, their latest IPs differ, neither is the last match of the other and
`|rating1 - rating2| <= min(300, base + |time1 - time2| / 300)` in the
arithmetic of JavaScript numbers (base 50 for `ou`, `oucurrent`,
`randombattle`, else 100); in particular it is false for identical IPs
whatever the ratings. -/
theorem matchmakingOK_iff_spec (W : GlobalRoom) (search1 search2 : Search)
    (user1 user2 : UserRef)
    (hrating : JSNumber.sub search1.rating search2.rating ≠ JSNumber.nan)
    (htime : JSNumber.sub search1.time search2.time ≠ JSNumber.nan) :
    ((W.matchmakingOK search1 search2 user1 user2).1 = true
      ↔ SpecCompatible W search1 search2 user1 user2) ∧
    ((W.user user1).latestIp = (W.user user2).latestIp →
      (W.matchmakingOK search1 search2 user1 user2).1 = false) := by
  have key := range_test_iff search1 search2 hrating htime
  constructor
  · unfold matchmakingOK SpecCompatible
    split_ifs with h1 h2 h3 h4
    · simp [h1]
    · simp [h2]
    · simp only [Bool.false_eq_true, false_iff]
      rintro ⟨-, -, h5, h6, -⟩
      rcases h3 with h3 | h3
      · exact h5 h3
      · exact h6 h3
    · simp only [Bool.false_eq_true, false_iff]
      rintro ⟨-, -, -, -, h5⟩
      exact absurd h4 (key.mpr h5)
    · simp only [not_or] at h3
      simp only [true_iff]
      exact ⟨h1, h2, h3.1, h3.2, key.mp h4⟩
  · intro h
    unfold matchmakingOK
    split_ifs <;> rfl

theorem matchmakingOK_iff_spec_witness :
    JSNumber.sub Example.ticketAlice.rating Example.ticketBob.rating ≠ JSNumber.nan ∧
    JSNumber.sub Example.ticketAlice.time Example.ticketBob.time ≠ JSNumber.nan ∧
    (((Example.oneSearcher.matchmakingOK Example.ticketAlice Example.ticketBob 0 1).1 = true
      ↔ SpecCompatible Example.oneSearcher Example.ticketAlice Example.ticketBob 0 1) ∧
    ((Example.oneSearcher.user 0).latestIp = (Example.oneSearcher.user 1).latestIp →
      (Example.oneSearcher.matchmakingOK Example.ticketAlice Example.ticketBob 0 1).1 = false)) :=
  ⟨by decide, by decide,
    matchmakingOK_iff_spec Example.oneSearcher Example.ticketAlice Example.ticketBob 0 1
      (by decide) (by decide)⟩

/-- C3: compatibility is symmetric. For two tickets (distinct or not) of equal
rating whose users have different IPs, evaluated from the same state,
`matchmakingOK(A, B, userA, userB)` and `matchmakingOK(B, A, userB, userA)`
return the same verdict. -/
theorem matchmakingOK_symm (W : GlobalRoom) (A B : Search) (userA userB : UserRef)
    (hrating : A.rating = B.rating)
    (hip : (W.user userA).latestIp ≠ (W.user userB).latestIp) :
    (W.matchmakingOK A B userA userB).1 = (W.matchmakingOK B A userB userA).1 := by
  have hAB : ¬ (JSNumber.gt (JSNumber.abs (JSNumber.sub A.rating B.rating))
      (searchRange A B) = true) := by
    rw [hrating, JSNumber.gt_abs_sub_self _ _ (searchRange_nonNeg A B)]
    exact Bool.false_ne_true
  have hBA : ¬ (JSNumber.gt (JSNumber.abs (JSNumber.sub B.rating A.rating))
      (searchRange B A) = true) := by
    rw [hrating, JSNumber.gt_abs_sub_self _ _ (searchRange_nonNeg B A)]
    exact Bool.false_ne_true
  unfold matchmakingOK
  by_cases h1 : userA = userB
  · simp [h1]
  · have h1' : ¬ userB = userA := fun h => h1 h.symm
    have hip' : ¬ (W.user userB).latestIp = (W.user userA).latestIp := fun h => hip h.symm
    rw [if_neg h1, if_neg h1', if_neg hip, if_neg hip', if_neg hAB, if_neg hBA]
    by_cases h3 : (W.user userA).lastMatch = some (W.user userB).userid
        ∨ (W.user userB).lastMatch = some (W.user userA).userid
    · rw [if_pos h3, if_pos h3.symm]
    · rw [if_neg h3, if_neg (fun h => h3 h.symm)]

theorem matchmakingOK_symm_witness :
    Example.ticketAlice.rating = ({ Example.ticketCarol with rating := 1000 } : Search).rating ∧
    (Example.oneSearcher.matchmakingOK Example.ticketAlice
        { Example.ticketCarol with rating := 1000 } 0 2).1
      = (Example.oneSearcher.matchmakingOK { Example.ticketCarol with rating := 1000 }
          Example.ticketAlice 2 0).1 :=
  ⟨rfl, matchmakingOK_symm Example.oneSearcher Example.ticketAlice
    { Example.ticketCarol with rating := 1000 } 0 2 rfl (by decide)⟩

end GlobalRoom

namespace GlobalRoom

/-! ## startBattle -/

theorem battleStarts_emit (W : GlobalRoom) (e : Event) :
    battleStarts (W.emit e).trace = battleStarts W.trace ++ battleStarts [e] := by
  simp [emit, battleStarts, List.filterMap_append]

theorem pruned_createBattle (W : GlobalRoom) (roomid format : String) (p1 p2 : UserRef)
    (rated : Bool) : Pruned W (W.createBattle roomid format p1 p2 rated) := by
  unfold createBattle
  split
  · exact Pruned.refl W
  · exact ⟨rfl, List.Sublist.refl _⟩

theorem createBattle_battleStarts (W : GlobalRoom) (roomid format : String) (p1 p2 : UserRef)
    (rated : Bool) :
    battleStarts (W.createBattle roomid format p1 p2 rated).trace = battleStarts W.trace := by
  unfold createBattle
  split
  · rfl
  · simp [emit, battleStarts, List.filterMap_append]

theorem pruned_cancelSearch2 (W X : GlobalRoom) (p1 p2 : UserRef) (h : Pruned W X) :
    Pruned W ((X.cancelSearch p1).1.cancelSearch p2).1 :=
  h.trans ((cancelSearch_pruned _ _).trans (cancelSearch_pruned _ _))

theorem cancelSearch2_battleStarts (X : GlobalRoom) (p1 p2 : UserRef) :
    battleStarts ((X.cancelSearch p1).1.cancelSearch p2).1.trace = battleStarts X.trace := by
  rw [cancelSearch_battleStarts, cancelSearch_battleStarts]

/-- Called on two user objects, `startBattle` returns; it only removes
tickets from the queue, and the trace records this one invocation. -/
theorem startBattle_some (W : GlobalRoom) (p1 p2 : UserRef) (format p1team p2team : String)
    (rated : Bool) :
    ∃ W' r, W.startBattle (some p1) (some p2) format p1team p2team rated = .ok (W', r) ∧
      Pruned W W' ∧
      battleStarts W'.trace = battleStarts W.trace ++ [(some p1, some p2, format)] := by
  unfold startBattle
  simp only []
  split_ifs with h1 h2
  · refine ⟨_, _, rfl, ?_, ?_⟩
    · exact (pruned_cancelSearch2 _ _ _ _ (pruned_emit _ _)).trans (pruned_emit _ _)
    · rw [battleStarts_emit, cancelSearch2_battleStarts, battleStarts_emit]
      simp [battleStarts]
  · refine ⟨_, _, rfl, ?_, ?_⟩
    · exact (pruned_cancelSearch2 _ _ _ _ (pruned_emit _ _)).trans
        ((pruned_emit _ _).trans (pruned_emit _ _))
    · rw [battleStarts_emit, battleStarts_emit, cancelSearch2_battleStarts, battleStarts_emit]
      simp [battleStarts]
  · refine ⟨_, _, rfl, ?_, ?_⟩
    · apply pruned_cancelSearch2
      refine (Pruned.trans ?_ (pruned_emit _ _))
      refine (Pruned.trans ?_ (pruned_emit _ _))
      refine (Pruned.trans ?_ (pruned_emit _ _))
      refine (Pruned.trans ?_ (pruned_emit _ _))
      refine (Pruned.trans ?_ (pruned_createBattle _ _ _ _ _ _))
      refine (Pruned.trans ?_ (pruned_emit _ _))
      exact ⟨rfl, List.Sublist.refl _⟩
    · rw [cancelSearch2_battleStarts, battleStarts_emit, battleStarts_emit, battleStarts_emit,
        battleStarts_emit, createBattle_battleStarts, battleStarts_emit]
      simp [emit, battleStarts, List.filterMap_append]

end GlobalRoom

namespace GlobalRoom

/-! ## addSearch and the queue invariant -/

theorem queueInv_of_pruned {W W' : GlobalRoom} (h : Pruned W W') (hinv : QueueInv W) :
    QueueInv W' := by
  intro u f
  have hsub : List.Sublist (W'.ticketsOf u f) (W.ticketsOf u f) := by
    unfold ticketsOf
    rw [h.1]
    exact h.2.filter _
  exact le_trans hsub.length_le (hinv u f)

theorem queueInv_enqueue (W : GlobalRoom) (newSearch : Search) (user : UserRef)
    (hres : W.get newSearch.userid = some user) (hinv : QueueInv W)
    (hnone : ∀ s ∈ W.searchers,
      ¬ (W.get s.userid = some user ∧ s.formatid = newSearch.formatid)) :
    QueueInv (W.enqueue newSearch user) := by
  intro u f
  have hsplit : (W.enqueue newSearch user).ticketsOf u f
      = W.ticketsOf u f ++ [newSearch].filter
          (fun s => decide (W.get s.userid = some u) && decide (s.formatid = f)) := by
    simp [ticketsOf, enqueue, setUser, List.filter_append]
  rw [hsplit]
  by_cases hu : u = user ∧ f = newSearch.formatid
  · obtain ⟨rfl, rfl⟩ := hu
    have hnil : W.ticketsOf u newSearch.formatid = [] := by
      unfold ticketsOf
      rw [List.filter_eq_nil_iff]
      intro s hs
      have := hnone s hs
      simpa using this
    rw [hnil]
    simp
    exact (List.length_filter_le _ _)
  · have hnil : [newSearch].filter
        (fun s => decide (W.get s.userid = some u) && decide (s.formatid = f)) = [] := by
      rw [List.filter_eq_nil_iff]
      intro s hs
      rw [List.mem_singleton] at hs
      subst hs
      rw [hres]
      simp only [Bool.and_eq_true, decide_eq_true_eq, not_and, Option.some.injEq]
      intro h1 h2
      exact hu ⟨h1.symm, h2.symm⟩
    rw [hnil, List.append_nil]
    exact hinv u f

/-- The match branch of `addSearch` (rooms.js 465-469) only removes tickets. -/
theorem matched_pruned (W : GlobalRoom) (user searchUser : UserRef)
    (format team1 team2 : String) :
    ∃ W' r, (((W.cancelSearch user).1.cancelSearch searchUser).1.emit
        (.updateSearchOff user)).startBattle (some searchUser) (some user) format team1 team2
        true = .ok (W', r) ∧ Pruned W W' := by
  obtain ⟨W', r, h1, h2, _⟩ := startBattle_some (((W.cancelSearch user).1.cancelSearch
    searchUser).1.emit (.updateSearchOff user)) searchUser user format team1 team2 true
  exact ⟨W', r, h1, ((pruned_cancelSearch2 W W user searchUser (Pruned.refl W)).trans
    (pruned_emit _ _)).trans h2⟩

theorem matchmakingOK_pruned (W : GlobalRoom) (search1 search2 : Search) (user1 user2 : UserRef) :
    Pruned W (W.matchmakingOK search1 search2 user1 user2).2 := by
  unfold matchmakingOK
  split_ifs <;> exact Pruned.refl W

theorem pruned_splice (W : GlobalRoom) (i : Nat) : Pruned W (W.splice i) :=
  ⟨rfl, List.eraseIdx_sublist _ _⟩

/-- The loop of `addSearch` preserves the queue invariant when the tickets
before index `i` are not tickets of `user` for the format of the new ticket. -/
theorem addSearchLoop_queueInv (newSearch : Search) (user : UserRef) :
    ∀ (n i : Nat) (W : GlobalRoom), W.searchers.length ≤ i + n →
    W.get newSearch.userid = some user → QueueInv W →
    (∀ s ∈ W.searchers.take i,
      ¬ (W.get s.userid = some user ∧ s.formatid = newSearch.formatid)) →
    ∃ W', addSearchLoop newSearch user n i W = .ok W' ∧ QueueInv W' := by
  intro n
  induction n with
  | zero =>
    intro i W hlen hres hinv hpre
    rw [List.take_of_length_le (by omega)] at hpre
    exact ⟨_, rfl, queueInv_enqueue W newSearch user hres hinv hpre⟩
  | succ n ih =>
    intro i W hlen hres hinv hpre
    unfold addSearchLoop
    split
    · rename_i hnone
      have hl : W.searchers.length ≤ i := by simpa using hnone
      rw [List.take_of_length_le hl] at hpre
      exact ⟨_, rfl, queueInv_enqueue W newSearch user hres hinv hpre⟩
    · rename_i search hsome
      have hlt : i < W.searchers.length := by
        by_contra hc
        rw [List.getElem?_eq_none (by omega)] at hsome
        exact Option.noConfusion hsome
      have hlen' : (W.splice i).searchers.length ≤ i + n := by
        simp only [splice, List.length_eraseIdx, if_pos hlt]; omega
      have hspl : ∃ W', addSearchLoop newSearch user n i (W.splice i) = .ok W' ∧ QueueInv W' := by
        apply ih i (W.splice i) hlen' hres (queueInv_of_pruned (pruned_splice W i) hinv)
        simpa [splice, take_eraseIdx_self] using hpre
      have hnext : ¬ (W.get search.userid = some user ∧ search.formatid = newSearch.formatid) →
          ∃ W', addSearchLoop newSearch user n (i + 1) W = .ok W' ∧ QueueInv W' := by
        intro hs
        apply ih (i + 1) W (by omega) hres hinv
        intro s hmem
        rw [take_succ_of_getElem? hsome, List.mem_append, List.mem_singleton] at hmem
        rcases hmem with hmem | rfl
        · exact hpre s hmem
        · exact hs
      split
      · exact hspl
      · rename_i searchUser hget
        split
        · exact hspl
        · split
          · exact ⟨W, rfl, hinv⟩
          · rename_i hnot
            split
            · rename_i hfmt
              have hne : searchUser ≠ user := fun h => hnot ⟨hfmt, h⟩
              split
              · rename_i W1 hok
                have hW1 : Pruned W W1 := by
                  have := matchmakingOK_pruned W search newSearch searchUser user
                  rw [hok] at this
                  exact this
                obtain ⟨W', r, h1, h2⟩ := matched_pruned W1 user searchUser search.formatid
                  search.team newSearch.team
                simp only [h1]
                exact ⟨W', rfl, queueInv_of_pruned (hW1.trans h2) hinv⟩
              · rename_i W1 hok
                have hW1 : W1 = W := by
                  have := matchmakingOK_false W search newSearch searchUser user (by rw [hok])
                  rw [hok] at this
                  exact this
                rw [hW1]
                apply hnext
                rw [hget]
                intro h
                exact hne (Option.some.inj h.1)
            · rename_i hfmt
              apply hnext
              intro h
              exact hfmt h.2.symm

/-- C1 (amended): `addSearch` preserves the queue invariant for every user and
every new ticket whose userid resolves to that user: it returns, and if the
queue held at most one ticket per (user, formatid) pair before the call, it
still does afterwards. -/
theorem addSearch_queueInv (W : GlobalRoom) (newSearch : Search) (user : UserRef)
    (hres : W.get newSearch.userid = some user) (hinv : QueueInv W) :
    ∃ W', W.addSearch newSearch user = .ok W' ∧ QueueInv W' := by
  unfold addSearch
  split
  · exact ⟨W, rfl, hinv⟩
  · exact addSearchLoop_queueInv newSearch user W.searchers.length 0 W (by omega) hres hinv
      (by simp)

end GlobalRoom

namespace GlobalRoom

theorem queueInv_oneSearcher : QueueInv Example.oneSearcher := by
  intro u f
  simp only [ticketsOf, Example.oneSearcher]
  exact le_trans (List.length_filter_le _ _) (by simp)

/-- C1 (as stated, refuted): the queue holds one `ou` ticket of alice and the
invariant holds; `addSearch` is called for the connected user bob with a
second ticket that names alice. The ticket is enqueued, and alice then has two
`ou` tickets. -/
theorem addSearch_foreign_ticket_duplicates :
    QueueInv Example.oneSearcher ∧ (Example.oneSearcher.user 1).connected = true ∧
    Example.oneSearcher.addSearch { Example.ticketAlice with rating := 1500 } 1
      = .ok (Example.oneSearcher.enqueue { Example.ticketAlice with rating := 1500 } 1) ∧
    ¬ QueueInv (Example.oneSearcher.enqueue { Example.ticketAlice with rating := 1500 } 1) := by
  refine ⟨queueInv_oneSearcher, by decide, ?_, ?_⟩
  · simp [addSearch, addSearchLoop, Example.oneSearcher, Example.ticketAlice, Example.get,
      Example.users, matchmakingOK, searchRange, range_ou_same_time, gt_range_1000_1500]
  · intro h
    have h2 : ((Example.oneSearcher.enqueue
        { Example.ticketAlice with rating := 1500 } 1).ticketsOf 0 "ou").length = 2 := by
      decide
    have := h 0 "ou"
    omega

theorem addSearch_queueInv_witness :
    Example.oneSearcher.get Example.ticketAlice.userid = some 0 ∧
    ∃ W', Example.oneSearcher.addSearch Example.ticketAlice 0 = .ok W' ∧ QueueInv W' :=
  ⟨by decide, addSearch_queueInv Example.oneSearcher Example.ticketAlice 0 (by decide)
    queueInv_oneSearcher⟩

end GlobalRoom

namespace GlobalRoom

/-! ## addSearch: the match -/

theorem noTicket_of_pruned {W W' : GlobalRoom} (h : Pruned W W') (user : UserRef)
    (hn : NoTicket W user) : NoTicket W' user := by
  intro s hs
  rw [h.1]
  exact hn s (h.2.subset hs)

theorem matchmakingOK_fields (W : GlobalRoom) (search1 search2 : Search) (user1 user2 : UserRef) :
    (W.matchmakingOK search1 search2 user1 user2).2.trace = W.trace ∧
    ∀ r, ((W.matchmakingOK search1 search2 user1 user2).2.user r).searching
          = (W.user r).searching ∧
        ((W.matchmakingOK search1 search2 user1 user2).2.user r).connected
          = (W.user r).connected := by
  unfold matchmakingOK
  split_ifs
  · exact ⟨rfl, fun _ => ⟨rfl, rfl⟩⟩
  · exact ⟨rfl, fun _ => ⟨rfl, rfl⟩⟩
  · exact ⟨rfl, fun _ => ⟨rfl, rfl⟩⟩
  · exact ⟨rfl, fun _ => ⟨rfl, rfl⟩⟩
  · refine ⟨rfl, fun r => ?_⟩
    simp only [setUser]
    split_ifs <;> simp_all

theorem matchmakingOK_ne (W : GlobalRoom) (search1 search2 : Search) (user1 user2 : UserRef)
    (h : (W.matchmakingOK search1 search2 user1 user2).1 = true) : user1 ≠ user2 := by
  intro he
  simp [matchmakingOK, he] at h

/-- The match branch of `addSearch` (rooms.js 465-469), entered with the state
`W1` left by a successful `matchmakingOK`: `startBattle` is invoked once, the
queue only shrinks and ends without a ticket of either user. -/
theorem matched_result (W1 : GlobalRoom) (A B : UserRef) (format team1 team2 : String)
    (hne : A ≠ B) (hAc : (W1.user A).connected = true)
    (hcntA : (W1.user A).searching ≠ 0)
    (hcntB : (W1.user B).searching ≠ 0 ∨ NoTicket W1 B) :
    ∃ W' r, (((W1.cancelSearch B).1.cancelSearch A).1.emit
        (.updateSearchOff B)).startBattle (some A) (some B) format team1 team2 true
          = .ok (W', r) ∧
      Pruned W1 W' ∧
      battleStarts W'.trace = battleStarts W1.trace ++ [(some A, some B, format)] ∧
      NoTicket W' A ∧ NoTicket W' B := by
  obtain ⟨W', r, h1, h2, h3⟩ := startBattle_some (((W1.cancelSearch B).1.cancelSearch A).1.emit
    (.updateSearchOff B)) A B format team1 team2 true
  have hB1 : NoTicket (W1.cancelSearch B).1 B := by
    rcases hcntB with h | h
    · exact cancelSearch_no_ticket W1 B h
    · exact noTicket_of_pruned (cancelSearch_pruned W1 B) B h
  have hA1 : ((W1.cancelSearch B).1.user A).searching ≠ 0 := by
    rw [cancelSearch_user W1 B A hne hAc]; exact hcntA
  have hA2 : NoTicket ((W1.cancelSearch B).1.cancelSearch A).1 A :=
    cancelSearch_no_ticket _ A hA1
  have hB2 : NoTicket ((W1.cancelSearch B).1.cancelSearch A).1 B :=
    noTicket_of_pruned (cancelSearch_pruned _ A) B hB1
  have hp : Pruned ((W1.cancelSearch B).1.cancelSearch A).1 W' := (pruned_emit _ _).trans h2
  refine ⟨W', r, h1, ?_, ?_, noTicket_of_pruned hp A hA2, noTicket_of_pruned hp B hB2⟩
  · exact (pruned_cancelSearch2 W1 W1 B A (Pruned.refl W1)).trans hp
  · rw [h3, battleStarts_emit, cancelSearch2_battleStarts]
    simp [battleStarts]

end GlobalRoom

namespace GlobalRoom

theorem getElem?_append_mid {α : Type} (kept : List α) (a : α) (post : List α) :
    (kept ++ a :: post)[kept.length]? = some a := by
  induction kept with
  | nil => simp
  | cons b kept ih => simpa using ih

theorem passedOver_splice (W : GlobalRoom) (i : Nat) (newSearch : Search) (user : UserRef)
    (s : Search) (h : PassedOver W newSearch user s) :
    PassedOver (W.splice i) newSearch user s := by
  unfold PassedOver at h ⊢
  show match W.get s.userid with
    | none => True
    | some searchUser => (W.user searchUser).connected = false ∨ newSearch.formatid ≠ s.formatid ∨
      (searchUser ≠ user ∧ ((W.splice i).matchmakingOK s newSearch searchUser user).1 = false)
  cases hg : W.get s.userid with
  | none => trivial
  | some su =>
    rw [hg] at h
    simp only at h ⊢
    rw [matchmakingOK_congr W (W.splice i) rfl]
    exact h

/-- The loop of `addSearch` reaches the ticket `tA` of `A` when every ticket
before it is passed over, and matches it with the new ticket of `B`. -/
theorem addSearchLoop_match (newSearch tA : Search) (A B : UserRef) (post : List Search) :
    ∀ (pre kept : List Search) (n : Nat) (W : GlobalRoom),
    pre.length < n →
    W.searchers = kept ++ (pre ++ tA :: post) →
    W.get tA.userid = some A → (W.user A).connected = true →
    newSearch.formatid = tA.formatid →
    (W.matchmakingOK tA newSearch A B).1 = true →
    (∀ s ∈ pre, PassedOver W newSearch B s) →
    (W.user A).searching ≠ 0 →
    ((W.user B).searching ≠ 0 ∨ NoTicket W B) →
    ∃ W', addSearchLoop newSearch B n kept.length W = .ok W' ∧
      Pruned W W' ∧
      battleStarts W'.trace = battleStarts W.trace ++ [(some A, some B, tA.formatid)] ∧
      NoTicket W' A ∧ NoTicket W' B := by
  intro pre
  induction pre with
  | nil =>
    intro kept n W hn hq hA hAc hfmt hok _ hcntA hcntB
    obtain ⟨m, rfl⟩ : ∃ m, n = m + 1 := ⟨n - 1, by simp at hn; omega⟩
    have hsome : W.searchers[kept.length]? = some tA := by
      rw [hq]; exact getElem?_append_mid kept tA post
    have hne : A ≠ B := matchmakingOK_ne W tA newSearch A B hok
    have hpair : W.matchmakingOK tA newSearch A B
        = (true, (W.matchmakingOK tA newSearch A B).2) := by
      rw [← hok]
    have hf := matchmakingOK_fields W tA newSearch A B
    have hW1 := matchmakingOK_pruned W tA newSearch A B
    obtain ⟨W', r, h1, h2, h3, h4, h5⟩ := matched_result (W.matchmakingOK tA newSearch A B).2
      A B tA.formatid tA.team newSearch.team hne
      (by rw [(hf.2 A).2]; exact hAc) (by rw [(hf.2 A).1]; exact hcntA)
      (by
        rcases hcntB with h | h
        · left; rw [(hf.2 B).1]; exact h
        · right; exact noTicket_of_pruned hW1 B h)
    refine ⟨W', ?_, hW1.trans h2, ?_, h4, h5⟩
    · unfold addSearchLoop
      simp only [hsome, hA, hAc, hfmt, hne, and_false, if_false, if_true, Bool.true_eq_false]
      rw [hpair]
      simp only [h1]
    · rw [h3, hf.1]
  | cons s pre ih =>
    intro kept n W hn hq hA hAc hfmt hok hpre hcntA hcntB
    obtain ⟨m, rfl⟩ : ∃ m, n = m + 1 := ⟨n - 1, by simp at hn; omega⟩
    have hm : pre.length < m := by simp at hn; omega
    have hsome : W.searchers[kept.length]? = some s := by
      rw [hq]; exact getElem?_append_mid kept s (pre ++ tA :: post)
    have hs := hpre s (List.mem_cons_self _ _)
    have hpre' : ∀ x ∈ pre, PassedOver W newSearch B x :=
      fun x hx => hpre x (List.mem_cons_of_mem _ hx)
    -- the state after pruning `s`
    have hspl : ∃ W', addSearchLoop newSearch B m kept.length (W.splice kept.length) = .ok W' ∧
        Pruned W W' ∧
        battleStarts W'.trace = battleStarts W.trace ++ [(some A, some B, tA.formatid)] ∧
        NoTicket W' A ∧ NoTicket W' B := by
      have hq' : (W.splice kept.length).searchers = kept ++ (pre ++ tA :: post) := by
        simp [splice, hq, List.eraseIdx_append_of_length_le]
      obtain ⟨W', h1, h2, h3, h4, h5⟩ := ih kept m (W.splice kept.length) hm hq' hA hAc hfmt
        (by rw [matchmakingOK_congr W (W.splice kept.length) rfl]; exact hok)
        (fun x hx => passedOver_splice W _ newSearch B x (hpre' x hx)) hcntA
        (by
          rcases hcntB with h | h
          · left; exact h
          · right; exact noTicket_of_pruned (pruned_splice W _) B h)
      exact ⟨W', h1, (pruned_splice W _).trans h2, h3, h4, h5⟩
    -- the state after stepping over `s`
    have hnext : ∃ W', addSearchLoop newSearch B m (kept.length + 1) W = .ok W' ∧
        Pruned W W' ∧
        battleStarts W'.trace = battleStarts W.trace ++ [(some A, some B, tA.formatid)] ∧
        NoTicket W' A ∧ NoTicket W' B := by
      have := ih (kept ++ [s]) m W hm (by simp [hq]) hA hAc hfmt hok hpre' hcntA hcntB
      simpa using this
    unfold addSearchLoop
    simp only [hsome]
    unfold PassedOver at hs
    cases hg : W.get s.userid with
    | none => simpa using hspl
    | some su =>
      rw [hg] at hs
      simp only at hs ⊢
      by_cases hc : (W.user su).connected = false
      · rw [if_pos hc]; exact hspl
      · rw [if_neg hc]
        rcases hs with hs | hs | hs
        · exact absurd hs hc
        · rw [if_neg (fun h => hs h.1), if_neg hs]; exact hnext
        · rw [if_neg (fun h => hs.1 h.2)]
          by_cases hf : newSearch.formatid = s.formatid
          · rw [if_pos hf]
            have hW : W.matchmakingOK s newSearch su B = (false, W) := by
              have h2 := matchmakingOK_false W s newSearch su B hs.2
              exact Prod.ext hs.2 h2
            rw [hW]
            exact hnext
          · rw [if_neg hf]; exact hnext

end GlobalRoom

namespace GlobalRoom

theorem matchmakingOK_alice_bob (W : GlobalRoom) (hu : W.user = Example.users) :
    (W.matchmakingOK Example.ticketAlice Example.ticketBob 0 1).1 = true := by
  simp [matchmakingOK, searchRange, hu, Example.users, Example.ticketAlice, Example.ticketBob,
    range_ou_same_time, gt_range_1000_1020]

theorem matchmakingOK_carol_bob (W : GlobalRoom) (hu : W.user = Example.users) :
    (W.matchmakingOK Example.ticketCarol Example.ticketBob 2 1).1 = true := by
  simp [matchmakingOK, searchRange, hu, Example.users, Example.ticketCarol, Example.ticketBob,
    range_ou_same_time, gt_range_1010_1020]

/-- C4 (as stated, refuted): the queue holds carol's ticket and then alice's,
both for `ou`; alice is connected and her ticket is compatible with the `ou`
ticket that the connected user bob adds. `addSearch` matches bob with carol,
whose ticket comes first: the only invocation of `startBattle` is for
(carol, bob), none is for (alice, bob). -/
theorem addSearch_matches_first_in_queue :
    Example.ticketAlice ∈ Example.twoSearchers.searchers ∧
    Example.twoSearchers.get Example.ticketAlice.userid = some 0 ∧
    (Example.twoSearchers.user 0).connected = true ∧
    (Example.twoSearchers.user 1).connected = true ∧
    Example.ticketBob.formatid = Example.ticketAlice.formatid ∧
    (Example.twoSearchers.matchmakingOK Example.ticketAlice Example.ticketBob 0 1).1 = true ∧
    ∃ W', Example.twoSearchers.addSearch Example.ticketBob 1 = .ok W' ∧
      battleStarts W'.trace = [(some 2, some 1, "ou")] := by
  refine ⟨by decide, by decide, by decide, by decide, by decide,
    matchmakingOK_alice_bob _ rfl, ?_⟩
  obtain ⟨W', h1, -, h3, -, -⟩ := addSearchLoop_match Example.ticketBob Example.ticketCarol 2 1
    [Example.ticketAlice] [] [] 2 Example.twoSearchers (by decide) rfl (by decide) (by decide)
    (by decide) (matchmakingOK_carol_bob _ rfl) (by simp) (by decide) (Or.inr (by
      intro s hs
      simp only [Example.twoSearchers, Example.oneSearcher, List.mem_cons, List.mem_singleton,
        List.not_mem_nil, or_false] at hs
      rcases hs with rfl | rfl <;> decide))
  refine ⟨W', ?_, ?_⟩
  · have hc : ¬ ((Example.twoSearchers.user 1).connected = false) := by decide
    simp only [addSearch, if_neg hc]
    exact h1
  · rw [h3]; rfl

/-- C4 (amended): when the ticket of a connected user A is the first ticket in
the queue that the loop of `addSearch` does not pass over (every earlier ticket
is stale, of another format, or of another user and refused by
`matchmakingOK`), a connected user B adds a ticket of the same format that is
compatible with it, A's `searching` counter is not zero, and B's counter is not
zero or B holds no ticket, then `addSearch` returns, `startBattle` is invoked
exactly once and for (A, B), nothing is added to the queue, and afterwards the
queue holds no ticket of A or of B. -/
theorem addSearch_match (W : GlobalRoom) (newSearch tA : Search) (A B : UserRef)
    (pre post : List Search)
    (hq : W.searchers = pre ++ tA :: post)
    (hBc : (W.user B).connected = true)
    (hA : W.get tA.userid = some A) (hAc : (W.user A).connected = true)
    (hfmt : newSearch.formatid = tA.formatid)
    (hok : (W.matchmakingOK tA newSearch A B).1 = true)
    (hpre : ∀ s ∈ pre, PassedOver W newSearch B s)
    (hcntA : (W.user A).searching ≠ 0)
    (hcntB : (W.user B).searching ≠ 0 ∨ NoTicket W B) :
    ∃ W', W.addSearch newSearch B = .ok W' ∧
      battleStarts W'.trace = battleStarts W.trace ++ [(some A, some B, tA.formatid)] ∧
      List.Sublist W'.searchers W.searchers ∧
      NoTicket W' A ∧ NoTicket W' B := by
  obtain ⟨W', h1, h2, h3, h4, h5⟩ := addSearchLoop_match newSearch tA A B post pre []
    W.searchers.length W (by rw [hq]; simp) (by simpa using hq) hA hAc hfmt hok hpre hcntA hcntB
  refine ⟨W', ?_, h3, h2.2, h4, h5⟩
  have hc : ¬ ((W.user B).connected = false) := by rw [hBc]; decide
  simp only [addSearch, if_neg hc]
  exact h1

theorem addSearch_match_witness :
    ∃ W', Example.oneSearcher.addSearch Example.ticketBob 1 = .ok W' ∧
      battleStarts W'.trace = battleStarts Example.oneSearcher.trace ++ [(some 0, some 1, "ou")] ∧
      List.Sublist W'.searchers Example.oneSearcher.searchers ∧
      NoTicket W' 0 ∧ NoTicket W' 1 :=
  addSearch_match Example.oneSearcher Example.ticketBob Example.ticketAlice 0 1 [] [] rfl
    (by decide) (by decide) (by decide) (by decide) (matchmakingOK_alice_bob _ rfl) (by simp)
    (by decide) (Or.inr (by
      intro s hs
      simp only [Example.oneSearcher, List.mem_singleton] at hs
      subst hs; decide))

end GlobalRoom

/-! ## Room logs -/

theorem sentLines_append (a b : List RoomEvent) :
    sentLines (a ++ b) = sentLines a ++ sentLines b := by
  induction a with
  | nil => rfl
  | cons e a ih =>
    cases e <;> simp [sentLines, ih]

theorem sentLines_update (a : List RoomEvent) (joins lines : List String) :
    sentLines (a ++ [.update joins lines]) = sentLines a ++ lines := by
  rw [sentLines_append]; simp [sentLines]

theorem drop_append_singleton {α : Type} (l : List α) (a : α) (n : Nat) (h : n ≤ l.length) :
    (l ++ [a]).drop n = l.drop n ++ [a] := by
  rw [List.drop_append_of_le_length h]

namespace ChatRoom

/-- What `update()` of a chat room does to the log, the mark and the trace. -/
theorem chat_update_spec (r : ChatRoom) (h : r.lastUpdate ≤ r.log.length) :
    r.update.lastUpdate = r.update.log.length ∧
    sentLines r.update.sent = sentLines r.sent ++ r.log.drop r.lastUpdate ∧
    r.update.logTimes = r.logTimes ∧ r.update.now = r.now := by
  unfold update
  split
  · rename_i hle
    have heq : r.lastUpdate = r.log.length := le_antisymm h hle
    refine ⟨heq, ?_, rfl, rfl⟩
    rw [heq, List.drop_length, List.append_nil]
  · refine ⟨rfl, ?_, rfl, rfl⟩
    simp only [sentLines_update]

theorem chat_add_spec (r : ChatRoom) (message : String) :
    (r.add message).lastUpdate = r.lastUpdate ∧
    (r.add message).log = r.log ++ [Room.stamp r.logTimes r.now message] ∧
    (r.add message).sent = r.sent ∧
    (r.add message).logTimes = r.logTimes ∧ (r.add message).now = r.now :=
  ⟨rfl, rfl, rfl, rfl, rfl⟩

/-- Along any sequence of calls the lines broadcast so far followed by the
pending lines are the lines broadcast before, the lines pending before and
the lines stored by the `add` calls. -/
theorem chat_run_lines (ops : List LogOp) : ∀ (r : ChatRoom), r.lastUpdate ≤ r.log.length →
    (r.run ops).lastUpdate ≤ (r.run ops).log.length ∧
    sentLines (r.run ops).sent ++ (r.run ops).log.drop (r.run ops).lastUpdate
      = sentLines r.sent ++ r.log.drop r.lastUpdate ++ storedLines r.logTimes r.now ops := by
  induction ops with
  | nil => intro r h; simp [run, storedLines, h]
  | cons op ops ih =>
    intro r h
    have hrun : r.run (op :: ops) = (r.step op).run ops := rfl
    rw [hrun]
    cases op with
    | add message =>
      obtain ⟨h1, h2, h3, h4, h5⟩ := chat_add_spec r message
      have hle : (r.add message).lastUpdate ≤ (r.add message).log.length := by
        rw [h1, h2]; simp; omega
      obtain ⟨ih1, ih2⟩ := ih (r.add message) hle
      rw [show r.step (.add message) = r.add message from rfl]
      refine ⟨ih1, ?_⟩
      rw [ih2, h1, h2, h3, h4, h5, drop_append_singleton _ _ _ h]
      simp [storedLines]
    | update =>
      obtain ⟨h1, h2, h3, h4⟩ := chat_update_spec r h
      obtain ⟨ih1, ih2⟩ := ih r.update (le_of_eq h1)
      rw [show r.step .update = r.update from rfl]
      refine ⟨ih1, ?_⟩
      rw [ih2, h1, h2, h3, h4, List.drop_length]
      simp [storedLines]
    | clock now =>
      obtain ⟨ih1, ih2⟩ := ih { r with now := now } h
      exact ⟨ih1, ih2⟩

end ChatRoom

namespace BattleRoom

/-- What `update()` of a battle room does to the log, the mark and the trace. -/
theorem battle_update_spec (r : BattleRoom) (h : r.lastUpdate ≤ r.log.length) :
    r.update.lastUpdate = r.update.log.length ∧
    r.update.log = r.log ∧
    sentLines r.update.sent = sentLines r.sent ++ r.log.drop r.lastUpdate ∧
    r.update.now = r.now := by
  unfold update
  split
  · rename_i hle
    have heq : r.lastUpdate = r.log.length := le_antisymm h hle
    refine ⟨heq, rfl, ?_, rfl⟩
    rw [heq, List.drop_length, List.append_nil]
  · refine ⟨rfl, rfl, ?_, rfl⟩
    simp only [sentLines_update]

theorem battle_add_spec (r : BattleRoom) (message : String) :
    (r.add message).lastUpdate = r.lastUpdate ∧
    (r.add message).log = r.log ++ [Room.stamp false r.now message] ∧
    (r.add message).sent = r.sent ∧ (r.add message).now = r.now :=
  ⟨rfl, rfl, rfl, rfl⟩

theorem battle_run_lines (ops : List LogOp) : ∀ (r : BattleRoom), r.lastUpdate ≤ r.log.length →
    (r.run ops).lastUpdate ≤ (r.run ops).log.length ∧
    sentLines (r.run ops).sent ++ (r.run ops).log.drop (r.run ops).lastUpdate
      = sentLines r.sent ++ r.log.drop r.lastUpdate ++ storedLines false r.now ops := by
  induction ops with
  | nil => intro r h; simp [run, storedLines, h]
  | cons op ops ih =>
    intro r h
    have hrun : r.run (op :: ops) = (r.step op).run ops := rfl
    rw [hrun]
    cases op with
    | add message =>
      obtain ⟨h1, h2, h3, h5⟩ := battle_add_spec r message
      have hle : (r.add message).lastUpdate ≤ (r.add message).log.length := by
        rw [h1, h2]; simp; omega
      obtain ⟨ih1, ih2⟩ := ih (r.add message) hle
      rw [show r.step (.add message) = r.add message from rfl]
      refine ⟨ih1, ?_⟩
      rw [ih2, h1, h2, h3, h5, drop_append_singleton _ _ _ h]
      simp [storedLines]
    | update =>
      obtain ⟨h1, _, h2, h4⟩ := battle_update_spec r h
      obtain ⟨ih1, ih2⟩ := ih r.update (le_of_eq h1)
      rw [show r.step .update = r.update from rfl]
      refine ⟨ih1, ?_⟩
      rw [ih2, h1, h2, h4, List.drop_length]
      simp [storedLines]
    | clock now =>
      obtain ⟨ih1, ih2⟩ := ih { r with now := now } h
      exact ⟨ih1, ih2⟩

end BattleRoom

/-- C6: for every sequence of `add` calls interleaved with `update` calls (and
clock changes) on a chat room or a battle room that starts with an empty log
and nothing broadcast, the log lines broadcast by the `update` calls, followed
by the lines still pending, are exactly the lines stored by `add`, each once
and in append order; and immediately after an `update` call nothing is pending:
the lines broadcast are exactly the stored lines and `lastUpdate` equals
`log.length`. -/
theorem update_broadcasts_each_line_once (c : ChatRoom) (b : BattleRoom) (ops : List LogOp)
    (hc : c.log = [] ∧ c.lastUpdate = 0 ∧ c.sent = [])
    (hb : b.log = [] ∧ b.lastUpdate = 0 ∧ b.sent = []) :
    (sentLines (c.run ops).sent ++ (c.run ops).log.drop (c.run ops).lastUpdate
        = storedLines c.logTimes c.now ops ∧
      sentLines (c.run ops).update.sent = storedLines c.logTimes c.now ops ∧
      (c.run ops).update.lastUpdate = (c.run ops).update.log.length) ∧
    (sentLines (b.run ops).sent ++ (b.run ops).log.drop (b.run ops).lastUpdate
        = storedLines false b.now ops ∧
      sentLines (b.run ops).update.sent = storedLines false b.now ops ∧
      (b.run ops).update.lastUpdate = (b.run ops).update.log.length) := by
  obtain ⟨hc1, hc2, hc3⟩ := hc
  obtain ⟨hb1, hb2, hb3⟩ := hb
  constructor
  · obtain ⟨h1, h2⟩ := ChatRoom.chat_run_lines ops c (by rw [hc2]; exact Nat.zero_le _)
    obtain ⟨u1, u2, _, _⟩ := ChatRoom.chat_update_spec (c.run ops) h1
    rw [hc1, hc2, hc3] at h2
    simp only [sentLines, List.drop_nil, List.append_nil, List.nil_append] at h2
    exact ⟨h2, by rw [u2, h2], u1⟩
  · obtain ⟨h1, h2⟩ := BattleRoom.battle_run_lines ops b (by rw [hb2]; exact Nat.zero_le _)
    obtain ⟨u1, _, u2, _⟩ := BattleRoom.battle_update_spec (b.run ops) h1
    rw [hb1, hb2, hb3] at h2
    simp only [sentLines, List.drop_nil, List.append_nil, List.nil_append] at h2
    exact ⟨h2, by rw [u2, h2], u1⟩

theorem update_broadcasts_each_line_once_witness :
    (sentLines (Example.lobby.run Example.logOps).sent
        ++ (Example.lobby.run Example.logOps).log.drop (Example.lobby.run Example.logOps).lastUpdate
        = storedLines Example.lobby.logTimes Example.lobby.now Example.logOps ∧
      sentLines (Example.lobby.run Example.logOps).update.sent
        = storedLines Example.lobby.logTimes Example.lobby.now Example.logOps ∧
      (Example.lobby.run Example.logOps).update.lastUpdate
        = (Example.lobby.run Example.logOps).update.log.length) ∧
    (sentLines (Example.battleRoom.run Example.logOps).sent
        ++ (Example.battleRoom.run Example.logOps).log.drop
            (Example.battleRoom.run Example.logOps).lastUpdate
        = storedLines false Example.battleRoom.now Example.logOps ∧
      sentLines (Example.battleRoom.run Example.logOps).update.sent
        = storedLines false Example.battleRoom.now Example.logOps ∧
      (Example.battleRoom.run Example.logOps).update.lastUpdate
        = (Example.battleRoom.run Example.logOps).update.log.length) :=
  update_broadcasts_each_line_once Example.lobby Example.battleRoom Example.logOps
    ⟨rfl, rfl, rfl⟩ ⟨rfl, rfl, rfl⟩


namespace BattleRoom

/-! ## The inactivity timer -/

theorem timerInv_congr {r r' : BattleRoom} (h : r'.timer = r.timer) (hi : TimerInv r) :
    TimerInv r' := by
  simp only [timer, Prod.mk.injEq] at h
  obtain ⟨h1, h2, h3, h4⟩ := h
  unfold TimerInv TickFloor at hi ⊢
  rw [h1, h2, h3, h4]
  exact hi

theorem timer_send (r : BattleRoom) (m : String) : (r.send m).timer = r.timer := rfl

theorem timer_sendUser (r : BattleRoom) (u m : String) : (r.sendUser u m).timer = r.timer := rfl

theorem timer_add (r : BattleRoom) (m : String) : (r.add m).timer = r.timer := rfl

theorem timer_sendPlayer (r : BattleRoom) (battle : Battle) (num : Int) (m : String) :
    (r.sendPlayer battle num m).timer = r.timer := by
  unfold sendPlayer
  split <;> rfl

theorem timer_update (r : BattleRoom) : r.update.timer = r.timer := by
  unfold update
  split <;> rfl

theorem timer_announceTicks (r : BattleRoom) (battle : Battle) (side : Int) (t : Int × Int) :
    (r.announceTicks battle side t).timer = r.timer := by
  unfold announceTicks
  by_cases h : side = 0 ∨ side = 1
  · simp only [h, if_true]
    split_ifs <;> rfl
  · simp only [h, if_false]
    cases battle.getPlayer 0 <;> cases battle.getPlayer 1 <;> simp only [] <;>
      split_ifs <;> rfl

theorem timer_announceBudget (r : BattleRoom) (battle : Battle) (side m : Int) :
    (r.announceBudget battle side m).timer = r.timer := by
  unfold announceBudget
  split_ifs <;> simp only [timer_sendPlayer]

theorem timer_recordRequester (r r' : BattleRoom) (battle : Battle) (user : Requester)
    (force : Bool) (h : r.recordRequester battle user force = some r') :
    r'.timer = r.timer ∧ r'.rated = r.rated := by
  unfold recordRequester at h
  split at h
  · split_ifs at h
    cases h
    exact ⟨rfl, rfl⟩
  · cases h
    exact ⟨rfl, rfl⟩
  · cases h
    exact ⟨rfl, rfl⟩

/-- `forfeit` leaves the timer state alone. -/
theorem timer_forfeit (w : BattleWorld) (user : Option User) (message : Option String)
    (side : Option Int) : (forfeit w user message side).1.room.timer = w.room.timer := by
  unfold forfeit
  split
  · rfl
  · split_ifs
    · rfl
    · split
      · rfl
      · simp only [declareForfeit, timer_update]
        rfl

end BattleRoom

namespace BattleRoom

theorem maxTicksLeft_pos (r : BattleRoom) (battle : Battle) : 1 ≤ r.maxTicksLeft battle := by
  unfold maxTicksLeft
  split_ifs <;> norm_num

theorem topUpBank_spec (r : BattleRoom) (side : Int) :
    r.sideTicksLeft.1 + 1 ≤ (r.topUpBank side).sideTicksLeft.1 ∧
    r.sideTicksLeft.2 + 1 ≤ (r.topUpBank side).sideTicksLeft.2 ∧
    (r.topUpBank side).sideTurnTicks = r.sideTurnTicks ∧
    (r.topUpBank side).disconnectTickDiff = r.disconnectTickDiff ∧
    (r.topUpBank side).resetTimer = r.resetTimer := by
  by_cases h0 : side < 0 <;> by_cases h1 : r.sideTicksLeft.1 < 16 <;>
    by_cases h2 : r.sideTicksLeft.2 < 16 <;> simp [topUpBank, h0, h1, h2]

/-- The end of `armTimer`: with the budget `m` seeded, the banks topped up and
the callback scheduled, the invariant of the timer holds. -/
theorem armed_inv (r1 : BattleRoom) (battle : Battle) (side m : Int) (hm : 1 ≤ m)
    (hb1 : 0 ≤ r1.sideTicksLeft.1) (hb2 : 0 ≤ r1.sideTicksLeft.2)
    (hd1 : 0 ≤ r1.disconnectTickDiff.1) (hd2 : 0 ≤ r1.disconnectTickDiff.2) :
    TimerInv { (({ r1 with sideTurnTicks := (m, m) } : BattleRoom).topUpBank side).announceBudget
      battle side m with resetTimer := some (10 * 1000) } := by
  obtain ⟨t1, t2, t3, t4, -⟩ := topUpBank_spec { r1 with sideTurnTicks := (m, m) } side
  have ha := timer_announceBudget
    (({ r1 with sideTurnTicks := (m, m) } : BattleRoom).topUpBank side) battle side m
  simp only [timer, Prod.mk.injEq] at ha
  obtain ⟨a1, a2, a3, -⟩ := ha
  simp only [TimerInv, TickFloor, a1, a2, a3, t3, t4]
  simp only at t1 t2
  exact ⟨⟨by omega, by omega, by omega, by omega⟩, hd1, hd2,
    fun _ => ⟨by omega, by omega, hm, hm⟩⟩

/-- Arming the timer establishes the invariant of the timer. -/
theorem armTimer_inv (r : BattleRoom) (battle : Battle) (user : Requester) (force : Bool)
    (hi : TimerInv r) : TimerInv (r.armTimer battle user force).1 := by
  unfold armTimer
  cases hreq : r.recordRequester battle user force with
  | none => exact hi
  | some r1 =>
    obtain ⟨ht, -⟩ := timer_recordRequester r r1 battle user force hreq
    obtain ⟨⟨f1, f2, -, -⟩, d1, d2, -⟩ := timerInv_congr ht hi
    exact armed_inv r1 battle (getInactiveSide battle) (r1.maxTicksLeft battle)
      (maxTicksLeft_pos r1 battle) f1 f2 d1 d2

theorem requestKickInactive_inv (r r' : BattleRoom) (user : Requester) (force : Bool)
    (result : Bool) (hi : TimerInv r)
    (h : r.requestKickInactive user force = .ok (r', result)) : TimerInv r' := by
  unfold requestKickInactive at h
  split_ifs at h
  · split at h
    · cases h
      exact timerInv_congr (timer_sendUser r _ _) hi
    · cases h
      exact hi
  · split at h
    · cases h
    · rename_i battle _
      simp only [Except.ok.injEq] at h
      have hr : r' = (r.armTimer battle user force).1 := by rw [h]
      rw [hr]
      exact armTimer_inv r battle user force hi

theorem decrementTicks_spec (r : BattleRoom) (side : Int) :
    r.sideTicksLeft.1 - 1 ≤ (r.decrementTicks side).sideTicksLeft.1 ∧
    r.sideTicksLeft.2 - 1 ≤ (r.decrementTicks side).sideTicksLeft.2 ∧
    r.sideTurnTicks.1 - 1 ≤ (r.decrementTicks side).sideTurnTicks.1 ∧
    r.sideTurnTicks.2 - 1 ≤ (r.decrementTicks side).sideTurnTicks.2 ∧
    (r.decrementTicks side).disconnectTickDiff = r.disconnectTickDiff ∧
    (r.decrementTicks side).resetTimer = r.resetTimer := by
  unfold decrementTicks
  split_ifs <;> simp

/-- A tick that does not end the battle: the counters of the sides on the
clock went down from at least 1, neither effective count is zero, and the
callback is scheduled again. -/
theorem rearmed_inv (r0 : BattleRoom) (battle : Battle) (side : Int)
    (p1 : 1 ≤ r0.sideTicksLeft.1) (p2 : 1 ≤ r0.sideTicksLeft.2)
    (p3 : 1 ≤ r0.sideTurnTicks.1) (p4 : 1 ≤ r0.sideTurnTicks.2)
    (d1 : 0 ≤ r0.disconnectTickDiff.1) (d2 : 0 ≤ r0.disconnectTickDiff.2)
    (hr : (r0.decrementTicks side).ticksLeft.1 ≠ 0 ∧ (r0.decrementTicks side).ticksLeft.2 ≠ 0) :
    TimerInv { (r0.decrementTicks side).announceTicks battle side
      (r0.decrementTicks side).ticksLeft with resetTimer := some (10 * 1000) } := by
  obtain ⟨c1, c2, c3, c4, c5, -⟩ := decrementTicks_spec r0 side
  have ha := timer_announceTicks (r0.decrementTicks side) battle side
    (r0.decrementTicks side).ticksLeft
  simp only [timer, Prod.mk.injEq] at ha
  obtain ⟨a1, a2, a3, -⟩ := ha
  simp only [ticksLeft] at hr
  obtain ⟨hr1, hr2⟩ := hr
  have q1 : 1 ≤ (r0.decrementTicks side).sideTurnTicks.1 ∧
      1 ≤ (r0.decrementTicks side).sideTicksLeft.1 := by
    rcases min_cases (r0.decrementTicks side).sideTurnTicks.1
      (r0.decrementTicks side).sideTicksLeft.1 with ⟨e, _⟩ | ⟨e, _⟩ <;>
      rw [e] at hr1 <;> omega
  have q2 : 1 ≤ (r0.decrementTicks side).sideTurnTicks.2 ∧
      1 ≤ (r0.decrementTicks side).sideTicksLeft.2 := by
    rcases min_cases (r0.decrementTicks side).sideTurnTicks.2
      (r0.decrementTicks side).sideTicksLeft.2 with ⟨e, _⟩ | ⟨e, _⟩ <;>
      rw [e] at hr2 <;> omega
  simp only [TimerInv, TickFloor, a1, a2, a3, c5]
  exact ⟨⟨by omega, by omega, by omega, by omega⟩, d1, d2,
    fun _ => ⟨q1.2, q2.2, q1.1, q2.1⟩⟩

/-- After the decrements of a tick no counter is negative. -/
theorem decremented_inv (r0 : BattleRoom) (side : Int) (hoff : r0.resetTimer = none)
    (p1 : 1 ≤ r0.sideTicksLeft.1) (p2 : 1 ≤ r0.sideTicksLeft.2)
    (p3 : 1 ≤ r0.sideTurnTicks.1) (p4 : 1 ≤ r0.sideTurnTicks.2)
    (d1 : 0 ≤ r0.disconnectTickDiff.1) (d2 : 0 ≤ r0.disconnectTickDiff.2) :
    TimerInv (r0.decrementTicks side) := by
  obtain ⟨c1, c2, c3, c4, c5, c6⟩ := decrementTicks_spec r0 side
  simp only [TimerInv, TickFloor, c5, c6, hoff]
  exact ⟨⟨by omega, by omega, by omega, by omega⟩, d1, d2, fun h => by simp at h⟩

/-- A tick of the scheduled callback keeps the invariant of the timer. -/
theorem kickInactive_inv (w : BattleWorld) (hi : TimerInv w.room)
    (harmed : w.room.resetTimer.isSome) : TimerInv (kickInactive w).room := by
  obtain ⟨⟨f1, f2, f3, f4⟩, d1, d2, hpos⟩ := hi
  obtain ⟨p1, p2, p3, p4⟩ := hpos harmed
  have hoff : TimerInv w.room.clearTimer :=
    ⟨⟨f1, f2, f3, f4⟩, d1, d2, fun h => by simp [clearTimer] at h⟩
  unfold kickInactive
  simp only []
  split
  · exact hoff
  · rename_i battle _
    split_ifs with hend hrearm
    · exact hoff
    · exact rearmed_inv w.room.clearTimer battle (getInactiveSide battle) p1 p2 p3 p4 d1 d2 hrearm
    · refine timerInv_congr (timer_forfeit _ _ _ _) ?_
      exact decremented_inv w.room.clearTimer (getInactiveSide battle) rfl p1 p2 p3 p4 d1 d2

end BattleRoom

namespace BattleRoom

theorem timerInv_disarm (r : BattleRoom) (hi : TimerInv r) : TimerInv r.clearTimer :=
  ⟨hi.1, hi.2.1, hi.2.2.1, fun h => by simp [clearTimer] at h⟩

theorem nextInactive_inv (r r' : BattleRoom) (hi : TimerInv r)
    (h : r.nextInactive = .ok r') : TimerInv r' := by
  unfold nextInactive at h
  split_ifs at h
  · simp only [] at h
    split at h
    · rename_i r2 result hreq
      simp only [Except.ok.injEq] at h
      rw [← h]
      exact requestKickInactive_inv _ r2 .undef false result
        (timerInv_disarm _ (timerInv_congr (timer_update r) hi)) hreq
    · cases h
  · simp only [Except.ok.injEq] at h
    rw [← h]; exact hi

theorem stopKickInactive_inv (r : BattleRoom) (user : Option User) (force : Bool)
    (hi : TimerInv r) : TimerInv (r.stopKickInactive user force).1 := by
  unfold stopKickInactive
  simp only []
  split_ifs
  · exact hi
  · exact timerInv_congr (timer_send _ _) (timerInv_disarm r hi)
  · exact hi

theorem giveBackTicks_inv (r : BattleRoom) (hi : TimerInv r) : TimerInv r.giveBackTicks.1 := by
  obtain ⟨⟨f1, f2, f3, f4⟩, d1, d2, hpos⟩ := hi
  by_cases e1 : r.disconnectTickDiff.1 = 0 <;> by_cases e2 : r.disconnectTickDiff.2 = 0 <;>
    simp only [giveBackTicks, e1, e2, ne_eq, not_true_eq_false, not_false_eq_true, if_true,
      if_false, TimerInv, TickFloor] <;>
    refine ⟨⟨f1, f2, by omega, by omega⟩, by omega, by omega, fun h => ?_⟩ <;>
    obtain ⟨p1, p2, p3, p4⟩ := hpos h <;>
    exact ⟨p1, p2, by omega, by omega⟩

theorem kickInactiveUpdate_inv (r r' : BattleRoom) (result : Bool) (hi : TimerInv r)
    (h : r.kickInactiveUpdate = .ok (r', result)) : TimerInv r' := by
  obtain ⟨⟨f1, f2, f3, f4⟩, d1, d2, hpos⟩ := hi
  have hi : TimerInv r := ⟨⟨f1, f2, f3, f4⟩, d1, d2, hpos⟩
  unfold kickInactiveUpdate at h
  split_ifs at h with hrated harmed
  · simp only [Except.ok.injEq, Prod.mk.injEq] at h
    rw [← h.1]; exact hi
  · obtain ⟨p1, p2, p3, p4⟩ := hpos harmed
    split at h
    · cases h
    · rename_i battle _
      simp only [] at h
      split_ifs at h with hdis hside h0 h1 hrec
      · -- side 0 disconnected
        simp only [Except.ok.injEq, Prod.mk.injEq] at h
        rw [← h.1]
        refine timerInv_congr (timer_send _ _) ?_
        simp only [TimerInv, TickFloor]
        exact ⟨⟨f1, f2, by norm_num, f4⟩, by omega, d2, fun _ => ⟨p1, p2, by norm_num, p4⟩⟩
      · -- side 1 disconnected
        simp only [Except.ok.injEq, Prod.mk.injEq] at h
        rw [← h.1]
        refine timerInv_congr (timer_send _ _) ?_
        simp only [TimerInv, TickFloor]
        exact ⟨⟨f1, f2, f3, by norm_num⟩, d1, by omega, fun _ => ⟨p1, p2, p3, by norm_num⟩⟩
      · simp only [Except.ok.injEq, Prod.mk.injEq] at h
        rw [← h.1]; exact hi
      · simp only [Except.ok.injEq, Prod.mk.injEq] at h
        rw [← h.1]; exact hi
      · -- both players present: the offsets are given back
        have hg := giveBackTicks_inv r hi
        split at h
        · rename_i r2 changed hgb
          simp only [Except.ok.injEq, Prod.mk.injEq] at h
          rw [← h.1]
          refine timerInv_congr (timer_send _ _) ?_
          rw [hgb] at hg
          exact hg
        · rename_i r2 hgb
          simp only [Except.ok.injEq, Prod.mk.injEq] at h
          rw [← h.1]
          rw [hgb] at hg
          exact hg
      · simp only [Except.ok.injEq, Prod.mk.injEq] at h
        rw [← h.1]; exact hi
  · simp only [Except.ok.injEq, Prod.mk.injEq] at h
    rw [← h.1]; exact hi

theorem new_inv_unforced (roomid format : String) (p1 p2 : User) (optionsRated : Bool)
    (optionsTour : Option String) (formatRated : Bool) (battle : Battle) (now : Nat) :
    TimerInv (BattleRoom.new roomid format p1 p2 optionsRated optionsTour formatRated battle
      false now) := by
  simp only [BattleRoom.new, Bool.false_eq_true, if_false, TimerInv, TickFloor]
  split_ifs <;> simp

theorem new_forced (roomid format : String) (p1 p2 : User) (optionsRated : Bool)
    (optionsTour : Option String) (formatRated : Bool) (battle : Battle) (now : Nat) :
    BattleRoom.new roomid format p1 p2 optionsRated optionsTour formatRated battle true now
      = match (BattleRoom.new roomid format p1 p2 optionsRated optionsTour formatRated battle
          false now).requestKickInactive .isFalse false with
        | .ok (r, _) => r
        | .error _ => BattleRoom.new roomid format p1 p2 optionsRated optionsTour formatRated
            battle false now := rfl

theorem new_inv (roomid format : String) (p1 p2 : User) (optionsRated : Bool)
    (optionsTour : Option String) (formatRated : Bool) (battle : Battle) (forcetimer : Bool)
    (now : Nat) :
    TimerInv (BattleRoom.new roomid format p1 p2 optionsRated optionsTour formatRated battle
      forcetimer now) := by
  have hbase := new_inv_unforced roomid format p1 p2 optionsRated optionsTour formatRated
    battle now
  cases forcetimer with
  | false => exact hbase
  | true =>
    rw [new_forced]
    split
    · rename_i r2 result hreq
      exact requestKickInactive_inv _ r2 .isFalse false result hbase hreq
    · exact hbase

/-- Every reachable state satisfies the invariant of the timer. -/
theorem reachable_inv (w : BattleWorld) (h : Reachable w) : TimerInv w.room := by
  induction h with
  | new => exact new_inv _ _ _ _ _ _ _ _ _ _
  | requestKickInactive w user force r result _ hreq ih =>
    exact requestKickInactive_inv w.room r user force result ih hreq
  | kickInactive w _ harmed ih => exact kickInactive_inv w ih harmed
  | nextInactive w r _ hnext ih => exact nextInactive_inv w.room r ih hnext
  | stopKickInactive w user force _ ih => exact stopKickInactive_inv w.room user force ih
  | kickInactiveUpdate w r result _ hupd ih =>
    exact kickInactiveUpdate_inv w.room r result ih hupd
  | other w w' _ ht ih => exact timerInv_congr ht ih

end BattleRoom

namespace BattleRoom

/-- C10: timer tick floor. In every state reached from a newly constructed
battle room by `requestKickInactive`, the timer callback `kickInactive` (fired
only while a timer is scheduled), `nextInactive`, `stopKickInactive` and
`kickInactiveUpdate`, interleaved with anything that leaves the timer state
alone, the four counters `sideTicksLeft[0]`, `sideTicksLeft[1]`,
`sideTurnTicks[0]`, `sideTurnTicks[1]` are not negative. -/
theorem tick_floor (w : BattleWorld) (h : Reachable w) :
    0 ≤ w.room.sideTicksLeft.1 ∧ 0 ≤ w.room.sideTicksLeft.2 ∧
    0 ≤ w.room.sideTurnTicks.1 ∧ 0 ≤ w.room.sideTurnTicks.2 :=
  (reachable_inv w h).1

theorem reachable_started : Reachable ⟨1, Example.startedRoom⟩ :=
  Reachable.other ⟨0, Example.battleRoom⟩ ⟨1, Example.startedRoom⟩
    (Reachable.new 0 "battle-ou-1" "ou" Example.alice Example.bob true none true
      Example.freshBattle false 5000) rfl

theorem tick_floor_witness :
    0 ≤ (kickInactive ⟨1, (Example.startedRoom.armTimer Example.runningBattle
        (.user Example.alice) false).1⟩).room.sideTicksLeft.1 ∧
    0 ≤ (kickInactive ⟨1, (Example.startedRoom.armTimer Example.runningBattle
        (.user Example.alice) false).1⟩).room.sideTicksLeft.2 ∧
    0 ≤ (kickInactive ⟨1, (Example.startedRoom.armTimer Example.runningBattle
        (.user Example.alice) false).1⟩).room.sideTurnTicks.1 ∧
    0 ≤ (kickInactive ⟨1, (Example.startedRoom.armTimer Example.runningBattle
        (.user Example.alice) false).1⟩).room.sideTurnTicks.2 :=
  tick_floor _ (Reachable.kickInactive
    ⟨1, (Example.startedRoom.armTimer Example.runningBattle (.user Example.alice) false).1⟩
    (Reachable.requestKickInactive ⟨1, Example.startedRoom⟩ (.user Example.alice) false
      (Example.startedRoom.armTimer Example.runningBattle (.user Example.alice) false).1
      (Example.startedRoom.armTimer Example.runningBattle (.user Example.alice) false).2
      reachable_started rfl) rfl)

end BattleRoom

namespace BattleRoom

theorem decrementTicks_frame (r : BattleRoom) (side : Int) :
    (r.decrementTicks side).toRoom = r.toRoom ∧ (r.decrementTicks side).battle = r.battle ∧
    (r.decrementTicks side).rated = r.rated ∧ (r.decrementTicks side).resetTimer = r.resetTimer := by
  unfold decrementTicks
  split_ifs <;> exact ⟨rfl, rfl, rfl, rfl⟩

theorem update_frame (r : BattleRoom) :
    r.update.log = r.log ∧ r.update.battle = r.battle ∧ r.update.resetTimer = r.resetTimer ∧
    r.update.resetUser = r.resetUser := by
  unfold update
  split <;> exact ⟨rfl, rfl, rfl, rfl⟩

theorem update_log (r : BattleRoom) : r.update.log = r.log := (update_frame r).1

theorem update_battle (r : BattleRoom) : r.update.battle = r.battle := (update_frame r).2.1

theorem update_resetTimer (r : BattleRoom) : r.update.resetTimer = r.resetTimer :=
  (update_frame r).2.2.1

/-- What the end of `forfeit` leaves in the room. -/
theorem declareForfeit_room (w : BattleWorld) (battle : Battle) (name message : String)
    (side : Int) :
    (declareForfeit w battle name message side).room.resetTimer = w.room.resetTimer ∧
    (declareForfeit w battle name message side).room.log
      = w.room.log ++ ["|-message|" ++ name ++ message] ∧
    (declareForfeit w battle name message side).room.battle = some
      { battle with
        endType := some "forfeit"
        sent := battle.sent ++ [("win", pick ("p2", "p1") side)] } := by
  unfold declareForfeit
  simp only [update_log, update_battle, update_resetTimer]
  refine ⟨rfl, ?_, rfl⟩
  simp [add, Room.add, Room.stamp]

/-- C9: on a timer tick of a started, unended battle where exactly one side
`s` is on the clock, if after the decrement the effective remaining ticks of
`s` (the lesser of its turn budget and its bank) is zero, then side `s`
forfeits: the log gets the line naming it with the reason
`lost due to inactivity.`, the battle is marked as ended by forfeit and told
that the opposite side wins (`p2` for side 0, `p1` for side 1), and the timer
is not armed again (`resetTimer` stays null). -/
theorem kickInactive_forfeits_side_on_clock (w : BattleWorld) (battle : Battle) (s : Int)
    (hb : w.room.battle = some battle)
    (hstarted : battle.started = true) (hended : battle.ended = false)
    (hs : s = 0 ∨ s = 1) (hside : getInactiveSide battle = s)
    (hzero : pick (w.room.decrementTicks s).ticksLeft s = some 0) :
    (kickInactive w).room.resetTimer = none ∧
    (kickInactive w).room.log = w.room.log ++
      ["|-message|" ++ forfeitName w.room (battle.getPlayer s) s ++ " lost due to inactivity."] ∧
    (kickInactive w).room.battle = some
      { battle with
        endType := some "forfeit"
        sent := battle.sent ++ [("win", some (if s = 0 then "p2" else "p1"))] } := by
  have hcond : ¬ (battle.ended = true ∨ battle.started = false) := by
    rw [hended, hstarted]; simp
  obtain ⟨fr1, fr2, fr3, fr4⟩ := decrementTicks_frame
    w.room.clearTimer s
  have htl : (w.room.clearTimer.decrementTicks s).ticksLeft
      = (w.room.decrementTicks s).ticksLeft := by
    unfold ticksLeft decrementTicks
    split_ifs <;> rfl
  have hnot : ¬ ((w.room.clearTimer.decrementTicks s).ticksLeft.1 ≠ 0
      ∧ (w.room.clearTimer.decrementTicks s).ticksLeft.2 ≠ 0) := by
    rw [htl]
    rcases hs with rfl | rfl
    · simp only [pick, if_true, Option.some.injEq] at hzero
      simp [hzero]
    · simp only [pick, one_ne_zero, if_false, if_true, Option.some.injEq] at hzero
      simp [hzero]
  have hlose : ∀ t, losingSide s t = s := by
    intro t
    unfold losingSide
    rcases hs with rfl | rfl <;> simp
  have hbat : (w.room.clearTimer.decrementTicks s).battle
      = some battle := by rw [fr2]; exact hb
  have hname : forfeitName (w.room.clearTimer.decrementTicks s)
      (battle.getPlayer s) s = forfeitName w.room (battle.getPlayer s) s := by
    unfold forfeitName
    rw [fr3]
    rfl
  have hk : kickInactive w =
      { battleCount := (declareForfeit
          ⟨w.battleCount, w.room.clearTimer.decrementTicks s⟩
          battle (forfeitName w.room (battle.getPlayer s) s) " lost due to inactivity." s).battleCount
        room := { (declareForfeit
          ⟨w.battleCount, w.room.clearTimer.decrementTicks s⟩
          battle (forfeitName w.room (battle.getPlayer s) s) " lost due to inactivity." s).room
          with resetUser := "" } } := by
    have hb' : w.room.clearTimer.battle = some battle := hb
    unfold kickInactive
    simp only [hb', hside, hcond, if_false, hnot, hlose]
    unfold forfeit
    simp only [hbat, hcond, if_false, forfeitSide, hname, forfeitMessage]
    simp
  rw [hk]
  obtain ⟨g1, g2, g3⟩ := declareForfeit_room
    ⟨w.battleCount, w.room.clearTimer.decrementTicks s⟩ battle
    (forfeitName w.room (battle.getPlayer s) s) " lost due to inactivity." s
  refine ⟨?_, ?_, ?_⟩
  · show (declareForfeit _ _ _ _ _).room.resetTimer = none
    rw [g1]
    exact fr4
  · show (declareForfeit _ _ _ _ _).room.log = _
    rw [g2]
    show (w.room.clearTimer.decrementTicks s).toRoom.log ++ _ = _
    rw [fr1]
    rfl
  · show (declareForfeit _ _ _ _ _).room.battle = _
    rw [g3]
    rcases hs with rfl | rfl <;> simp [pick]

theorem kickInactive_forfeits_side_on_clock_witness :
    (kickInactive ⟨1, Example.lastTickRoom⟩).room.resetTimer = none ∧
    (kickInactive ⟨1, Example.lastTickRoom⟩).room.log = Example.lastTickRoom.log ++
      ["|-message|" ++ forfeitName Example.lastTickRoom (Example.runningBattle.getPlayer 0) 0
        ++ " lost due to inactivity."] ∧
    (kickInactive ⟨1, Example.lastTickRoom⟩).room.battle = some
      { Example.runningBattle with
        endType := some "forfeit"
        sent := Example.runningBattle.sent ++ [("win", some (if (0 : Int) = 0 then "p2" else "p1"))] } :=
  kickInactive_forfeits_side_on_clock ⟨1, Example.lastTickRoom⟩ Example.runningBattle 0 rfl rfl rfl
    (Or.inl rfl) (by decide) (by decide)

end BattleRoom

/-! ## The mark `lastUpdate` -/

theorem BattleRoom.new_log (roomid format : String) (p1 p2 : User) (optionsRated : Bool)
    (optionsTour : Option String) (formatRated : Bool) (battle : Battle) (forcetimer : Bool)
    (now : Nat) :
    (BattleRoom.new roomid format p1 p2 optionsRated optionsTour formatRated battle forcetimer
      now).lastUpdate = 0 := by
  cases forcetimer with
  | false => rfl
  | true =>
    rw [BattleRoom.new_forced]
    simp only [BattleRoom.requestKickInactive, BattleRoom.new, Option.isSome, Bool.false_eq_true,
      if_false, BattleRoom.armTimer, BattleRoom.recordRequester]
    have h1 : ∀ (r : BattleRoom) (side : Int), (r.topUpBank side).lastUpdate = r.lastUpdate := by
      intro r side
      by_cases h0 : side < 0 <;> by_cases h1 : r.sideTicksLeft.1 < 16 <;>
        by_cases h2 : r.sideTicksLeft.2 < 16 <;> simp [BattleRoom.topUpBank, h0, h1, h2]
    have h2 : ∀ (r : BattleRoom) (b : Battle) (n : Int) (m : String),
        (r.sendPlayer b n m).lastUpdate = r.lastUpdate := by
      intro r b n m
      unfold BattleRoom.sendPlayer
      split <;> rfl
    have h3 : ∀ (r : BattleRoom) (b : Battle) (side m : Int),
        (r.announceBudget b side m).lastUpdate = r.lastUpdate := by
      intro r b side m
      unfold BattleRoom.announceBudget
      split_ifs <;> simp only [h2]
    simp only [h3, h1]
    rfl

/-- C7: `lastUpdate <= log.length` holds for a newly constructed room (plain,
chat or battle), and when it holds before `add`, `addRaw`, `BattleRoom.push`,
`ChatRoom.update` or `BattleRoom.update` it holds afterwards. -/
theorem lastUpdate_le_length (r : Room) (c : ChatRoom) (b : BattleRoom)
    (logTimes : Bool) (message : String) (pushed : String ⊕ List String)
    (roomid title format : String) (now : Nat) (reportjoinsperiod : Bool) (p1 p2 : User)
    (optionsRated : Bool) (optionsTour : Option String) (formatRated : Bool) (battle : Battle)
    (forcetimer : Bool)
    (hr : r.lastUpdate ≤ r.log.length) (hc : c.lastUpdate ≤ c.log.length)
    (hb : b.lastUpdate ≤ b.log.length) :
    ((Room.new roomid title now).lastUpdate ≤ (Room.new roomid title now).log.length ∧
      (ChatRoom.new roomid title now reportjoinsperiod).lastUpdate
        ≤ (ChatRoom.new roomid title now reportjoinsperiod).log.length ∧
      (BattleRoom.new roomid format p1 p2 optionsRated optionsTour formatRated battle forcetimer
          now).lastUpdate
        ≤ (BattleRoom.new roomid format p1 p2 optionsRated optionsTour formatRated battle
          forcetimer now).log.length) ∧
    ((r.add logTimes message).lastUpdate ≤ (r.add logTimes message).log.length ∧
      (r.addRaw logTimes message).lastUpdate ≤ (r.addRaw logTimes message).log.length ∧
      (c.add message).lastUpdate ≤ (c.add message).log.length ∧
      (c.addRaw message).lastUpdate ≤ (c.addRaw message).log.length ∧
      (b.add message).lastUpdate ≤ (b.add message).log.length ∧
      (b.addRaw message).lastUpdate ≤ (b.addRaw message).log.length) ∧
    (b.push pushed).lastUpdate ≤ (b.push pushed).log.length ∧
    c.update.lastUpdate ≤ c.update.log.length ∧
    b.update.lastUpdate ≤ b.update.log.length := by
  refine ⟨⟨Nat.zero_le _, Nat.zero_le _, ?_⟩, ⟨?_, ?_, ?_, ?_, ?_, ?_⟩, ?_, ?_, ?_⟩
  · rw [BattleRoom.new_log]; exact Nat.zero_le _
  · simp only [Room.add, List.length_append, List.length_singleton]; omega
  · simp only [Room.addRaw, Room.add, List.length_append, List.length_singleton]; omega
  · simp only [ChatRoom.add, Room.add, List.length_append, List.length_singleton]; omega
  · simp only [ChatRoom.addRaw, Room.addRaw, Room.add, List.length_append,
      List.length_singleton]; omega
  · simp only [BattleRoom.add, Room.add, List.length_append, List.length_singleton]; omega
  · simp only [BattleRoom.addRaw, Room.addRaw, Room.add, List.length_append,
      List.length_singleton]; omega
  · cases pushed <;> simp only [BattleRoom.push, List.length_append, List.length_singleton] <;>
      omega
  · exact le_of_eq (ChatRoom.chat_update_spec c hc).1
  · exact le_of_eq (BattleRoom.battle_update_spec b hb).1

theorem lastUpdate_le_length_witness :
    (Example.battleRoom.push (.inr ["|split", "a", "b", "c", "d"])).lastUpdate
      ≤ (Example.battleRoom.push (.inr ["|split", "a", "b", "c", "d"])).log.length ∧
    (Example.lobby.add "|c|alice|hi").update.lastUpdate
      ≤ (Example.lobby.add "|c|alice|hi").update.log.length ∧
    Example.battleRoom.update.lastUpdate ≤ Example.battleRoom.update.log.length :=
  (lastUpdate_le_length Example.lobby.toRoom (Example.lobby.add "|c|alice|hi")
    Example.battleRoom true "hello" (.inr ["|split", "a", "b", "c", "d"]) "lobby" "Lobby" "ou"
    5000 false Example.alice Example.bob true none true Example.freshBattle true
    (Nat.zero_le _) (Nat.zero_le _) (Nat.zero_le _)).2.2

/-- `update()` of a chat room never moves the mark back once it is at most
100, the number of lines the log is trimmed to. -/
theorem ChatRoom.update_mono (r : ChatRoom) (h : r.lastUpdate ≤ 100) :
    r.lastUpdate ≤ r.update.lastUpdate ∧ r.update.lastUpdate ≤ 100 := by
  unfold ChatRoom.update
  split
  · exact ⟨le_refl _, h⟩
  · rename_i hlt
    simp only []
    split_ifs with hlong
    · simp only [List.length_drop]
      omega
    · omega

theorem ChatRoom.step_mono (r : ChatRoom) (op : LogOp) (h : r.lastUpdate ≤ 100) :
    r.lastUpdate ≤ (r.step op).lastUpdate ∧ (r.step op).lastUpdate ≤ 100 := by
  cases op with
  | add message => exact ⟨le_refl _, h⟩
  | update => exact ChatRoom.update_mono r h
  | clock now => exact ⟨le_refl _, h⟩

theorem ChatRoom.run_le (ops : List LogOp) : ∀ (r : ChatRoom), r.lastUpdate ≤ 100 →
    (r.run ops).lastUpdate ≤ 100 := by
  induction ops with
  | nil => intro r h; exact h
  | cons op ops ih => intro r h; exact ih (r.step op) (ChatRoom.step_mono r op h).2

/-- C8: `lastUpdate` never decreases. For a chat room, after every sequence of
`add` and `update` calls on a newly constructed room, the next call leaves
`lastUpdate` at least as large as it was; for a battle room this holds for
every call in every state. -/
theorem lastUpdate_monotone (roomid title : String) (now : Nat) (reportjoinsperiod : Bool)
    (b : BattleRoom) (ops : List LogOp) (op : LogOp) :
    ((ChatRoom.new roomid title now reportjoinsperiod).run ops).lastUpdate
      ≤ (((ChatRoom.new roomid title now reportjoinsperiod).run ops).step op).lastUpdate ∧
    b.lastUpdate ≤ (b.step op).lastUpdate := by
  constructor
  · exact (ChatRoom.step_mono _ op (ChatRoom.run_le ops _ (Nat.zero_le _))).1
  · cases op with
    | add message => exact le_refl _
    | update =>
      show b.lastUpdate ≤ b.update.lastUpdate
      unfold BattleRoom.update
      split
      · exact le_refl _
      · simp only []; omega
    | clock now => exact le_refl _

namespace BattleRoom

/-! ## Ticks, arming and the turn budget -/

theorem decrementTicks_values (r : BattleRoom) (side : Int) :
    (r.decrementTicks side).sideTurnTicks
      = (if side ≠ 1 then r.sideTurnTicks.1 - 1 else r.sideTurnTicks.1,
         if side ≠ 0 then r.sideTurnTicks.2 - 1 else r.sideTurnTicks.2) ∧
    (r.decrementTicks side).sideTicksLeft
      = (if side ≠ 1 then r.sideTicksLeft.1 - 1 else r.sideTicksLeft.1,
         if side ≠ 0 then r.sideTicksLeft.2 - 1 else r.sideTicksLeft.2) := by
  by_cases h1 : side = 1 <;> by_cases h0 : side = 0 <;> simp [decrementTicks, h0, h1]

/-- After a tick of a started, unended battle the counters are those left by
the decrements: neither the announcement nor the forfeit touches them. -/
theorem kickInactive_counters (w : BattleWorld) (battle : Battle)
    (hb : w.room.battle = some battle)
    (hstarted : battle.started = true) (hended : battle.ended = false) :
    (kickInactive w).room.sideTurnTicks
      = (w.room.decrementTicks (getInactiveSide battle)).sideTurnTicks ∧
    (kickInactive w).room.sideTicksLeft
      = (w.room.decrementTicks (getInactiveSide battle)).sideTicksLeft := by
  have hcond : ¬ (battle.ended = true ∨ battle.started = false) := by
    rw [hended, hstarted]; simp
  have hb' : w.room.clearTimer.battle = some battle := hb
  have hdec : (w.room.clearTimer.decrementTicks (getInactiveSide battle)).sideTurnTicks
        = (w.room.decrementTicks (getInactiveSide battle)).sideTurnTicks ∧
      (w.room.clearTimer.decrementTicks (getInactiveSide battle)).sideTicksLeft
        = (w.room.decrementTicks (getInactiveSide battle)).sideTicksLeft := by
    rw [(decrementTicks_values _ _).1, (decrementTicks_values _ _).2,
      (decrementTicks_values _ _).1, (decrementTicks_values _ _).2]
    exact ⟨rfl, rfl⟩
  unfold kickInactive
  simp only [hb', hcond, if_false]
  split_ifs with hrearm
  · have ha := timer_announceTicks (w.room.clearTimer.decrementTicks (getInactiveSide battle))
      battle (getInactiveSide battle)
      (w.room.clearTimer.decrementTicks (getInactiveSide battle)).ticksLeft
    simp only [timer, Prod.mk.injEq] at ha
    obtain ⟨a1, a2, -, -⟩ := ha
    exact ⟨a2.trans hdec.1, a1.trans hdec.2⟩
  · have hf := timer_forfeit
      { w with room := w.room.clearTimer.decrementTicks (getInactiveSide battle) }
      (battle.getPlayer (losingSide (getInactiveSide battle)
        (w.room.clearTimer.decrementTicks (getInactiveSide battle)).ticksLeft))
      (some " lost due to inactivity.")
      (some (losingSide (getInactiveSide battle)
        (w.room.clearTimer.decrementTicks (getInactiveSide battle)).ticksLeft))
    simp only [timer, Prod.mk.injEq] at hf
    obtain ⟨f1, f2, -, -⟩ := hf
    exact ⟨f2.trans hdec.1, f1.trans hdec.2⟩

/-- C11: a timer tick (`kickInactive` on a started, unended battle) decrements
`sideTurnTicks` and `sideTicksLeft` by exactly 1 for each side on the clock and
leaves both counters of a side that is not on the clock unchanged: when
`getInactiveSide()` is 0 only the counters of side 0 change, when it is 1 only
those of side 1 change, and otherwise the counters of both sides go down. -/
theorem kickInactive_decrements_sides_on_clock (w : BattleWorld) (battle : Battle)
    (hb : w.room.battle = some battle)
    (hstarted : battle.started = true) (hended : battle.ended = false) :
    (getInactiveSide battle = 0 →
      (kickInactive w).room.sideTurnTicks = (w.room.sideTurnTicks.1 - 1, w.room.sideTurnTicks.2) ∧
      (kickInactive w).room.sideTicksLeft
        = (w.room.sideTicksLeft.1 - 1, w.room.sideTicksLeft.2)) ∧
    (getInactiveSide battle = 1 →
      (kickInactive w).room.sideTurnTicks = (w.room.sideTurnTicks.1, w.room.sideTurnTicks.2 - 1) ∧
      (kickInactive w).room.sideTicksLeft
        = (w.room.sideTicksLeft.1, w.room.sideTicksLeft.2 - 1)) ∧
    (getInactiveSide battle ≠ 0 → getInactiveSide battle ≠ 1 →
      (kickInactive w).room.sideTurnTicks
        = (w.room.sideTurnTicks.1 - 1, w.room.sideTurnTicks.2 - 1) ∧
      (kickInactive w).room.sideTicksLeft
        = (w.room.sideTicksLeft.1 - 1, w.room.sideTicksLeft.2 - 1)) := by
  obtain ⟨k1, k2⟩ := kickInactive_counters w battle hb hstarted hended
  obtain ⟨v1, v2⟩ := decrementTicks_values w.room (getInactiveSide battle)
  rw [k1, k2, v1, v2]
  refine ⟨fun h => ?_, fun h => ?_, fun h0 h1 => ?_⟩
  · simp [h]
  · simp [h]
  · simp [h0, h1]

theorem kickInactive_decrements_sides_on_clock_witness :
    (kickInactive ⟨1, (Example.startedRoom.armTimer Example.runningBattle
        (.user Example.alice) false).1⟩).room.sideTurnTicks = (15 - 1, 15) ∧
    (kickInactive ⟨1, (Example.startedRoom.armTimer Example.runningBattle
        (.user Example.alice) false).1⟩).room.sideTicksLeft = (22 - 1, 22) :=
  (kickInactive_decrements_sides_on_clock
    ⟨1, (Example.startedRoom.armTimer Example.runningBattle (.user Example.alice) false).1⟩
    Example.runningBattle rfl rfl rfl).1 (by decide)

/-- C12: arming is idempotent. While a timer is scheduled,
`requestKickInactive(user, force)` returns false for every user and every
`force` and leaves `resetTimer`, `resetUser`, `sideTurnTicks` and
`sideTicksLeft` as they are: no second callback is scheduled. -/
theorem requestKickInactive_idempotent (r : BattleRoom) (user : Requester) (force : Bool)
    (harmed : r.resetTimer.isSome) :
    ∃ r', r.requestKickInactive user force = .ok (r', false) ∧
      r'.resetTimer = r.resetTimer ∧ r'.resetUser = r.resetUser ∧
      r'.sideTurnTicks = r.sideTurnTicks ∧ r'.sideTicksLeft = r.sideTicksLeft := by
  unfold requestKickInactive
  rw [if_pos harmed]
  cases user with
  | user u => exact ⟨_, rfl, rfl, rfl, rfl, rfl⟩
  | isFalse => exact ⟨_, rfl, rfl, rfl, rfl, rfl⟩
  | undef => exact ⟨_, rfl, rfl, rfl, rfl, rfl⟩

theorem requestKickInactive_idempotent_witness :
    ∃ r', (Example.startedRoom.armTimer Example.runningBattle (.user Example.alice)
        false).1.requestKickInactive (.user Example.bob) true = .ok (r', false) ∧
      r'.resetTimer = (Example.startedRoom.armTimer Example.runningBattle
        (.user Example.alice) false).1.resetTimer ∧
      r'.resetUser = (Example.startedRoom.armTimer Example.runningBattle
        (.user Example.alice) false).1.resetUser ∧
      r'.sideTurnTicks = (Example.startedRoom.armTimer Example.runningBattle
        (.user Example.alice) false).1.sideTurnTicks ∧
      r'.sideTicksLeft = (Example.startedRoom.armTimer Example.runningBattle
        (.user Example.alice) false).1.sideTicksLeft :=
  requestKickInactive_idempotent _ (.user Example.bob) true rfl

theorem maxTicksLeft_eq_spec (r : BattleRoom) (battle : Battle) :
    r.maxTicksLeft battle
      = specTurnBudget r.rated.isSome (decide (battle.p1 = "" ∨ battle.p2 = "")) := by
  unfold maxTicksLeft specTurnBudget
  cases hr : r.rated <;> by_cases hp : battle.p1 = "" ∨ battle.p2 = "" <;> simp [hp]

/-- A successful `armTimer` seeds both turn budgets with `maxTicksLeft`. -/
theorem armTimer_budget (r : BattleRoom) (battle : Battle) (user : Requester) (force : Bool)
    (h : (r.armTimer battle user force).2 = true) :
    (r.armTimer battle user force).1.sideTurnTicks
      = (r.maxTicksLeft battle, r.maxTicksLeft battle) := by
  unfold armTimer at h ⊢
  cases hreq : r.recordRequester battle user force with
  | none => rw [hreq] at h; simp at h
  | some r1 =>
    obtain ⟨-, hrated⟩ := timer_recordRequester r r1 battle user force hreq
    have hm : r1.maxTicksLeft battle = r.maxTicksLeft battle := by
      unfold maxTicksLeft; rw [hrated]
    obtain ⟨-, -, t3, -, -⟩ := topUpBank_spec
      { r1 with sideTurnTicks := (r1.maxTicksLeft battle, r1.maxTicksLeft battle) }
      (getInactiveSide battle)
    have ha := timer_announceBudget
      (({ r1 with sideTurnTicks := (r1.maxTicksLeft battle, r1.maxTicksLeft battle) } :
        BattleRoom).topUpBank (getInactiveSide battle)) battle (getInactiveSide battle)
      (r1.maxTicksLeft battle)
    simp only [timer, Prod.mk.injEq] at ha
    obtain ⟨-, a2, -, -⟩ := ha
    simp only []
    rw [a2, t3, hm]

/-- C13: every successful `requestKickInactive` sets `sideTurnTicks` to
`[m, m]`, where the budget `m` follows the policy: 15 ticks nominally, reduced
to 6 if a player slot of the battle is empty, expanded to 30 if the battle is
unrated. -/
theorem requestKickInactive_seeds_budget (r r' : BattleRoom) (user : Requester) (force : Bool)
    (h : r.requestKickInactive user force = .ok (r', true)) :
    ∃ battle, r.battle = some battle ∧
      r'.sideTurnTicks =
        (specTurnBudget r.rated.isSome (decide (battle.p1 = "" ∨ battle.p2 = "")),
         specTurnBudget r.rated.isSome (decide (battle.p1 = "" ∨ battle.p2 = ""))) := by
  unfold requestKickInactive at h
  split_ifs at h
  · split at h <;> simp at h
  · split at h
    · cases h
    · rename_i battle hbat
      simp only [Except.ok.injEq] at h
      have h1 : (r.armTimer battle user force).1 = r' := by rw [h]
      have h2 : (r.armTimer battle user force).2 = true := by rw [h]
      refine ⟨battle, hbat, ?_⟩
      rw [← h1, armTimer_budget r battle user force h2, maxTicksLeft_eq_spec]

theorem requestKickInactive_seeds_budget_witness :
    ∃ battle, Example.startedRoom.battle = some battle ∧
      (Example.startedRoom.armTimer Example.runningBattle (.user Example.alice) false).1.sideTurnTicks
        = (specTurnBudget Example.startedRoom.rated.isSome (decide (battle.p1 = "" ∨ battle.p2 = "")),
           specTurnBudget Example.startedRoom.rated.isSome
            (decide (battle.p1 = "" ∨ battle.p2 = ""))) :=
  requestKickInactive_seeds_budget Example.startedRoom _ (.user Example.alice) false rfl

end BattleRoom

namespace BattleRoom

/-! ## Disconnection and reconnection -/

theorem giveBackTicks_bank (r : BattleRoom) :
    r.giveBackTicks.1.sideTicksLeft = r.sideTicksLeft ∧
    r.giveBackTicks.1.rated = r.rated ∧ r.giveBackTicks.1.resetTimer = r.resetTimer ∧
    r.giveBackTicks.1.battle = r.battle := by
  by_cases e1 : r.disconnectTickDiff.1 = 0 <;> by_cases e2 : r.disconnectTickDiff.2 = 0 <;>
    simp [giveBackTicks, e1, e2]

/-- `kickInactiveUpdate` never changes the banks. -/
theorem kickInactiveUpdate_bank (r r' : BattleRoom) (result : Bool)
    (h : r.kickInactiveUpdate = .ok (r', result)) : r'.sideTicksLeft = r.sideTicksLeft := by
  unfold kickInactiveUpdate at h
  split_ifs at h with hrated harmed
  · simp only [Except.ok.injEq, Prod.mk.injEq] at h
    rw [← h.1]
  · split at h
    · cases h
    · rename_i battle _
      simp only [] at h
      split_ifs at h
      · simp only [Except.ok.injEq, Prod.mk.injEq] at h
        rw [← h.1]; rfl
      · simp only [Except.ok.injEq, Prod.mk.injEq] at h
        rw [← h.1]; rfl
      · simp only [Except.ok.injEq, Prod.mk.injEq] at h
        rw [← h.1]
      · simp only [Except.ok.injEq, Prod.mk.injEq] at h
        rw [← h.1]
      · have hg := (giveBackTicks_bank r).1
        split at h
        · rename_i r2 changed hgb
          simp only [Except.ok.injEq, Prod.mk.injEq] at h
          rw [← h.1]
          rw [hgb] at hg
          exact hg
        · rename_i r2 hgb
          simp only [Except.ok.injEq, Prod.mk.injEq] at h
          rw [← h.1]
          rw [hgb] at hg
          exact hg
      · simp only [Except.ok.injEq, Prod.mk.injEq] at h
        rw [← h.1]
  · simp only [Except.ok.injEq, Prod.mk.injEq] at h
    rw [← h.1]

/-- With both players present and no offset outstanding `kickInactiveUpdate`
changes nothing. -/
theorem kickInactiveUpdate_settled (r : BattleRoom) (battle : Battle)
    (hb : r.battle = some battle) (hp1 : battle.p1 ≠ "") (hp2 : battle.p2 ≠ "")
    (hd : r.disconnectTickDiff = (0, 0)) : r.kickInactiveUpdate = .ok (r, false) := by
  unfold kickInactiveUpdate
  split_ifs
  · rfl
  · simp [hb, hp1, hp2, giveBackTicks, hd]
  · rfl

/-- The player of side 0 disconnects while on the clock. -/
theorem kickInactiveUpdate_disconnect0 (r : BattleRoom) (battle : Battle)
    (hrated : r.rated.isNone = false) (harmed : r.resetTimer.isSome = true)
    (hb : r.battle = some battle) (hd : r.disconnectTickDiff = (0, 0))
    (hp : battle.p1 = "") (hside : getInactiveSide battle = 0) (ht : 7 < r.sideTurnTicks.1) :
    ∃ r1, r.kickInactiveUpdate = .ok (r1, true) ∧
      r1.disconnectTickDiff = (r.sideTurnTicks.1 - 7, 0) ∧
      r1.sideTurnTicks = (7, r.sideTurnTicks.2) ∧
      r1.rated = r.rated ∧ r1.resetTimer = r.resetTimer := by
  unfold kickInactiveUpdate
  simp only [hrated, harmed, hb, hd, hp, hside, ht, Bool.false_eq_true, if_false, if_true,
    true_or, and_self, true_and, gt_iff_lt]
  exact ⟨_, rfl, rfl, rfl, rfl, rfl⟩

/-- The player of side 1 disconnects while on the clock. -/
theorem kickInactiveUpdate_disconnect1 (r : BattleRoom) (battle : Battle)
    (hrated : r.rated.isNone = false) (harmed : r.resetTimer.isSome = true)
    (hb : r.battle = some battle) (hd : r.disconnectTickDiff = (0, 0))
    (hp : battle.p2 = "") (hside : getInactiveSide battle = 1) (ht : 7 < r.sideTurnTicks.2) :
    ∃ r1, r.kickInactiveUpdate = .ok (r1, true) ∧
      r1.disconnectTickDiff = (0, r.sideTurnTicks.2 - 7) ∧
      r1.sideTurnTicks = (r.sideTurnTicks.1, 7) ∧
      r1.rated = r.rated ∧ r1.resetTimer = r.resetTimer := by
  unfold kickInactiveUpdate
  simp only [hrated, harmed, hb, hd, hp, hside, ht, Bool.false_eq_true, if_false, if_true,
    or_true, and_self, true_and, gt_iff_lt, one_ne_zero, and_false, false_and, false_or]
  exact ⟨_, rfl, rfl, rfl, rfl, rfl⟩

/-- Both players are present again: the offsets go back to the turn budgets. -/
theorem kickInactiveUpdate_reconnect (r : BattleRoom) (battle : Battle)
    (hrated : r.rated.isNone = false) (harmed : r.resetTimer.isSome = true)
    (hb : r.battle = some battle) (hp1 : battle.p1 ≠ "") (hp2 : battle.p2 ≠ "")
    (hd : r.disconnectTickDiff.1 ≠ 0 ∨ r.disconnectTickDiff.2 ≠ 0) :
    ∃ r2, r.kickInactiveUpdate = .ok (r2, true) ∧
      r2.sideTurnTicks = (r.sideTurnTicks.1 + r.disconnectTickDiff.1,
        r.sideTurnTicks.2 + r.disconnectTickDiff.2) ∧
      r2.disconnectTickDiff = (0, 0) ∧ r2.battle = some battle := by
  unfold kickInactiveUpdate
  simp only [hrated, harmed, hb, hp1, hp2, Bool.false_eq_true, if_false, if_true, false_or,
    false_and, ne_eq, not_false_eq_true, and_self]
  by_cases e1 : r.disconnectTickDiff.1 = 0 <;> by_cases e2 : r.disconnectTickDiff.2 = 0
  · exact absurd hd (by simp [e1, e2])
  · simp only [giveBackTicks, e1, e2, ne_eq, not_true_eq_false, not_false_eq_true, if_true,
      if_false]
    exact ⟨_, rfl, by simp [send, e1], by simp [send, e1], hb⟩
  · simp only [giveBackTicks, e1, e2, ne_eq, not_true_eq_false, not_false_eq_true, if_true,
      if_false]
    exact ⟨_, rfl, by simp [send, e2], by simp [send, e2], hb⟩
  · simp only [giveBackTicks, e1, e2, ne_eq, not_true_eq_false, not_false_eq_true, if_true,
      if_false]
    exact ⟨_, rfl, rfl, rfl, hb⟩

end BattleRoom

namespace BattleRoom

/-- C14: reconnect tick restoration. In a rated battle room with the timer
armed and both `disconnectTickDiff` entries zero, when the on-clock player of
side `i` is gone with `sideTurnTicks[i] = t > 7`, `kickInactiveUpdate` sets
`disconnectTickDiff[i] = t - 7` and `sideTurnTicks[i] = 7`; when both players
are present again, `kickInactiveUpdate` restores `sideTurnTicks[i]` to `t` and
resets `disconnectTickDiff[i]` to 0, and a further `kickInactiveUpdate` changes
nothing. The banks `sideTicksLeft` are never changed by `kickInactiveUpdate`. -/
theorem reconnect_restores_turn_ticks (r : BattleRoom) (battle reconnected : Battle)
    (hrated : r.rated.isSome = true) (harmed : r.resetTimer.isSome = true)
    (hb : r.battle = some battle) (hd : r.disconnectTickDiff = (0, 0))
    (hp1 : reconnected.p1 ≠ "") (hp2 : reconnected.p2 ≠ "") :
    (battle.p1 = "" → getInactiveSide battle = 0 → 7 < r.sideTurnTicks.1 →
      ∃ r1 r2, r.kickInactiveUpdate = .ok (r1, true) ∧
        r1.disconnectTickDiff = (r.sideTurnTicks.1 - 7, 0) ∧
        r1.sideTurnTicks = (7, r.sideTurnTicks.2) ∧
        ({ r1 with battle := some reconnected } : BattleRoom).kickInactiveUpdate
          = .ok (r2, true) ∧
        r2.sideTurnTicks = r.sideTurnTicks ∧ r2.disconnectTickDiff = (0, 0) ∧
        r2.kickInactiveUpdate = .ok (r2, false)) ∧
    (battle.p2 = "" → getInactiveSide battle = 1 → 7 < r.sideTurnTicks.2 →
      ∃ r1 r2, r.kickInactiveUpdate = .ok (r1, true) ∧
        r1.disconnectTickDiff = (0, r.sideTurnTicks.2 - 7) ∧
        r1.sideTurnTicks = (r.sideTurnTicks.1, 7) ∧
        ({ r1 with battle := some reconnected } : BattleRoom).kickInactiveUpdate
          = .ok (r2, true) ∧
        r2.sideTurnTicks = r.sideTurnTicks ∧ r2.disconnectTickDiff = (0, 0) ∧
        r2.kickInactiveUpdate = .ok (r2, false)) ∧
    (∀ (x x' : BattleRoom) (result : Bool),
      x.kickInactiveUpdate = .ok (x', result) → x'.sideTicksLeft = x.sideTicksLeft) := by
  have hr : r.rated.isNone = false := by
    cases h : r.rated with
    | none => rw [h] at hrated; simp at hrated
    | some _ => rfl
  refine ⟨fun hp hside ht => ?_, fun hp hside ht => ?_, kickInactiveUpdate_bank⟩
  · obtain ⟨r1, h1, d1, t1, ra1, ar1⟩ :=
      kickInactiveUpdate_disconnect0 r battle hr harmed hb hd hp hside ht
    obtain ⟨r2, h2, t2, d2, b2⟩ := kickInactiveUpdate_reconnect
      ({ r1 with battle := some reconnected } : BattleRoom) reconnected
      (by show r1.rated.isNone = false; rw [ra1]; exact hr)
      (by show r1.resetTimer.isSome = true; rw [ar1]; exact harmed) rfl hp1 hp2
      (by
        left
        show r1.disconnectTickDiff.1 ≠ 0
        rw [d1]
        simp only [ne_eq]
        omega)
    refine ⟨r1, r2, h1, d1, t1, h2, ?_, d2, kickInactiveUpdate_settled r2 reconnected b2 hp1 hp2 d2⟩
    rw [t2]
    show (r1.sideTurnTicks.1 + r1.disconnectTickDiff.1, r1.sideTurnTicks.2 + r1.disconnectTickDiff.2)
      = r.sideTurnTicks
    rw [t1, d1]
    apply Prod.ext <;> simp
  · obtain ⟨r1, h1, d1, t1, ra1, ar1⟩ :=
      kickInactiveUpdate_disconnect1 r battle hr harmed hb hd hp hside ht
    obtain ⟨r2, h2, t2, d2, b2⟩ := kickInactiveUpdate_reconnect
      ({ r1 with battle := some reconnected } : BattleRoom) reconnected
      (by show r1.rated.isNone = false; rw [ra1]; exact hr)
      (by show r1.resetTimer.isSome = true; rw [ar1]; exact harmed) rfl hp1 hp2
      (by
        right
        show r1.disconnectTickDiff.2 ≠ 0
        rw [d1]
        simp only [ne_eq]
        omega)
    refine ⟨r1, r2, h1, d1, t1, h2, ?_, d2, kickInactiveUpdate_settled r2 reconnected b2 hp1 hp2 d2⟩
    rw [t2]
    show (r1.sideTurnTicks.1 + r1.disconnectTickDiff.1, r1.sideTurnTicks.2 + r1.disconnectTickDiff.2)
      = r.sideTurnTicks
    rw [t1, d1]
    apply Prod.ext <;> simp

theorem reconnect_restores_turn_ticks_witness :
    ∃ r1 r2, Example.tenTicksRoom.kickInactiveUpdate = .ok (r1, true) ∧
      r1.disconnectTickDiff = (10 - 7, 0) ∧ r1.sideTurnTicks = (7, 15) ∧
      ({ r1 with battle := some Example.runningBattle } : BattleRoom).kickInactiveUpdate
        = .ok (r2, true) ∧
      r2.sideTurnTicks = (10, 15) ∧ r2.disconnectTickDiff = (0, 0) ∧
      r2.kickInactiveUpdate = .ok (r2, false) :=
  (reconnect_restores_turn_ticks Example.tenTicksRoom Example.droppedBattle Example.runningBattle
    rfl rfl rfl rfl (by decide) (by decide)).1 rfl (by decide) (by decide)

end BattleRoom

namespace BattleRoom

/-- A forfeit that goes through: the result of `forfeit` once the side is
resolved. -/
theorem forfeit_resolved (w : BattleWorld) (user : Option User) (message : Option String)
    (side : Option Int) (b : Battle) (s : Int) (hb : w.room.battle = some b)
    (hended : b.ended = false) (hstarted : b.started = true)
    (hs : forfeitSide b user side = some s) :
    forfeit w user message side
      = (declareForfeit w b (forfeitName w.room user s) (forfeitMessage message) s, true) := by
  unfold forfeit
  simp [hb, hended, hstarted, hs]

/-- The side of a user who is not one of the two players is not resolved. -/
theorem forfeitSide_stranger (b : Battle) (user : Option User)
    (h : ∀ u, user = some u → some u.userid ≠ b.playerids.1 ∧ some u.userid ≠ b.playerids.2) :
    forfeitSide b user none = none := by
  cases user with
  | none => rfl
  | some u =>
    obtain ⟨h1, h2⟩ := h u rfl
    simp [forfeitSide, h1, h2]

/-- The side of a player, or the side given, is resolved; a side resolved from
the user is 0 or 1. -/
theorem forfeitSide_resolved (b : Battle) (user : Option User) (side : Option Int)
    (h : side ≠ none ∨
      ∃ u, user = some u ∧ (some u.userid = b.playerids.1 ∨ some u.userid = b.playerids.2)) :
    ∃ s, forfeitSide b user side = some s ∧ (side = none → s = 0 ∨ s = 1) ∧
      (∀ given, side = some given → s = given) := by
  cases side with
  | some given =>
    refine ⟨given, rfl, fun h => ?_, fun g hg => ?_⟩
    · cases h
    · exact Option.some.inj hg
  | none =>
    rcases h with h | ⟨u, rfl, h⟩
    · exact absurd rfl h
    · by_cases h2 : some u.userid = b.playerids.2
      · exact ⟨1, by simp [forfeitSide, h2], fun _ => Or.inr rfl, fun g hg => by cases hg⟩
      · have h1 : some u.userid = b.playerids.1 := h.resolve_right h2
        exact ⟨0, by simp only [forfeitSide, if_pos h1, if_neg h2], fun _ => Or.inl rfl,
          fun g hg => by cases hg⟩

/-- C17: `forfeit(user, message, side)` returns false and changes nothing (the
room with its log, battle and `active`, and the global battle count) when the
battle is absent, already ended or not started, or when no side is given and
the user is not one of the two players. Otherwise it returns true, the log
gets exactly one line, `|-message|` followed by the name of the forfeiting
side and the reason, the end type of the battle becomes `forfeit`, and the
battle is told that the opposite side wins: `p2` when side 0 forfeits, `p1`
when side 1 forfeits. The forfeiting side is the side given, or else the seat
of the user: side 1 for the second player id, side 0 for the first. The name
is that of the user, or else the rated identity of the side, or else
`Player 1` or `Player 2`; the reason is the message, ` forfeited.` when none
is given. -/
theorem forfeit_rejects_or_declares (w : BattleWorld) (user : Option User)
    (message : Option String) (side : Option Int) :
    ((w.room.battle = none ∨
      (∃ b, w.room.battle = some b ∧ (b.ended = true ∨ b.started = false)) ∨
      (side = none ∧ ∃ b, w.room.battle = some b ∧ ∀ u, user = some u →
        some u.userid ≠ b.playerids.1 ∧ some u.userid ≠ b.playerids.2)) →
      forfeit w user message side = (w, false)) ∧
    (∀ b, w.room.battle = some b → b.ended = false → b.started = true →
      (∀ s, side = some s →
        (forfeit w user message side).2 = true ∧
        Forfeited w (forfeit w user message side).1 b (forfeitName w.room user s)
          (forfeitMessage message) (pick ("p2", "p1") s)) ∧
      (∀ u, side = none → user = some u → some u.userid = b.playerids.2 →
        (forfeit w user message side).2 = true ∧
        Forfeited w (forfeit w user message side).1 b u.name (forfeitMessage message)
          (some "p1")) ∧
      (∀ u, side = none → user = some u → some u.userid = b.playerids.1 →
        some u.userid ≠ b.playerids.2 →
        (forfeit w user message side).2 = true ∧
        Forfeited w (forfeit w user message side).1 b u.name (forfeitMessage message)
          (some "p2"))) ∧
    (pick ("p2", "p1") (0 : Int) = some "p2" ∧ pick ("p2", "p1") (1 : Int) = some "p1") ∧
    (forfeitMessage none = " forfeited." ∧ forfeitMessage (some "") = " forfeited." ∧
      ∀ m, m ≠ "" → forfeitMessage (some m) = m) ∧
    ((∀ u s, forfeitName w.room (some u) s = u.name) ∧
      (∀ rated, w.room.rated = some rated →
        forfeitName w.room none 0 = rated.p1 ∧ forfeitName w.room none 1 = rated.p2) ∧
      (w.room.rated = none →
        forfeitName w.room none 0 = "Player 1" ∧ forfeitName w.room none 1 = "Player 2")) := by
  refine ⟨?_, fun b hb hended hstarted => ⟨fun s hs => ?_, fun u hs hu h2 => ?_,
    fun u hs hu h1 h2 => ?_⟩, ⟨rfl, rfl⟩, ⟨rfl, rfl, fun m hm => ?_⟩,
    ⟨fun u s => rfl, fun rated hr => ?_, fun hr => ?_⟩⟩
  · rintro (h | ⟨b, hb, h⟩ | ⟨rfl, b, hb, h⟩)
    · unfold forfeit
      simp [h]
    · unfold forfeit
      rcases h with h | h <;> simp [hb, h]
    · unfold forfeit
      simp only [hb, forfeitSide_stranger b user h]
      split <;> rfl
  · have hf := forfeit_resolved w user message side b s hb hended hstarted
      (by rw [hs]; rfl)
    have hd := declareForfeit_room w b (forfeitName w.room user s) (forfeitMessage message) s
    rw [hf]
    exact ⟨rfl, hd.2.1, hd.2.2⟩
  · subst hs hu
    have hf := forfeit_resolved w (some u) message none b 1 hb hended hstarted
      (by simp [forfeitSide, h2])
    have hd := declareForfeit_room w b (forfeitName w.room (some u) 1) (forfeitMessage message) 1
    rw [hf]
    exact ⟨rfl, hd.2.1, hd.2.2⟩
  · subst hs hu
    have hf := forfeit_resolved w (some u) message none b 0 hb hended hstarted
      (by simp only [forfeitSide, if_pos h1, if_neg h2])
    have hd := declareForfeit_room w b (forfeitName w.room (some u) 0) (forfeitMessage message) 0
    rw [hf]
    exact ⟨rfl, hd.2.1, hd.2.2⟩
  · simp [forfeitMessage, hm]
  · simp [forfeitName, hr, pick]
  · simp [forfeitName, hr]
    decide

theorem forfeit_rejects_or_declares_witness :
    (BattleRoom.forfeit ⟨1, Example.battleRoom⟩ (some Example.alice) none none
        = (⟨1, Example.battleRoom⟩, false)) ∧
    (BattleRoom.forfeit ⟨1, Example.startedRoom⟩ (some Example.bob) none none).2 = true ∧
    (BattleRoom.forfeit ⟨1, Example.startedRoom⟩ (some Example.bob) none none).1.room.log
      = Example.startedRoom.log ++ ["|-message|" ++ "Bob" ++ " forfeited."] ∧
    (BattleRoom.forfeit ⟨1, Example.startedRoom⟩ (some Example.bob) none none).1.room.battle
      = some { Example.runningBattle with
          endType := some "forfeit"
          sent := Example.runningBattle.sent ++ [("win", some "p1")] } :=
  ⟨(forfeit_rejects_or_declares ⟨1, Example.battleRoom⟩ (some Example.alice) none none).1
      (Or.inr (Or.inl ⟨Example.freshBattle, rfl, Or.inr rfl⟩)),
    ((forfeit_rejects_or_declares ⟨1, Example.startedRoom⟩ (some Example.bob) none none).2.1
      Example.runningBattle rfl rfl rfl).2.1 Example.bob rfl rfl (by decide)⟩

end BattleRoom

namespace BattleRoom

theorem update_flags (r : BattleRoom) :
    r.update.active = r.active ∧ r.update.rated = r.rated ∧ r.update.tour = r.tour ∧
    r.update.p1 = r.p1 ∧ r.update.p2 = r.p2 := by
  unfold update
  split <;> exact ⟨rfl, rfl, rfl, rfl, rfl⟩

/-- What the end of `win` leaves. -/
theorem deactivate_spec (n : Int) (r : BattleRoom) :
    (deactivate n r).battleCount = n - (if r.active then 1 else 0) ∧
    (deactivate n r).room.active = false ∧ (deactivate n r).room.rated = r.rated ∧
    (deactivate n r).room.battle = r.battle := by
  unfold deactivate
  refine ⟨?_, ?_, ?_, ?_⟩
  · show n + (0 - (if r.active = true then (1 : Int) else 0))
      = n - (if r.active = true then 1 else 0)
    omega
  · rw [(update_flags _).1]
  · rw [(update_flags _).2.1]
  · rw [update_battle]

/-- The rated branch clears `rated`, requests at most one ladder update and
does not log the battle. -/
theorem reportRated_spec (env : WinEnv) (r : BattleRoom) (rated : Rated) (winnerid : String) :
    (reportRated env r rated winnerid).1.rated = none ∧
    (reportRated env r rated winnerid).1.active = r.active ∧
    (reportRated env r rated winnerid).1.battle = r.battle ∧
    ladderRequests (reportRated env r rated winnerid).2
      = (if rated.p1 = "" ∨ rated.p2 = "" then 0 else 1) ∧
    battleLogs (reportRated env r rated winnerid).2 = 0 := by
  unfold reportRated
  by_cases h : rated.p1 = "" ∨ rated.p2 = ""
  · rw [if_pos h, if_pos h]
    exact ⟨rfl, rfl, rfl, rfl, rfl⟩
  · rw [if_neg h, if_neg h]
    refine ⟨?_, ?_, ?_, rfl, rfl⟩
    · cases env.get winnerid with
      | none => rfl
      | some u => by_cases ha : env.authenticated u.userid = true <;> simp [ha, push, sendUser]
    · cases env.get winnerid with
      | none => rfl
      | some u => by_cases ha : env.authenticated u.userid = true <;> simp [ha, push, sendUser]
    · cases env.get winnerid with
      | none => rfl
      | some u => by_cases ha : env.authenticated u.userid = true <;> simp [ha, push, sendUser]

/-- With a battle in the room, the challenge branch logs the battle once. -/
theorem reportChallenge_spec (r : BattleRoom) (winnerid : String) (b : Battle)
    (hb : r.battle = some b) :
    reportChallenge r winnerid
      = .ok (r.update, [.logBattle (p1score winnerid r.p1.userid r.p2.userid)]) := by
  unfold reportChallenge logBattle
  simp only [update_battle, hb, (update_flags r).2.2.2.1, (update_flags r).2.2.2.2]

theorem saveReplay_counts (env : WinEnv) (winnerid : String) :
    ladderRequests (saveReplay env winnerid) = 0 ∧ battleLogs (saveReplay env winnerid) = 0 := by
  unfold saveReplay
  by_cases h : env.autosavereplays = true
  · cases hg : env.get winnerid with
    | none => simp [h, ladderRequests, battleLogs]
    | some u =>
      by_cases hc : env.hasConnection u.userid = true <;>
        simp [h, hc, ladderRequests, battleLogs, WinEffect.isLadderupdate, WinEffect.isLogBattle]
  · simp [h, ladderRequests, battleLogs]

theorem tourWin_counts (env : WinEnv) (r : BattleRoom) (winnerid : String) :
    ladderRequests (tourWin env r winnerid) = 0 ∧ battleLogs (tourWin env r winnerid) = 0 := by
  unfold tourWin
  cases r.tour with
  | none => simp [ladderRequests, battleLogs]
  | some t => simp [ladderRequests, battleLogs, WinEffect.isLadderupdate, WinEffect.isLogBattle]

theorem ladderRequests_append (a b : List WinEffect) :
    ladderRequests (a ++ b) = ladderRequests a + ladderRequests b := by
  simp [ladderRequests]

theorem battleLogs_append (a b : List WinEffect) :
    battleLogs (a ++ b) = battleLogs a + battleLogs b := by
  simp [battleLogs]

/-- Whenever `win` returns, the battle count has given up the room if it was
active, and the room is neither active nor rated. -/
theorem win_returns (env : WinEnv) (w w' : BattleWorld) (winner : String)
    (effects : List WinEffect) (h : win env w winner = .ok (w', effects)) :
    w'.battleCount = w.battleCount - (if w.room.active then 1 else 0) ∧
    w'.room.active = false ∧ w'.room.rated = none ∧ w'.room.battle = w.room.battle := by
  unfold win at h
  cases hr : w.room.rated with
  | some rated =>
    simp only [hr, Except.ok.injEq, Prod.mk.injEq] at h
    rw [← h.1]
    have hd := deactivate_spec w.battleCount (reportRated env w.room rated (toId winner)).1
    have hs := reportRated_spec env w.room rated (toId winner)
    rw [hs.1, hs.2.1, hs.2.2.1] at hd
    exact hd
  | none =>
    by_cases hl : env.logchallenges = true
    · simp only [hr, hl, if_true] at h
      cases hc : reportChallenge w.room (toId winner) with
      | error e => rw [hc] at h; cases h
      | ok p =>
        rw [hc] at h
        simp only [Except.ok.injEq, Prod.mk.injEq] at h
        rw [← h.1]
        have hp : p.1 = w.room.update := by
          unfold reportChallenge at hc
          dsimp only at hc
          cases hlog : w.room.update.logBattle
              (p1score (toId winner) w.room.update.p1.userid w.room.update.p2.userid) with
          | error e => rw [hlog] at hc; cases hc
          | ok logged =>
            rw [hlog] at hc
            simp only [Except.ok.injEq] at hc
            rw [← hc]
        rw [hp]
        have hd := deactivate_spec w.battleCount w.room.update
        rw [(update_flags _).1, (update_flags _).2.1, update_battle, hr] at hd
        exact hd
    · simp only [hr, hl, Bool.false_eq_true, if_false, Except.ok.injEq, Prod.mk.injEq] at h
      rw [← h.1]
      have hd := deactivate_spec w.battleCount w.room
      rw [hr] at hd
      exact hd

/-- With a battle in the room `win` returns, and makes exactly these ladder
requests and `logBattle` calls. -/
theorem win_counts (env : WinEnv) (w : BattleWorld) (winner : String) (b : Battle)
    (hb : w.room.battle = some b) :
    ∃ w' effects, win env w winner = .ok (w', effects) ∧
      ladderRequests effects = (match w.room.rated with
        | some rated => if rated.p1 = "" ∨ rated.p2 = "" then 0 else 1
        | none => 0) ∧
      battleLogs effects = (if w.room.rated.isNone ∧ env.logchallenges = true then 1 else 0) := by
  unfold win
  cases hr : w.room.rated with
  | some rated =>
    dsimp only
    refine ⟨_, _, rfl, ?_, ?_⟩
    · rw [ladderRequests_append, ladderRequests_append, (saveReplay_counts _ _).1,
        (tourWin_counts _ _ _).1, (reportRated_spec env w.room rated (toId winner)).2.2.2.1]
      rfl
    · rw [battleLogs_append, battleLogs_append, (saveReplay_counts _ _).2,
        (tourWin_counts _ _ _).2, (reportRated_spec env w.room rated (toId winner)).2.2.2.2]
      simp
  | none =>
    by_cases hl : env.logchallenges = true
    · simp only [hl, if_true, reportChallenge_spec w.room (toId winner) b hb]
      refine ⟨_, _, rfl, ?_, ?_⟩
      · rw [ladderRequests_append, ladderRequests_append, (saveReplay_counts _ _).1,
          (tourWin_counts _ _ _).1]
        rfl
      · rw [battleLogs_append, battleLogs_append, (saveReplay_counts _ _).2,
          (tourWin_counts _ _ _).2]
        simp [battleLogs, WinEffect.isLogBattle]
    · simp only [hl, Bool.false_eq_true, if_false]
      refine ⟨_, _, rfl, ?_, ?_⟩
      · rw [ladderRequests_append, ladderRequests_append, (saveReplay_counts _ _).1,
          (tourWin_counts _ _ _).1]
        rfl
      · rw [battleLogs_append, battleLogs_append, (saveReplay_counts _ _).2,
          (tourWin_counts _ _ _).2]
        simp [battleLogs]

end BattleRoom

namespace BattleRoom

/-- Two calls of `win` on a room with a battle: both return, and the counts
of the second follow from `rated` being cleared by the first. -/
theorem win_twice (env : WinEnv) (w : BattleWorld) (first second : String) (b : Battle)
    (hb : w.room.battle = some b) :
    ∃ w1 e1 w2 e2, win env w first = .ok (w1, e1) ∧ win env w1 second = .ok (w2, e2) ∧
      w1.room.rated = none ∧
      ladderRequests e1 = (match w.room.rated with
        | some rated => if rated.p1 = "" ∨ rated.p2 = "" then 0 else 1
        | none => 0) ∧
      battleLogs e1 = (if w.room.rated.isNone ∧ env.logchallenges = true then 1 else 0) ∧
      ladderRequests e2 = 0 ∧ battleLogs e2 = (if env.logchallenges = true then 1 else 0) := by
  obtain ⟨w1, e1, h1, l1, g1⟩ := win_counts env w first b hb
  obtain ⟨_, _, hr1, hb1⟩ := win_returns env w w1 first e1 h1
  obtain ⟨w2, e2, h2, l2, g2⟩ := win_counts env w1 second b (hb1.trans hb)
  rw [hr1] at l2 g2
  exact ⟨w1, e1, w2, e2, h1, h2, hr1, l1, g1, l2, by simpa using g2⟩

/-- C15, as stated, fails: with `Config.logchallenges` set, two calls of `win`
on a room that is not rated call `logBattle` twice; and on a rated room the
second call, after the ladder request of the first, calls `logBattle`. -/
theorem win_twice_logs_twice :
    (∃ w1 e1 w2 e2,
      win Example.winEnv ⟨1, Example.challengeRoom⟩ "Alice" = .ok (w1, e1) ∧
      win Example.winEnv w1 "Alice" = .ok (w2, e2) ∧ battleLogs (e1 ++ e2) = 2) ∧
    (∃ w1 e1 w2 e2,
      win Example.winEnv ⟨1, Example.startedRoom⟩ "Alice" = .ok (w1, e1) ∧
      win Example.winEnv w1 "Alice" = .ok (w2, e2) ∧ ladderRequests e1 = 1 ∧
      battleLogs e2 = 1) := by
  constructor
  · obtain ⟨w1, e1, w2, e2, h1, h2, _, _, g1, _, g2⟩ :=
      win_twice Example.winEnv ⟨1, Example.challengeRoom⟩ "Alice" "Alice" Example.runningBattle rfl
    refine ⟨w1, e1, w2, e2, h1, h2, ?_⟩
    rw [battleLogs_append, g1, g2]
    rfl
  · obtain ⟨w1, e1, w2, e2, h1, h2, _, l1, _, _, g2⟩ :=
      win_twice Example.winEnv ⟨1, Example.startedRoom⟩ "Alice" "Alice" Example.runningBattle rfl
    refine ⟨w1, e1, w2, e2, h1, h2, ?_, ?_⟩
    · rw [l1]; decide
    · rw [g2]; rfl

/-- C15, amended: on a room with a battle, two calls of `win` both return; the
first clears `rated`, so across the two calls the ladder update is requested
at most once and the second call requests none. The second call calls
`logBattle` exactly when `Config.logchallenges` is set; when it is not set
neither call calls `logBattle`. -/
theorem win_requests_ladder_once (env : WinEnv) (w : BattleWorld) (first second : String)
    (hb : w.room.battle.isSome = true) :
    ∃ w1 e1 w2 e2, win env w first = .ok (w1, e1) ∧ win env w1 second = .ok (w2, e2) ∧
      w1.room.rated = none ∧ ladderRequests (e1 ++ e2) ≤ 1 ∧ ladderRequests e2 = 0 ∧
      battleLogs e2 = (if env.logchallenges = true then 1 else 0) ∧
      (env.logchallenges = false → battleLogs (e1 ++ e2) = 0) := by
  obtain ⟨b, hb⟩ := Option.isSome_iff_exists.mp hb
  obtain ⟨w1, e1, w2, e2, h1, h2, hr, l1, g1, l2, g2⟩ := win_twice env w first second b hb
  refine ⟨w1, e1, w2, e2, h1, h2, hr, ?_, l2, g2, ?_⟩
  · rw [ladderRequests_append, l1, l2]
    cases w.room.rated with
    | none => simp
    | some rated => by_cases h : rated.p1 = "" ∨ rated.p2 = "" <;> simp [h]
  · intro hl
    rw [battleLogs_append, g1, g2]
    simp [hl]

theorem win_requests_ladder_once_witness :
    ∃ w1 e1 w2 e2, win Example.winEnv ⟨1, Example.startedRoom⟩ "Alice" = .ok (w1, e1) ∧
      win Example.winEnv w1 "Bob" = .ok (w2, e2) ∧
      w1.room.rated = none ∧ ladderRequests (e1 ++ e2) ≤ 1 ∧ ladderRequests e2 = 0 ∧
      battleLogs e2 = (if Example.winEnv.logchallenges = true then 1 else 0) ∧
      (Example.winEnv.logchallenges = false → battleLogs (e1 ++ e2) = 0) :=
  win_requests_ladder_once Example.winEnv ⟨1, Example.startedRoom⟩ "Alice" "Bob" rfl

/-- C16, as stated, fails: `win` on a room that is not active leaves the
global battle count as it was. -/
theorem win_keeps_count_of_inactive_room :
    ∃ w1 e1, win Example.winEnv ⟨1, Example.battleRoom⟩ "Alice" = .ok (w1, e1) ∧
      Example.battleRoom.active = false ∧ w1.battleCount = 1 := by
  obtain ⟨w1, e1, h1, _, _⟩ :=
    win_counts Example.winEnv ⟨1, Example.battleRoom⟩ "Alice" Example.freshBattle rfl
  refine ⟨w1, e1, h1, rfl, ?_⟩
  rw [(win_returns _ _ _ _ _ h1).1]
  rfl

/-- C16, amended: `win` returns on every room with a battle, and whenever it
returns the global battle count has gone down by one if the room was active
and is unchanged if it was not, and the room is left with `active = false`. -/
theorem win_gives_up_active_room (env : WinEnv) (w : BattleWorld) (winner : String) :
    (w.room.battle.isSome = true → ∃ w1 e1, win env w winner = .ok (w1, e1)) ∧
    (∀ w1 e1, win env w winner = .ok (w1, e1) →
      w1.battleCount = w.battleCount - (if w.room.active then 1 else 0) ∧
      w1.room.active = false) := by
  constructor
  · intro hb
    obtain ⟨b, hb⟩ := Option.isSome_iff_exists.mp hb
    obtain ⟨w1, e1, h1, _⟩ := win_counts env w winner b hb
    exact ⟨w1, e1, h1⟩
  · intro w1 e1 h
    exact ⟨(win_returns env w w1 winner e1 h).1, (win_returns env w w1 winner e1 h).2.1⟩

theorem win_gives_up_active_room_witness :
    ∃ w1 e1, win Example.winEnv ⟨1, Example.startedRoom⟩ "Alice" = .ok (w1, e1) ∧
      w1.battleCount = 1 - (if Example.startedRoom.active then 1 else 0) ∧
      w1.room.active = false :=
  let ⟨w1, e1, h⟩ :=
    (win_gives_up_active_room Example.winEnv ⟨1, Example.startedRoom⟩ "Alice").1 rfl
  ⟨w1, e1, h, (win_gives_up_active_room Example.winEnv ⟨1, Example.startedRoom⟩ "Alice").2 w1 e1 h⟩

end BattleRoom

namespace GlobalRoom

theorem constructed_emit (W : GlobalRoom) (e : Event) :
    constructed (W.emit e).trace = constructed W.trace ++ constructed [e] := by
  simp [emit, constructed, List.filterMap_append]

/-- `cancelSearch` leaves the registry and the battle counter alone and
constructs no room. -/
theorem cancelSearch_registry (W : GlobalRoom) (user : UserRef) :
    (W.cancelSearch user).1.rooms = W.rooms ∧
    (W.cancelSearch user).1.lastBattle = W.lastBattle ∧
    constructed (W.cancelSearch user).1.trace = constructed W.trace := by
  unfold cancelSearch
  by_cases h : (W.user user).searching = 0
  · simp [emit, h, constructed, List.filterMap_append]
  · have h2 := cancelSearchLoop_frame user (W.emit (.cancelChallengeTo user)).searchers.length 0
      (W.emit (.cancelChallengeTo user))
    simp only [emit] at h2
    simp [emit, setUser, h, h2.2.2.1, h2.2.2.2.1, h2.2.2.2.2.1, constructed,
      List.filterMap_append]

/-- What `createBattle` does to the registry. -/
theorem createBattle_registry (W : GlobalRoom) (roomid format : String) (p1 p2 : UserRef)
    (rated : Bool) :
    (W.createBattle roomid format p1 p2 rated).rooms
      = (if roomid ∈ W.rooms then W.rooms else W.rooms ++ [roomid]) ∧
    (W.createBattle roomid format p1 p2 rated).lastBattle = W.lastBattle ∧
    constructed (W.createBattle roomid format p1 p2 rated).trace
      = constructed W.trace ++ (if roomid ∈ W.rooms then [] else [roomid]) := by
  unfold createBattle
  by_cases h : roomid ∈ W.rooms
  · simp [h]
  · simp [h, emit, constructed, List.filterMap_append]

/-- A call of `startBattle` that passes validation: the id it returns is built
from the counter the probe stops at, and a room is constructed and registered
only if that id is not registered yet. -/
theorem startBattle_started (W : GlobalRoom) (p1 p2 : UserRef) (format p1team p2team : String)
    (rated : Bool) (hne : p1 ≠ p2) (hl : W.lockdown ≠ .on) :
    ∃ W', W.startBattle (some p1) (some p2) format p1team p2team rated
        = .ok (W', some ("battle-" ++ formaturlid format ++ "-" ++ toString
            (probeBattle W.rooms (formaturlid format) (W.rooms.length + 1) (W.lastBattle + 1)))) ∧
      W'.lastBattle
        = probeBattle W.rooms (formaturlid format) (W.rooms.length + 1) (W.lastBattle + 1) ∧
      W'.rooms = (if ("battle-" ++ formaturlid format ++ "-" ++ toString
            (probeBattle W.rooms (formaturlid format) (W.rooms.length + 1) (W.lastBattle + 1)))
          ∈ W.rooms then W.rooms
        else W.rooms ++ ["battle-" ++ formaturlid format ++ "-" ++ toString
            (probeBattle W.rooms (formaturlid format) (W.rooms.length + 1) (W.lastBattle + 1))]) ∧
      constructed W'.trace = constructed W.trace ++
        (if ("battle-" ++ formaturlid format ++ "-" ++ toString
            (probeBattle W.rooms (formaturlid format) (W.rooms.length + 1) (W.lastBattle + 1)))
          ∈ W.rooms then []
        else ["battle-" ++ formaturlid format ++ "-" ++ toString
            (probeBattle W.rooms (formaturlid format) (W.rooms.length + 1) (W.lastBattle + 1))]) := by
  unfold startBattle
  have hl2 : ¬ (W.emit (.startBattle (some p1) (some p2) format)).lockdown = .on := hl
  simp only [if_neg hne, if_neg hl2]
  refine ⟨_, rfl, ?_, ?_, ?_⟩
  · rw [(cancelSearch_registry _ _).2.1, (cancelSearch_registry _ _).2.1]
    simp only [emit]
    rw [(createBattle_registry _ _ _ _ _ _).2.1]
  · rw [(cancelSearch_registry _ _).1, (cancelSearch_registry _ _).1]
    simp only [emit]
    rw [(createBattle_registry _ _ _ _ _ _).1]
  · rw [(cancelSearch_registry _ _).2.2, (cancelSearch_registry _ _).2.2]
    rw [constructed_emit, constructed_emit, constructed_emit, constructed_emit,
      (createBattle_registry _ _ _ _ _ _).2.2]
    simp [emit, constructed, List.filterMap_append]

theorem formaturlid_ou : formaturlid "ou" = "ou" := by
  decide

/-- C20: the probe of `startBattle` looks up `battle-` + format + counter,
without the dash of the ids it registers, so it does not see the registered
battle rooms. With `battle-ou-1` registered and `lastBattle = 0`,
`startBattle` for the format `ou` returns `battle-ou-1`, an id that was
registered before the call: no room is constructed and the registry is as it
was. -/
theorem startBattle_returns_registered_room :
    "battle-ou-1" ∈ Example.registeredBattle.rooms ∧
    ∃ W, Example.registeredBattle.startBattle (some 0) (some 1) "ou" "" "" true
        = .ok (W, some "battle-ou-1") ∧
      W.rooms = Example.registeredBattle.rooms ∧ W.lastBattle = 1 ∧
      constructed W.trace = [] := by
  refine ⟨by decide, ?_⟩
  obtain ⟨W, h, hlast, hrooms, htrace⟩ := startBattle_started Example.registeredBattle 0 1 "ou"
    "" "" true (by decide) (by decide)
  rw [formaturlid_ou] at h hlast hrooms htrace
  have hp : probeBattle Example.registeredBattle.rooms "ou"
      (Example.registeredBattle.rooms.length + 1) (Example.registeredBattle.lastBattle + 1) = 1 := by
    decide
  rw [hp] at h hlast hrooms htrace
  have hid : "battle-" ++ "ou" ++ "-" ++ toString (1 : Nat) = "battle-ou-1" := by decide
  rw [hid] at h hrooms htrace
  refine ⟨W, h, ?_, hlast, ?_⟩
  · rw [hrooms]; rfl
  · rw [htrace]; rfl

end GlobalRoom

namespace BattleRoom

/-- C18: `destroy()` is defined on every room state, started or not, and
returns. The first call makes every user of the room leave it, in order,
destroys the battle if there is one, and cancels each of the two timers that
is set (`clearTimeout`), in this order and nothing else. Afterwards the id of
the room is not a key of the registry (the other keys are as before), and
`battle`, `users`, `resetTimer` and `expireTimer` are null. A second
`destroy()` makes no call and leaves the room and the registry exactly as the
first call left them. -/
theorem destroy_idempotent {α : Type} (r : BattleRoom) (rooms : String → Option α) :
    (r.destroy rooms).2.2
      = (match r.users with
          | some users => users.map DestroyCall.leaveRoom
          | none => [])
        ++ (match r.battle with
          | some _ => [DestroyCall.battleDestroy]
          | none => [])
        ++ (match r.resetTimer with
          | some delay => [DestroyCall.clearTimeout delay]
          | none => [])
        ++ (match r.expireTimer with
          | some delay => [DestroyCall.clearTimeout delay]
          | none => []) ∧
    (r.destroy rooms).1 r.id = none ∧
    (∀ roomid, roomid ≠ r.id → (r.destroy rooms).1 roomid = rooms roomid) ∧
    (r.destroy rooms).2.1.id = r.id ∧
    (r.destroy rooms).2.1.battle = none ∧ (r.destroy rooms).2.1.users = none ∧
    (r.destroy rooms).2.1.resetTimer = none ∧ (r.destroy rooms).2.1.expireTimer = none ∧
    (r.destroy rooms).2.1.destroy (r.destroy rooms).1
      = ((r.destroy rooms).1, (r.destroy rooms).2.1, []) := by
  refine ⟨?_, ?_, ?_, rfl, rfl, rfl, rfl, rfl, ?_⟩
  · cases hb : r.battle <;> simp [destroy, hb]
  · simp [destroy]
  · intro roomid h
    simp [destroy, h]
  · simp only [destroy]
    refine Prod.ext ?_ rfl
    funext roomid
    by_cases h : roomid = r.id <;> simp [h]

end BattleRoom

namespace Registry

theorem register_lookup (R : Registry) (roomid : String) (object : RoomObject) :
    (R.register roomid object).1.rooms roomid = some (R.register roomid object).2 := by
  simp [register]

end Registry

/-- The room `createChatRoom` returns is the one in the table under the id. -/
theorem createChatRoom_lookup (R : Registry) (roomid title : String) (now : Nat)
    (reportjoinsperiod : Bool) :
    (createChatRoom R roomid title now reportjoinsperiod).1.rooms roomid
      = some (createChatRoom R roomid title now reportjoinsperiod).2 := by
  unfold createChatRoom
  cases h : R.rooms roomid with
  | some room => exact h
  | none => exact Registry.register_lookup R roomid _

/-- With both players present, the room `createBattle` returns is the one in
the table under the id, `default` standing for the empty id. -/
theorem createBattle_lookup (R : Registry) (roomid format : String) (p1 p2 : User)
    (optionsRated : Bool) (optionsTour : Option String) (formatRated : Bool) (battle : Battle)
    (forcetimer : Bool) (now : Nat) :
    ∃ room, (createBattle R roomid format (some p1) (some p2) optionsRated optionsTour formatRated
        battle forcetimer now).2 = some room ∧
      (createBattle R roomid format (some p1) (some p2) optionsRated optionsTour formatRated
        battle forcetimer now).1.rooms (if roomid = "" then "default" else roomid) = some room := by
  unfold createBattle
  cases h : R.rooms (if roomid = "" then "default" else roomid) with
  | some room => exact ⟨room, by simp [h], by simp [h]⟩
  | none =>
    refine ⟨R.objects.length, ?_, ?_⟩ <;> simp [h, Registry.register]

/-- C19: room creation is idempotent. For every registry state and id, a
second `createChatRoom` with the id returns the room the first call returned
and leaves the state as the first call left it; with both players present the
same holds of `createBattle`, which returns a room, and the second call adds
nothing to the table, constructs no object and does not call
`ResourceMonitor.countBattle` again. -/
theorem create_idempotent (R : Registry) (roomid : String) :
    (∀ (title title2 : String) (now now2 : Nat) (joins joins2 : Bool),
      createChatRoom (createChatRoom R roomid title now joins).1 roomid title2 now2 joins2
        = createChatRoom R roomid title now joins) ∧
    (∀ (format format2 : String) (p1 p2 p3 p4 : User) (rated rated2 : Bool)
      (tour tour2 : Option String) (formatRated formatRated2 : Bool) (battle battle2 : Battle)
      (forcetimer forcetimer2 : Bool) (now now2 : Nat),
      (createBattle R roomid format (some p1) (some p2) rated tour formatRated battle
        forcetimer now).2.isSome = true ∧
      createBattle (createBattle R roomid format (some p1) (some p2) rated tour formatRated battle
          forcetimer now).1 roomid format2 (some p3) (some p4) rated2 tour2 formatRated2 battle2
          forcetimer2 now2
        = createBattle R roomid format (some p1) (some p2) rated tour formatRated battle
          forcetimer now) := by
  constructor
  · intro title title2 now now2 joins joins2
    have h := createChatRoom_lookup R roomid title now joins
    generalize createChatRoom R roomid title now joins = first at h
    unfold createChatRoom
    rw [h]
  · intro format format2 p1 p2 p3 p4 rated rated2 tour tour2 formatRated formatRated2 battle
      battle2 forcetimer forcetimer2 now now2
    obtain ⟨room, h1, h2⟩ := createBattle_lookup R roomid format p1 p2 rated tour formatRated
      battle forcetimer now
    generalize createBattle R roomid format (some p1) (some p2) rated tour formatRated battle
      forcetimer now = first at h1 h2
    refine ⟨by rw [h1]; rfl, ?_⟩
    unfold createBattle
    simp only [h2]
    exact Prod.ext rfl h1.symm


namespace GlobalRoom

/-- C21: `startBattle` does not abort silently when a player no longer
resolves to a user: it passes the missing user to `cancelSearch`, whose first
statement `user.cancelChallengeTo()` throws. Whatever the state and the other
player, the call ends in an exception when `Users.get(p1)` is nothing, and
also when `Users.get(p1)` is a user and `Users.get(p2)` is nothing. -/
theorem startBattle_missing_user_throws (W : GlobalRoom) (format p1team p2team : String)
    (rated : Bool) :
    (∀ p2, ∃ e, W.startBattle none p2 format p1team p2team rated = .error e) ∧
    (∀ p1, ∃ e, W.startBattle (some p1) none format p1team p2team rated = .error e) :=
  ⟨fun _ => ⟨_, rfl⟩, fun _ => ⟨_, rfl⟩⟩

/-- A refused `startBattle`: the result when both players are the same user or
the lockdown is full. -/
theorem startBattle_refusal (W : GlobalRoom) (p1 p2 : UserRef) (format p1team p2team : String)
    (rated : Bool) (h : p1 = p2 ∨ W.lockdown = .on) :
    ∃ W', W.startBattle (some p1) (some p2) format p1team p2team rated = .ok (W', none) ∧
      W'.rooms = W.rooms ∧ W'.lastBattle = W.lastBattle ∧
      constructed W'.trace = constructed W.trace := by
  unfold startBattle
  by_cases h1 : p1 = p2
  · simp only [if_pos h1]
    refine ⟨_, rfl, ?_, ?_, ?_⟩
    · show (((W.emit _).cancelSearch p1).1.cancelSearch p2).1.rooms = W.rooms
      rw [(cancelSearch_registry _ _).1, (cancelSearch_registry _ _).1]
      rfl
    · show (((W.emit _).cancelSearch p1).1.cancelSearch p2).1.lastBattle = W.lastBattle
      rw [(cancelSearch_registry _ _).2.1, (cancelSearch_registry _ _).2.1]
      rfl
    · rw [constructed_emit, (cancelSearch_registry _ _).2.2, (cancelSearch_registry _ _).2.2,
        constructed_emit]
      simp [constructed]
  · have h2 : (W.emit (.startBattle (some p1) (some p2) format)).lockdown = .on :=
      h.resolve_left h1
    simp only [if_neg h1, if_pos h2]
    refine ⟨_, rfl, ?_, ?_, ?_⟩
    · show (((W.emit _).cancelSearch p1).1.cancelSearch p2).1.rooms = W.rooms
      rw [(cancelSearch_registry _ _).1, (cancelSearch_registry _ _).1]
      rfl
    · show (((W.emit _).cancelSearch p1).1.cancelSearch p2).1.lastBattle = W.lastBattle
      rw [(cancelSearch_registry _ _).2.1, (cancelSearch_registry _ _).2.1]
      rfl
    · rw [constructed_emit, constructed_emit, (cancelSearch_registry _ _).2.2,
        (cancelSearch_registry _ _).2.2, constructed_emit]
      simp [constructed]

/-- C22: a refused `startBattle` registers nothing. When `p1` and `p2` resolve
to the same user, or when `lockdown` is exactly `true`, `startBattle` returns
nothing, constructs and registers no room and leaves `lastBattle` unchanged;
with distinct users and `lockdown` equal to `false` or to `pre` the battle is
not refused: a room id is returned. -/
theorem startBattle_refused_changes_no_room (W : GlobalRoom) (p1 p2 : UserRef)
    (format p1team p2team : String) (rated : Bool) :
    ((p1 = p2 ∨ W.lockdown = .on) →
      ∃ W', W.startBattle (some p1) (some p2) format p1team p2team rated = .ok (W', none) ∧
        W'.rooms = W.rooms ∧ W'.lastBattle = W.lastBattle ∧
        constructed W'.trace = constructed W.trace) ∧
    (p1 ≠ p2 → (W.lockdown = .off ∨ W.lockdown = .pre) →
      ∃ W' roomid, W.startBattle (some p1) (some p2) format p1team p2team rated
        = .ok (W', some roomid)) := by
  refine ⟨startBattle_refusal W p1 p2 format p1team p2team rated, fun hne hl => ?_⟩
  have hl2 : W.lockdown ≠ .on := by
    rcases hl with h | h <;> rw [h] <;> decide
  obtain ⟨W', h, _⟩ := startBattle_started W p1 p2 format p1team p2team rated hne hl2
  exact ⟨W', _, h⟩

theorem startBattle_refused_changes_no_room_witness :
    (∃ W', Example.oneSearcher.startBattle (some 0) (some 0) "ou" "" "" true = .ok (W', none) ∧
      W'.rooms = Example.oneSearcher.rooms ∧ W'.lastBattle = Example.oneSearcher.lastBattle ∧
      constructed W'.trace = constructed Example.oneSearcher.trace) ∧
    (∃ W' roomid, ({ Example.oneSearcher with lockdown := .pre } : GlobalRoom).startBattle
      (some 0) (some 1) "ou" "" "" true = .ok (W', some roomid)) :=
  ⟨(startBattle_refused_changes_no_room Example.oneSearcher 0 0 "ou" "" "" true).1 (Or.inl rfl),
    (startBattle_refused_changes_no_room { Example.oneSearcher with lockdown := .pre } 0 1 "ou"
      "" "" true).2 (by decide) (Or.inr rfl)⟩

end GlobalRoom

namespace GlobalRoom

theorem stale_congr (W W' : GlobalRoom) (hg : W'.get = W.get)
    (hc : ∀ r, (W'.user r).connected = (W.user r).connected) : W'.stale = W.stale := by
  funext s
  unfold stale
  rw [hg]
  cases W.get s.userid with
  | none => rfl
  | some su => simp only [hc]

/-- The loop of `addSearch`, when it passes over every ticket from index
`kept.length` on, prunes the stale ones among them and enqueues the new
ticket. -/
theorem addSearchLoop_scan (newSearch : Search) (user : UserRef) :
    ∀ (pending kept : List Search) (n : Nat) (W : GlobalRoom),
    pending.length ≤ n →
    W.searchers = kept ++ pending →
    (∀ s ∈ pending, PassedOver W newSearch user s) →
    addSearchLoop newSearch user n kept.length W
      = .ok (({ W with searchers := kept ++ pending.filter (fun s => !W.stale s) } :
          GlobalRoom).enqueue newSearch user) := by
  intro pending
  induction pending with
  | nil =>
    intro kept n W _ hq _
    have hnone : W.searchers[kept.length]? = none := by
      rw [hq]; simp
    have hW : ({ W with searchers := kept ++ List.filter (fun s => !W.stale s) [] } : GlobalRoom)
        = W := by
      cases W
      simp at hq
      simp [hq]
    rw [hW]
    cases n with
    | zero => rfl
    | succ m =>
      unfold addSearchLoop
      simp only [hnone]
  | cons s pre ih =>
    intro kept n W hn hq hpre
    obtain ⟨m, rfl⟩ : ∃ m, n = m + 1 := ⟨n - 1, by simp at hn; omega⟩
    have hm : pre.length ≤ m := by simp at hn; omega
    have hsome : W.searchers[kept.length]? = some s := by
      rw [hq]; exact getElem?_append_mid kept s pre
    have hs := hpre s (List.mem_cons_self _ _)
    have hpre' : ∀ x ∈ pre, PassedOver W newSearch user x :=
      fun x hx => hpre x (List.mem_cons_of_mem _ hx)
    -- the ticket is stale and pruned
    have hspl : stale W s = true →
        addSearchLoop newSearch user m kept.length (W.splice kept.length)
          = .ok (({ W with searchers := kept ++ (s :: pre).filter (fun s => !W.stale s) } :
              GlobalRoom).enqueue newSearch user) := by
      intro hst
      have hq' : (W.splice kept.length).searchers = kept ++ pre := by
        simp [splice, hq, List.eraseIdx_append_of_length_le]
      have h := ih kept m (W.splice kept.length) hm hq'
        (fun x hx => passedOver_splice W _ newSearch user x (hpre' x hx))
      rw [h, stale_congr W (W.splice kept.length) rfl (fun _ => rfl)]
      simp [List.filter_cons, hst, splice]
    -- the ticket is live and stepped over
    have hnext : stale W s = false →
        addSearchLoop newSearch user m (kept.length + 1) W
          = .ok (({ W with searchers := kept ++ (s :: pre).filter (fun s => !W.stale s) } :
              GlobalRoom).enqueue newSearch user) := by
      intro hst
      have h := ih (kept ++ [s]) m W hm (by simp [hq]) hpre'
      simp only [List.length_append, List.length_singleton] at h
      rw [h]
      simp [List.filter_cons, hst]
    unfold addSearchLoop
    simp only [hsome]
    unfold PassedOver at hs
    cases hg : W.get s.userid with
    | none => exact hspl (by simp [stale, hg])
    | some su =>
      rw [hg] at hs
      simp only at hs ⊢
      by_cases hc : (W.user su).connected = false
      · rw [if_pos hc]; exact hspl (by simp [stale, hg, hc])
      · rw [if_neg hc]
        have hst : stale W s = false := by simpa [stale, hg] using hc
        rcases hs with hs | hs | hs
        · exact absurd hs hc
        · rw [if_neg (fun h => hs h.1), if_neg hs]; exact hnext hst
        · rw [if_neg (fun h => hs.1 h.2)]
          by_cases hf : newSearch.formatid = s.formatid
          · rw [if_pos hf]
            have hW : W.matchmakingOK s newSearch su user = (false, W) := by
              have h2 := matchmakingOK_false W s newSearch su user hs.2
              exact Prod.ext hs.2 h2
            rw [hW]
            exact hnext hst
          · rw [if_neg hf]; exact hnext hst

/-- C25, as stated, fails: `addSearch` returns at the first ticket of the same
user and format, and a stale ticket behind it stays in the queue. -/
theorem addSearch_leaves_stale_ticket_behind :
    (Example.staleBehind.user 0).connected = true ∧
    Example.staleBehind.addSearch Example.ticketAlice 0 = .ok Example.staleBehind ∧
    Example.ticketGhost ∈ Example.staleBehind.searchers ∧
    Example.staleBehind.get Example.ticketGhost.userid = none := by
  refine ⟨rfl, ?_, by simp [Example.staleBehind], by decide⟩
  simp [addSearch, addSearchLoop, Example.staleBehind, Example.oneSearcher, Example.users,
    Example.get, Example.ticketAlice]

/-- C25, amended: when `addSearch(ticket, user)` for a connected user passes
over every queued ticket (each is stale, of another format, or of another user
and refused by `matchmakingOK`), it returns with the queue pruned: `searchers`
holds the tickets that were not stale, in order, followed by the new ticket,
and no queued ticket other than the new one belongs to a user that does not
exist or is not connected; nor does the new one when its userid resolves to
the user. -/
theorem addSearch_prunes_when_scanned (W : GlobalRoom) (newSearch : Search) (user : UserRef)
    (hc : (W.user user).connected = true)
    (hscan : ∀ s ∈ W.searchers, PassedOver W newSearch user s) :
    ∃ W', W.addSearch newSearch user = .ok W' ∧
      W'.searchers = W.searchers.filter (fun s => !W.stale s) ++ [newSearch] ∧
      (∀ s ∈ W'.searchers.take (W'.searchers.length - 1), W'.stale s = false) ∧
      (W.get newSearch.userid = some user → ∀ s ∈ W'.searchers, W'.stale s = false) := by
  have hloop := addSearchLoop_scan newSearch user W.searchers [] W.searchers.length W
    (le_refl _) (by simp) hscan
  simp only [List.length_nil, List.nil_append] at hloop
  have hst : (({ W with searchers := W.searchers.filter (fun s => !W.stale s) } :
      GlobalRoom).enqueue newSearch user).stale = W.stale :=
    stale_congr W _ rfl (fun r => by
      simp only [enqueue, setUser]
      split <;> simp_all)
  have hq : (({ W with searchers := W.searchers.filter (fun s => !W.stale s) } :
      GlobalRoom).enqueue newSearch user).searchers
      = W.searchers.filter (fun s => !W.stale s) ++ [newSearch] := rfl
  refine ⟨_, ?_, hq, ?_, ?_⟩
  · unfold addSearch
    rw [if_neg (by simp [hc])]
    exact hloop
  · intro s hs
    rw [hq] at hs
    simp only [List.length_append, List.length_singleton, Nat.add_sub_cancel,
      List.take_left'] at hs
    rw [hst]
    simpa using (List.mem_filter.mp hs).2
  · intro hres s hs
    rw [hq] at hs
    rw [hst]
    rcases List.mem_append.mp hs with h | h
    · simpa using (List.mem_filter.mp h).2
    · have : s = newSearch := by simpa using h
      rw [this]
      simp [stale, hres, hc]

theorem addSearch_prunes_when_scanned_witness :
    ∃ W', Example.staleOnly.addSearch Example.ticketAlice 0 = .ok W' ∧
      W'.searchers
        = Example.staleOnly.searchers.filter (fun s => !Example.staleOnly.stale s)
          ++ [Example.ticketAlice] ∧
      (∀ s ∈ W'.searchers.take (W'.searchers.length - 1), W'.stale s = false) ∧
      (Example.staleOnly.get Example.ticketAlice.userid = some 0 →
        ∀ s ∈ W'.searchers, W'.stale s = false) :=
  addSearch_prunes_when_scanned Example.staleOnly Example.ticketAlice 0 rfl
    (by
      intro s hs
      have : s = Example.ticketGhost := by simpa [Example.staleOnly] using hs
      rw [this]
      simp [PassedOver, Example.staleOnly, Example.oneSearcher, Example.get,
        Example.ticketGhost])

end GlobalRoom

namespace BattleRoom

/-- A tick that ends the battle: when after the decrement the effective ticks
of the two sides are not both non-zero, `kickInactive` forfeits for the side
that `losingSide` gives. -/
theorem kickInactive_exhausted (w : BattleWorld) (battle : Battle)
    (hb : w.room.battle = some battle)
    (hstarted : battle.started = true) (hended : battle.ended = false)
    (hzero : ¬ ((w.room.decrementTicks (getInactiveSide battle)).ticksLeft.1 ≠ 0 ∧
      (w.room.decrementTicks (getInactiveSide battle)).ticksLeft.2 ≠ 0)) :
    (kickInactive w).room.log = w.room.log ++
      ["|-message|" ++ forfeitName w.room
          (battle.getPlayer (losingSide (getInactiveSide battle)
            (w.room.decrementTicks (getInactiveSide battle)).ticksLeft))
          (losingSide (getInactiveSide battle)
            (w.room.decrementTicks (getInactiveSide battle)).ticksLeft)
        ++ " lost due to inactivity."] ∧
    (kickInactive w).room.battle = some
      { battle with
        endType := some "forfeit"
        sent := battle.sent ++ [("win", pick ("p2", "p1")
          (losingSide (getInactiveSide battle)
            (w.room.decrementTicks (getInactiveSide battle)).ticksLeft))] } := by
  have hcond : ¬ (battle.ended = true ∨ battle.started = false) := by
    rw [hended, hstarted]; simp
  generalize hside : getInactiveSide battle = s at hzero ⊢
  obtain ⟨fr1, fr2, fr3, fr4⟩ := decrementTicks_frame w.room.clearTimer s
  have htl : (w.room.clearTimer.decrementTicks s).ticksLeft
      = (w.room.decrementTicks s).ticksLeft := by
    unfold ticksLeft decrementTicks
    split_ifs <;> rfl
  have hnot : ¬ ((w.room.clearTimer.decrementTicks s).ticksLeft.1 ≠ 0
      ∧ (w.room.clearTimer.decrementTicks s).ticksLeft.2 ≠ 0) := by
    rw [htl]; exact hzero
  generalize hl : losingSide s (w.room.decrementTicks s).ticksLeft = l
  have hl' : losingSide s (w.room.clearTimer.decrementTicks s).ticksLeft = l := by
    rw [htl]; exact hl
  have hbat : (w.room.clearTimer.decrementTicks s).battle = some battle := by
    rw [fr2]; exact hb
  have hname : forfeitName (w.room.clearTimer.decrementTicks s) (battle.getPlayer l) l
      = forfeitName w.room (battle.getPlayer l) l := by
    unfold forfeitName
    rw [fr3]
    rfl
  have hk : kickInactive w =
      { battleCount := (declareForfeit ⟨w.battleCount, w.room.clearTimer.decrementTicks s⟩
          battle (forfeitName w.room (battle.getPlayer l) l) " lost due to inactivity."
          l).battleCount
        room := { (declareForfeit ⟨w.battleCount, w.room.clearTimer.decrementTicks s⟩
          battle (forfeitName w.room (battle.getPlayer l) l) " lost due to inactivity." l).room
          with resetUser := "" } } := by
    have hb' : w.room.clearTimer.battle = some battle := hb
    unfold kickInactive
    simp only [hb', hside, hcond, if_false, hnot, hl']
    unfold forfeit
    simp only [hbat, hcond, if_false, forfeitSide, hname, forfeitMessage]
    simp
  rw [hk]
  obtain ⟨_, g2, g3⟩ := declareForfeit_room
    ⟨w.battleCount, w.room.clearTimer.decrementTicks s⟩ battle
    (forfeitName w.room (battle.getPlayer l) l) " lost due to inactivity." l
  refine ⟨?_, ?_⟩
  · show (declareForfeit _ _ _ _ _).room.log = _
    rw [g2]
    show (w.room.clearTimer.decrementTicks s).toRoom.log ++ _ = _
    rw [fr1]
    rfl
  · show (declareForfeit _ _ _ _ _).room.battle = _
    rw [g3]

/-- One side exhausted: with both sides on the clock, the side whose
effective ticks are zero is the one that loses. -/
theorem losingSide_one_exhausted (inactiveSide : Int) (ticksLeft : Int × Int)
    (hboth : inactiveSide < 0) :
    (ticksLeft.1 = 0 → ticksLeft.2 ≠ 0 → losingSide inactiveSide ticksLeft = 0) ∧
    (ticksLeft.1 ≠ 0 → losingSide inactiveSide ticksLeft = 1) ∧
    (ticksLeft.1 = 0 → ticksLeft.2 = 0 → losingSide inactiveSide ticksLeft = inactiveSide) := by
  unfold losingSide
  refine ⟨fun h1 h2 => ?_, fun h1 => ?_, fun h1 h2 => ?_⟩
  · simp [hboth, h1, h2]
  · simp [hboth, h1]
  · simp [hboth, h1, h2]

/-- C28: on a tick with both sides on the clock where the effective ticks of
both sides reach zero, `kickInactive` does not choose side 0: the side it
passes to `forfeit` is still the negative `inactiveSide`, so the line logged
names no player and the battle is told that `undefined` wins. -/
theorem kickInactive_both_exhausted_names_no_side :
    getInactiveSide Example.bothOnClockBattle = -1 ∧
    (Example.bothLastTick.decrementTicks (-1)).ticksLeft = (0, 0) ∧
    losingSide (-1) (0, 0) = -1 ∧
    (kickInactive ⟨1, Example.bothLastTick⟩).room.log
      = Example.bothLastTick.log ++ ["|-message|undefined lost due to inactivity."] ∧
    (kickInactive ⟨1, Example.bothLastTick⟩).room.battle = some
      { Example.bothOnClockBattle with
        endType := some "forfeit"
        sent := [("win", none)] } := by
  have hside : getInactiveSide Example.bothOnClockBattle = -1 := by decide
  have htl : (Example.bothLastTick.decrementTicks (-1)).ticksLeft = (0, 0) := by
    rfl
  have hlose : losingSide (-1) (0, 0) = -1 := by decide
  obtain ⟨h1, h2⟩ := kickInactive_exhausted ⟨1, Example.bothLastTick⟩ Example.bothOnClockBattle
    rfl rfl rfl (by rw [hside, htl]; simp)
  rw [hside, htl, hlose] at h1 h2
  refine ⟨hside, htl, hlose, ?_, ?_⟩
  · rw [h1]; rfl
  · rw [h2]; rfl

end BattleRoom

namespace GlobalUsers

theorem lookup_isSome_iff (l : List (String × UserRef)) (k : String) :
    (l.lookup k).isSome = true ↔ k ∈ l.map Prod.fst := by
  induction l with
  | nil => simp
  | cons a l ih =>
    obtain ⟨a1, a2⟩ := a
    by_cases h : k = a1
    · subst h; simp [List.lookup]
    · have h' : (k == a1) = false := by simpa using h
      simp [List.lookup, h', ih, h]

theorem length_filter_ne (l : List (String × UserRef)) (k : String)
    (hn : (l.map Prod.fst).Nodup) (hk : k ∈ l.map Prod.fst) :
    ((l.filter (fun entry => entry.1 ≠ k)).length : Int) = l.length - 1 := by
  induction l with
  | nil => simp at hk
  | cons a l ih =>
    obtain ⟨a1, a2⟩ := a
    simp only [List.map_cons, List.nodup_cons] at hn
    by_cases h : a1 = k
    · subst h
      have hall : l.filter (fun entry => entry.1 ≠ a1) = l := by
        rw [List.filter_eq_self]
        intro e he
        have hmem : e.1 ∈ l.map Prod.fst := List.mem_map_of_mem _ he
        have hne : e.1 ≠ a1 := fun heq => hn.1 (heq ▸ hmem)
        exact decide_eq_true hne
      rw [List.filter_cons_of_neg (by simp), hall]
      simp
    · have hk2 : k ∈ l.map Prod.fst := by
        simp only [List.map_cons, List.mem_cons] at hk
        rcases hk with hk | hk
        · exact absurd hk.symm h
        · exact hk
      have h3 := ih hn.2 hk2
      have hcons : List.filter (fun entry => decide (entry.1 ≠ k)) ((a1, a2) :: l)
          = (a1, a2) :: List.filter (fun entry => decide (entry.1 ≠ k)) l := by
        rw [List.filter_cons]
        simp [h]
      rw [hcons, List.length_cons, Nat.cast_succ, h3, List.length_cons, Nat.cast_succ]
      ring

theorem onJoin_counted (G : GlobalUsers) (user : Option UserRef) (merging : Bool) (now : Nat)
    (h : Counted G) : Counted (G.onJoin user merging now) := by
  unfold onJoin
  cases user with
  | none => exact h
  | some u =>
    simp only
    by_cases hin : (G.users.lookup (G.global.user u).userid).isSome = true ∨
        (G.global.user u).userid ∈ objectPrototypeKeys
    · rw [if_pos hin]; exact h
    · rw [if_neg hin]
      have hnot : (G.global.user u).userid ∉ G.users.map Prod.fst :=
        fun hm => hin (Or.inl ((lookup_isSome_iff _ _).mpr hm))
      have hn : ((G.users ++ [((G.global.user u).userid, u)]).map Prod.fst).Nodup := by
        simp only [List.map_append, List.map_cons, List.map_nil]
        rw [List.nodup_append]
        refine ⟨h.1, by simp, ?_⟩
        intro a ha hb
        simp only [List.mem_singleton] at hb
        exact hnot (hb ▸ ha)
      have hl : G.userCount + 1 = ((G.users ++ [((G.global.user u).userid, u)]).length : Int) := by
        rw [h.2]
        simp
      split_ifs <;> exact ⟨hn, hl⟩

theorem onLeave_counted (G : GlobalUsers) (user : Option UserRef) (h : Counted G)
    (hm : ∀ u, user = some u → (G.users.lookup (G.global.user u).userid).isSome) :
    Counted (G.onLeave user) := by
  unfold onLeave
  cases user with
  | none => exact h
  | some u =>
    have hk := (lookup_isSome_iff _ _).mp (hm u rfl)
    refine ⟨?_, ?_⟩
    · show ((G.users.filter _).map Prod.fst).Nodup
      exact (h.1.sublist ((List.filter_sublist _).map _))
    · show G.userCount - 1 = ((G.users.filter _).length : Int)
      rw [length_filter_ne G.users _ h.1 hk, h.2]

theorem step_peak (G : GlobalUsers) (op : UserOp) (h : G.userCount ≤ G.maxUsers) :
    (G.step op).userCount ≤ (G.step op).maxUsers := by
  cases op with
  | onJoin user merging now =>
    unfold step onJoin
    cases user with
    | none => exact h
    | some u =>
      simp only
      by_cases h1 : (G.users.lookup (G.global.user u).userid).isSome = true ∨
          (G.global.user u).userid ∈ objectPrototypeKeys
      · rw [if_pos h1]; exact h
      · rw [if_neg h1]
        by_cases h2 : G.userCount + 1 > G.maxUsers
        · rw [if_pos h2]
          cases merging
          · exact le_refl (G.userCount + 1)
          · exact le_refl (G.userCount + 1)
        · rw [if_neg h2]
          have h3 : G.userCount + 1 ≤ G.maxUsers := not_lt.mp h2
          cases merging
          · exact h3
          · exact h3
  | onLeave user =>
    unfold step onLeave
    cases user with
    | none => exact h
    | some u =>
      show G.userCount - 1 ≤ G.maxUsers
      omega

theorem run_peak (ops : List UserOp) : ∀ (G : GlobalUsers), G.userCount ≤ G.maxUsers →
    (G.run ops).userCount ≤ (G.run ops).maxUsers := by
  induction ops with
  | nil => intro G h; exact h
  | cons op ops ih => intro G h; exact ih (G.step op) (step_peak G op h)

theorem run_counted (ops : List UserOp) : ∀ (G : GlobalUsers), Counted G →
    LeavesMembers G ops → Counted (G.run ops) := by
  induction ops with
  | nil => intro G h _; exact h
  | cons op ops ih =>
    intro G h hl
    cases op with
    | onJoin user merging now =>
      exact ih _ (onJoin_counted G user merging now h) hl
    | onLeave user =>
      exact ih _ (onLeave_counted G user h hl.1) hl.2

/-- C30: `userCount` does not stay a cache of the size of `users`. `onLeave`
decrements it whether or not the user is in `users`: after a single `onLeave`
on a new global room the count is -1 while `users` is empty. The same happens
after `onJoin` and `onLeave` of a user whose id is `constructor`, a key that
`users` inherits: `onJoin` returns early without adding or counting the user,
and `onLeave` decrements. -/
theorem onLeave_of_stranger_miscounts :
    ((GlobalUsers.new Example.oneSearcher).run [.onLeave (some 1)]).userCount = -1 ∧
    ((GlobalUsers.new Example.oneSearcher).run [.onLeave (some 1)]).users = [] ∧
    ((GlobalUsers.new Example.withConstructor).onJoin (some 3) false 0).userCount = 0 ∧
    ((GlobalUsers.new Example.withConstructor).onJoin (some 3) false 0).users = [] ∧
    ((GlobalUsers.new Example.withConstructor).run
      [.onJoin (some 3) false 0, .onLeave (some 3)]).userCount = -1 ∧
    ((GlobalUsers.new Example.withConstructor).run
      [.onJoin (some 3) false 0, .onLeave (some 3)]).users = [] := by
  refine ⟨rfl, rfl, ?_, ?_, ?_, ?_⟩ <;> decide

/-- The cache is exact under the calling convention: starting from a new
global room, after every sequence of `onJoin` and `onLeave` calls in which
each `onLeave` is for a user that is an entry of `users` at the time of the
call, `userCount` equals the number of entries of `users`; and after every
sequence of such calls at all, `maxUsers` is at least `userCount`. -/
theorem userCount_caches_size (W : GlobalRoom) (ops : List UserOp) :
    (LeavesMembers (GlobalUsers.new W) ops →
      ((GlobalUsers.new W).run ops).userCount = ((GlobalUsers.new W).run ops).users.length) ∧
    ((GlobalUsers.new W).run ops).userCount ≤ ((GlobalUsers.new W).run ops).maxUsers :=
  ⟨fun h => (run_counted ops _ ⟨by simp [GlobalUsers.new], rfl⟩ h).2,
    run_peak ops _ (le_refl _)⟩

theorem userCount_caches_size_witness :
    ((GlobalUsers.new Example.oneSearcher).run
        [.onJoin (some 0) false 5, .onJoin (some 1) false 6, .onLeave (some 0)]).userCount
      = ((GlobalUsers.new Example.oneSearcher).run
        [.onJoin (some 0) false 5, .onJoin (some 1) false 6, .onLeave (some 0)]).users.length :=
  (userCount_caches_size Example.oneSearcher
    [.onJoin (some 0) false 5, .onJoin (some 1) false 6, .onLeave (some 0)]).1
    (by
      refine ⟨?_, trivial⟩
      intro u hu
      cases hu
      decide)

end GlobalUsers

namespace ChatRoomDataWriter

/-- The invariant of the chat room data writer: one write is in flight
exactly while `writing` is set, and a write is pending only behind one. -/
theorem writer_reachable_inv (s : ChatRoomDataWriter) (h : Reachable s) :
    s.inFlight = (if s.writing then 1 else 0) ∧ (s.writePending = true → s.writing = true) := by
  induction h with
  | new => exact ⟨rfl, fun h => by cases h⟩
  | request s _ ih =>
    unfold writeChatRoomData
    by_cases hw : s.writing = true
    · rw [if_pos hw]
      exact ⟨ih.1, fun _ => hw⟩
    · rw [if_neg hw]
      have h0 : s.inFlight = 0 := by rw [ih.1, if_neg hw]
      refine ⟨?_, fun _ => rfl⟩
      show s.inFlight + 1 = _
      rw [h0]; rfl
  | finish s _ hpos ih =>
    have hw : s.writing = true := by
      by_contra hw
      rw [ih.1, if_neg hw] at hpos
      exact absurd hpos (by decide)
    have h1 : s.inFlight = 1 := by rw [ih.1, if_pos hw]
    cases hp : s.writePending with
    | true => simp [finishWriting, writeChatRoomData, hp, h1]
    | false => simp [finishWriting, hp, h1]

/-- Requests while a write is in flight only set `writePending`. -/
theorem requests_while_writing (s : ChatRoomDataWriter) (hw : s.writing = true) (n : Nat) :
    Nat.iterate writeChatRoomData (n + 1) s = { s with writePending := true } := by
  induction n with
  | zero =>
    show writeChatRoomData s = _
    unfold writeChatRoomData
    rw [if_pos hw]
  | succ n ih =>
    rw [Function.iterate_succ_apply', ih]
    unfold writeChatRoomData
    simp [hw]

end ChatRoomDataWriter

namespace NumRoomsWriter

/-- The invariant of the battle counter writer: one write is in flight exactly
while `writing` is set. -/
theorem reachable_inFlight (s : NumRoomsWriter) (h : Reachable s) :
    s.inFlight = (if s.writing then 1 else 0) := by
  induction h with
  | new current => rfl
  | request s _ ih =>
    unfold writeNumRooms
    by_cases hw : s.writing = true
    · rw [if_pos hw]; exact ih
    · rw [if_neg hw]
      by_cases hu : s.upToDate = true
      · rw [if_pos hu]; exact ih
      · rw [if_neg hu]
        show s.inFlight + 1 = _
        rw [ih, if_neg hw]; rfl
  | finish s _ hpos ih =>
    have hw : s.writing = true := by
      by_contra hw
      rw [ih, if_neg hw] at hpos
      exact absurd hpos (by decide)
    have h1 : s.inFlight = 1 := by rw [ih, if_pos hw]
    unfold finishWriting
    cases hl : s.lastBattle with
    | none => simp only [hl, h1]; rfl
    | some written =>
      by_cases hlt : written < s.current
      · have hge : ¬ s.current ≤ written := by omega
        simp [hl, hlt, hge, writeNumRooms, upToDate, h1]
      · simp [hl, hlt, h1]
  | setLastBattle s i _ ih => exact ih

/-- No write is started while the last value written is at least
`self.lastBattle`. -/
theorem no_write_when_upToDate (s : NumRoomsWriter) (written : Nat)
    (hl : s.lastBattle = some written) (hge : s.current ≤ written) :
    s.writeNumRooms.started = s.started ∧ s.finishWriting.started = s.started := by
  constructor
  · unfold writeNumRooms
    by_cases hw : s.writing = true
    · rw [if_pos hw]
    · rw [if_neg hw, if_pos (by simp [upToDate, hl, hge])]
  · unfold finishWriting
    simp only [hl]
    rw [if_neg (by omega)]

end NumRoomsWriter

/-- C29: the writers coalesce. In every state the chat room data writer
reaches by requests and write completions, at most one write is in flight and
the one pending flag is set only behind it; a request while a write is in
flight starts no write; and when that write completes after any positive
number of requests, exactly one further write is started and nothing remains
pending. `writeNumRooms` never has two writes in flight, and neither a request
nor a completion starts a write while the last value written is at least the
current `lastBattle`. -/
theorem writers_coalesce :
    (∀ s, ChatRoomDataWriter.Reachable s →
      s.inFlight ≤ 1 ∧ (s.writePending = true → s.inFlight = 1)) ∧
    (∀ s : ChatRoomDataWriter, s.writing = true →
      s.writeChatRoomData.started = s.started ∧ s.writeChatRoomData.inFlight = s.inFlight) ∧
    (∀ (s : ChatRoomDataWriter) (n : Nat), ChatRoomDataWriter.Reachable s → s.writing = true →
      0 < n →
      (Nat.iterate ChatRoomDataWriter.writeChatRoomData n s).finishWriting.started
        = s.started + 1 ∧
      (Nat.iterate ChatRoomDataWriter.writeChatRoomData n s).finishWriting.inFlight = 1 ∧
      (Nat.iterate ChatRoomDataWriter.writeChatRoomData n s).finishWriting.writePending
        = false) ∧
    (∀ s, NumRoomsWriter.Reachable s → s.inFlight ≤ 1) ∧
    (∀ (s : NumRoomsWriter) (written : Nat), s.lastBattle = some written →
      s.current ≤ written →
      s.writeNumRooms.started = s.started ∧ s.finishWriting.started = s.started) := by
  refine ⟨fun s h => ?_, fun s hw => ?_, fun s n h hw hn => ?_, fun s h => ?_,
    NumRoomsWriter.no_write_when_upToDate⟩
  · obtain ⟨h1, h2⟩ := ChatRoomDataWriter.writer_reachable_inv s h
    refine ⟨?_, fun hp => ?_⟩
    · rw [h1]; split <;> decide
    · rw [h1, if_pos (h2 hp)]
  · unfold ChatRoomDataWriter.writeChatRoomData
    rw [if_pos hw]
    exact ⟨rfl, rfl⟩
  · obtain ⟨m, rfl⟩ : ∃ m, n = m + 1 := ⟨n - 1, by omega⟩
    have h1 : s.inFlight = 1 := by
      rw [(ChatRoomDataWriter.writer_reachable_inv s h).1, if_pos hw]
    rw [ChatRoomDataWriter.requests_while_writing s hw m]
    unfold ChatRoomDataWriter.finishWriting ChatRoomDataWriter.writeChatRoomData
    simp [h1]
  · rw [NumRoomsWriter.reachable_inFlight s h]
    split <;> decide

theorem writers_coalesce_witness :
    (Nat.iterate ChatRoomDataWriter.writeChatRoomData 3
      ChatRoomDataWriter.new.writeChatRoomData).finishWriting.started = 1 + 1 ∧
    (Nat.iterate ChatRoomDataWriter.writeChatRoomData 3
      ChatRoomDataWriter.new.writeChatRoomData).finishWriting.inFlight = 1 ∧
    (Nat.iterate ChatRoomDataWriter.writeChatRoomData 3
      ChatRoomDataWriter.new.writeChatRoomData).finishWriting.writePending = false :=
  writers_coalesce.2.2.1 ChatRoomDataWriter.new.writeChatRoomData 3
    (ChatRoomDataWriter.Reachable.request _ ChatRoomDataWriter.Reachable.new) rfl (by decide)

namespace Table

theorem get?_set (t : Table) (key value k : String) :
    (t.set key value).get? k = if key = k then some value else t.get? k := by
  induction t with
  | nil => simp [set, get?]
  | cons a t ih =>
    obtain ⟨a1, a2⟩ := a
    unfold set
    by_cases h : a1 = key
    · subst h
      by_cases h2 : a1 = k <;> simp [get?, h2]
    · rw [if_neg h]
      by_cases h2 : key = k
      · subst h2
        simp [get?, h, ih]
      · by_cases h3 : a1 = k <;> simp [get?, h2, h3, ih]

theorem get?_foldl_set (keys : List String) (value k : String) : ∀ t : Table,
    (keys.foldl (fun t key => t.set key value) t).get? k
      = if k ∈ keys then some value else t.get? k := by
  induction keys with
  | nil => intro t; simp
  | cons key keys ih =>
    intro t
    rw [List.foldl_cons, ih, get?_set]
    by_cases h1 : k ∈ keys
    · simp [h1]
    · by_cases h2 : key = k
      · subst h2; simp
      · have h3 : ¬ k = key := fun h => h2 h.symm
        simp [h1, h2, h3]

end Table

namespace BanLists

/-- The tables after `banEntries`. -/
theorem banEntries_spec (b : BanLists) (user : RoomUser) (userid : String) :
    (∀ k, (b.banEntries user userid).bannedUsers.get? k
      = if userid = k then some userid else b.bannedUsers.get? k) ∧
    (∀ ip, (b.banEntries user userid).bannedIps.get? ip
      = if ip ∈ user.ips then some userid else b.bannedIps.get? ip) := by
  unfold banEntries
  constructor
  · intro k
    cases user.bypassall <;> exact Table.get?_set _ _ _ _
  · intro ip
    cases user.bypassall <;> exact Table.get?_foldl_set _ _ _ _

theorem banEntries_bannedBy (b : BanLists) (user : RoomUser) (userid : String)
    (h : BannedBy b userid) : BannedBy (b.banEntries user userid) userid := by
  obtain ⟨s1, s2⟩ := banEntries_spec b user userid
  refine ⟨fun k id hk => ?_, fun ip id hk => ?_⟩
  · rw [s1] at hk
    split at hk
    · exact (Option.some.inj hk).symm
    · exact h.1 k id hk
  · rw [s2] at hk
    split at hk
    · exact (Option.some.inj hk).symm
    · exact h.2 ip id hk

theorem banEntries_keeps (b : BanLists) (user : RoomUser) (userid : String) :
    (∀ k, b.bannedUsers.get? k = some userid →
      (b.banEntries user userid).bannedUsers.get? k = some userid) ∧
    (∀ ip, b.bannedIps.get? ip = some userid →
      (b.banEntries user userid).bannedIps.get? ip = some userid) := by
  obtain ⟨s1, s2⟩ := banEntries_spec b user userid
  refine ⟨fun k hk => ?_, fun ip hk => ?_⟩
  · rw [s1]; split
    · rfl
    · exact hk
  · rw [s2]; split
    · rfl
    · exact hk

theorem roomBanOne_eq (b : BanLists) (user : RoomUser) (userid : String) (hid : userid ≠ "") :
    b.roomBanOne user userid = b.banEntries user userid := by
  unfold roomBanOne
  simp [hid]

/-- The loop of `roomBan` over `Users.users`. -/
theorem foldl_banAlt (user : RoomUser) (userid : String) (hid : userid ≠ "") :
    ∀ (users : List RoomUser) (state : BanLists × List String), BannedBy state.1 userid →
    BannedBy (users.foldl (banAlt user userid) state).1 userid ∧
    (∀ ip, state.1.bannedIps.get? ip = some userid →
      (users.foldl (banAlt user userid) state).1.bannedIps.get? ip = some userid) ∧
    (∀ V ∈ users, V ≠ user → sharesIp user V = true → ∀ ip ∈ V.ips,
      (users.foldl (banAlt user userid) state).1.bannedIps.get? ip = some userid) ∧
    (users.foldl (banAlt user userid) state).2
      = state.2 ++ (users.filter (fun V => decide (V ≠ user) && sharesIp user V)).map
          (fun V => V.name) := by
  intro users
  induction users with
  | nil =>
    intro state h
    refine ⟨h, fun _ h => h, fun V hV => ?_, ?_⟩
    · cases hV
    · simp
  | cons other users ih =>
    intro state h
    rw [List.foldl_cons]
    by_cases h1 : other = user
    · have hstep : banAlt user userid state other = state := by simp [banAlt, h1]
      rw [hstep]
      obtain ⟨i1, i2, i3, i4⟩ := ih state h
      refine ⟨i1, i2, fun V hV hne hs ip hip => ?_, ?_⟩
      · rcases List.mem_cons.mp hV with hV | hV
        · exact absurd (hV.trans h1) hne
        · exact i3 V hV hne hs ip hip
      · rw [i4, List.filter_cons]
        simp [h1]
    · by_cases h2 : sharesIp user other = true
      · have hstep : banAlt user userid state other
            = (state.1.banEntries other userid, state.2 ++ [other.name]) := by
          simp [banAlt, h1, h2, roomBanOne_eq _ _ _ hid]
        rw [hstep]
        obtain ⟨i1, i2, i3, i4⟩ := ih (state.1.banEntries other userid, state.2 ++ [other.name])
          (banEntries_bannedBy _ _ _ h)
        refine ⟨i1, fun ip hip => i2 ip ((banEntries_keeps _ _ _).2 ip hip),
          fun V hV hne hs ip hip => ?_, ?_⟩
        · rcases List.mem_cons.mp hV with hV | hV
          · subst hV
            apply i2
            rw [(banEntries_spec _ _ _).2, if_pos hip]
          · exact i3 V hV hne hs ip hip
        · rw [i4, List.filter_cons]
          simp [h1, h2]
      · have hstep : banAlt user userid state other = state := by simp [banAlt, h1, h2]
        rw [hstep]
        obtain ⟨i1, i2, i3, i4⟩ := ih state h
        refine ⟨i1, i2, fun V hV hne hs ip hip => ?_, ?_⟩
        · rcases List.mem_cons.mp hV with hV | hV
          · subst hV; exact absurd hs h2
          · exact i3 V hV hne hs ip hip
        · rw [i4, List.filter_cons]
          simp [h1, h2]

/-- A user is banned when every entry names `userid` and its id is in
`bannedUsers` or it has addresses and all of them are in `bannedIps`. -/
theorem isRoomBanned_of_entries (b : BanLists) (userid : String) (V : RoomUser)
    (h : BannedBy b userid)
    (hV : b.bannedUsers.get? V.userid = some userid ∨
      (V.ips ≠ [] ∧ ∀ ip ∈ V.ips, b.bannedIps.get? ip = some userid)) :
    b.isRoomBanned (some V) = some userid := by
  unfold isRoomBanned
  simp only
  cases h1 : b.bannedUsers.get? V.userid with
  | some id => simp only [h.1 _ _ h1]
  | none =>
    cases h2 : b.bannedUsers.get? V.autoconfirmed with
    | some id => simp only [h.1 _ _ h2]
    | none =>
      rcases hV with hV | ⟨hne, hall⟩
      · rw [h1] at hV; cases hV
      · cases hips : V.ips with
        | nil => exact absurd hips hne
        | cons ip rest =>
          have hip := hall ip (by rw [hips]; exact List.mem_cons_self _ _)
          simp only [List.findSome?, hip]

theorem sharesIp_ne_nil (user otherUser : RoomUser) (h : sharesIp user otherUser = true) :
    otherUser.ips ≠ [] := by
  unfold sharesIp at h
  obtain ⟨ip, _, hip⟩ := List.any_eq_true.mp h
  intro hnil
  rw [hnil] at hip
  simp at hip

/-- C23: room-ban transitivity. In a room with empty ban lists, after
`roomBan(U)` for a user with a non-empty id, `isRoomBanned` returns the
banning id, the id of `U`, for `U` and for every other user of `Users.users`
that shares at least one IP with `U`; and the returned list holds exactly the
names of those other users, one entry for each. -/
theorem roomBan_bans_alts (b : BanLists) (users : List RoomUser) (U : RoomUser)
    (hu : b.bannedUsers = []) (hi : b.bannedIps = []) (hid : U.userid ≠ "") :
    (b.roomBan users U false "").1.isRoomBanned (some U) = some U.userid ∧
    (∀ V ∈ users, V ≠ U → sharesIp U V = true →
      (b.roomBan users U false "").1.isRoomBanned (some V) = some U.userid) ∧
    (b.roomBan users U false "").2
      = some ((users.filter (fun V => decide (V ≠ U) && sharesIp U V)).map (fun V => V.name)) := by
  have hb : BannedBy b U.userid := by
    refine ⟨fun k id h => ?_, fun k id h => ?_⟩
    · rw [hu] at h; cases h
    · rw [hi] at h; cases h
  obtain ⟨f1, _, f3, f4⟩ := foldl_banAlt U U.userid hid users (b, []) hb
  have hr : b.roomBan users U false ""
      = (((users.foldl (banAlt U U.userid) (b, [])).1).banEntries U U.userid,
          some (users.foldl (banAlt U U.userid) (b, [])).2) := by
    simp [roomBan]
  rw [hr]
  have hfin := banEntries_bannedBy _ U U.userid f1
  refine ⟨?_, fun V hV hne hs => ?_, ?_⟩
  · apply isRoomBanned_of_entries _ _ _ hfin
    left
    rw [(banEntries_spec _ _ _).1, if_pos rfl]
  · apply isRoomBanned_of_entries _ _ _ hfin
    right
    exact ⟨sharesIp_ne_nil U V hs,
      fun ip hip => (banEntries_keeps _ _ _).2 ip (f3 V hV hne hs ip hip)⟩
  · show some _ = _
    rw [f4]
    simp

theorem roomBan_bans_alts_witness :
    Example.aliceBanned.isRoomBanned (some Example.banAlice) = some "alice" ∧
    Example.aliceBanned.isRoomBanned (some Example.banBob) = some "alice" ∧
    Example.aliceBanned.isRoomBanned (some Example.banCarol) = some "alice" ∧
    (BanLists.new.roomBan Example.banUsers Example.banAlice false "").2 = some ["Bob", "Carol"] :=
  have h := roomBan_bans_alts BanLists.new Example.banUsers Example.banAlice rfl rfl (by decide)
  ⟨h.1, h.2.1 Example.banBob (by decide) (by decide) (by decide),
    h.2.1 Example.banCarol (by decide) (by decide) (by decide), h.2.2⟩

end BanLists

namespace BanLists

theorem toId_bob : toId "bob" = "bob" := by
  decide

theorem toId_carol : toId "carol" = "carol" := by
  decide

theorem toId_alice : toId "alice" = "alice" := by
  decide

/-- The ban lists after `roomBan(alice)` with the alts bob and carol: the one
entry of `bannedUsers` has the id of alice as its key. -/
theorem aliceBanned_eq : Example.aliceBanned =
    { bannedUsers := [("alice", "alice")],
      bannedIps := [("1.1.1.1", "alice"), ("3.3.3.3", "alice"), ("4.4.4.4", "alice")],
      left := ["bob", "carol", "alice"] } := by
  decide

/-- C24: `unRoomBan` with the id of an alt removes nothing. `roomBan` enters
every ban under the id of the user it was called for (`bannedUsers[userid]`),
also for the alts, so after `roomBan(alice)` has banned alice, bob and carol,
`unRoomBan('bob')` and `unRoomBan('carol')` find no entry: they return false,
the ban lists are as before and all three stay banned. Only the id of alice
clears the lists. -/
theorem unRoomBan_by_alt_id_removes_nothing :
    Example.aliceBanned.unRoomBan "bob" false = (Example.aliceBanned, none) ∧
    Example.aliceBanned.unRoomBan "carol" false = (Example.aliceBanned, none) ∧
    Example.aliceBanned.bannedUsers ≠ [] ∧ Example.aliceBanned.bannedIps ≠ [] ∧
    Example.aliceBanned.isRoomBanned (some Example.banAlice) = some "alice" ∧
    Example.aliceBanned.isRoomBanned (some Example.banBob) = some "alice" ∧
    Example.aliceBanned.isRoomBanned (some Example.banCarol) = some "alice" ∧
    (Example.aliceBanned.unRoomBan "alice" false).1.bannedUsers = [] ∧
    (Example.aliceBanned.unRoomBan "alice" false).1.bannedIps = [] := by
  rw [aliceBanned_eq]
  refine ⟨?_, ?_, by decide, by decide, by decide, by decide, by decide, ?_, ?_⟩
  · simp only [unRoomBan, Bool.false_eq_true, if_false, toId_bob]
    decide
  · simp only [unRoomBan, Bool.false_eq_true, if_false, toId_carol]
    decide
  · simp only [unRoomBan, Bool.false_eq_true, if_false, toId_alice]
    decide
  · simp only [unRoomBan, Bool.false_eq_true, if_false, toId_alice]
    decide

end BanLists

namespace BattleRoom

/-- `kickInactiveUpdate` leaves `active` and the battle alone. -/
theorem kickInactiveUpdate_frame (r r' : BattleRoom) (result : Bool)
    (h : r.kickInactiveUpdate = .ok (r', result)) :
    r'.active = r.active ∧ r'.battle = r.battle := by
  have hg : r.giveBackTicks.1.active = r.active ∧ r.giveBackTicks.1.battle = r.battle := by
    by_cases e1 : r.disconnectTickDiff.1 = 0 <;> by_cases e2 : r.disconnectTickDiff.2 = 0 <;>
      simp [giveBackTicks, e1, e2]
  unfold kickInactiveUpdate at h
  split_ifs at h with hrated harmed
  · simp only [Except.ok.injEq, Prod.mk.injEq] at h
    rw [← h.1]; exact ⟨rfl, rfl⟩
  · split at h
    · cases h
    · rename_i battle _
      simp only [] at h
      split_ifs at h
      · simp only [Except.ok.injEq, Prod.mk.injEq] at h
        rw [← h.1]; exact ⟨rfl, rfl⟩
      · simp only [Except.ok.injEq, Prod.mk.injEq] at h
        rw [← h.1]; exact ⟨rfl, rfl⟩
      · simp only [Except.ok.injEq, Prod.mk.injEq] at h
        rw [← h.1]; exact ⟨rfl, rfl⟩
      · simp only [Except.ok.injEq, Prod.mk.injEq] at h
        rw [← h.1]; exact ⟨rfl, rfl⟩
      · split at h
        · rename_i r2 changed hgb
          simp only [Except.ok.injEq, Prod.mk.injEq] at h
          rw [← h.1]
          rw [hgb] at hg
          exact hg
        · rename_i r2 hgb
          simp only [Except.ok.injEq, Prod.mk.injEq] at h
          rw [← h.1]
          rw [hgb] at hg
          exact hg
      · simp only [Except.ok.injEq, Prod.mk.injEq] at h
        rw [← h.1]; exact ⟨rfl, rfl⟩
  · simp only [Except.ok.injEq, Prod.mk.injEq] at h
    rw [← h.1]; exact ⟨rfl, rfl⟩

/-- With a battle in the room `kickInactiveUpdate` returns. -/
theorem kickInactiveUpdate_returns (r : BattleRoom) (b : Battle) (hb : r.battle = some b) :
    ∃ r' result, r.kickInactiveUpdate = .ok (r', result) := by
  unfold kickInactiveUpdate
  simp only [hb]
  split_ifs
  · exact ⟨_, _, rfl⟩
  · exact ⟨_, _, rfl⟩
  · exact ⟨_, _, rfl⟩
  · exact ⟨_, _, rfl⟩
  · exact ⟨_, _, rfl⟩
  · split
    · exact ⟨_, _, rfl⟩
    · exact ⟨_, _, rfl⟩
  · exact ⟨_, _, rfl⟩
  · exact ⟨_, _, rfl⟩

/-- A seat taken: the result of `seat` when the battle is not active. -/
theorem seat_accepts (sim : Simulator) (w : BattleWorld) (user : User) (slot : Option Int)
    (team : String) (b : Battle) (hb : w.room.battle = some b) (ha : b.active = false) :
    ∃ w', seat sim w user slot team = .ok (w', none, none) ∧
      w'.room.battle = some (sim.join b user slot team) ∧
      w'.room.active = (sim.join b user slot team).active ∧
      w'.battleCount
        = w.battleCount + activeDelta (sim.join b user slot team).active w.room.active := by
  unfold seat
  simp only [hb, ha, Bool.false_eq_true, if_false]
  generalize hr : BattleRoom.update _ = r
  have hbat : r.battle = some (sim.join b user slot team) := by
    rw [← hr, update_battle]
    split <;> rfl
  have hact : r.active = (sim.join b user slot team).active := by
    rw [← hr, (update_flags _).1]
    split <;> rfl
  obtain ⟨r', res, hk⟩ := kickInactiveUpdate_returns r _ hbat
  obtain ⟨f1, f2⟩ := kickInactiveUpdate_frame r r' res hk
  rw [hk]
  exact ⟨_, rfl, f2.trans hbat, f1.trans hact, rfl⟩

/-- A seat refused: the battle already has two players. -/
theorem seat_full (sim : Simulator) (w : BattleWorld) (user : User) (slot : Option Int)
    (team : String) (b : Battle) (hb : w.room.battle = some b) (ha : b.active = true) :
    seat sim w user slot team = .ok (w, some false, some "This battle already has two players.") := by
  unfold seat
  simp only [hb, ha, if_true]

/-- Whatever the checks before it decide, `joinBattle` on a battle that
already has two players returns false and leaves the state as it is. -/
theorem joinBattle_full (sim : Simulator) (w : BattleWorld) (user : User) (team : String)
    (b : Battle) (hb : w.room.battle = some b) (ha : b.active = true) :
    ∃ popup, joinBattle sim w user team = .ok (w, some false, some popup) := by
  have hseat := fun slot => seat_full sim w user slot team b hb ha
  have htour : ∀ slot, ∃ popup, joinTour sim w user slot team = .ok (w, some false, some popup) := by
    intro slot
    unfold joinTour
    cases w.room.tour with
    | none => exact ⟨_, hseat slot⟩
    | some t =>
      obtain ⟨tour, name⟩ := t
      simp only
      cases fixedSlot tour.p1 tour.p2 user.userid with
      | none => exact ⟨_, rfl⟩
      | some s => exact ⟨_, hseat (some s)⟩
  unfold joinBattle
  cases w.room.rated with
  | none => exact htour none
  | some rated =>
    simp only
    cases fixedSlot rated.p1 rated.p2 user.userid with
    | none => exact ⟨_, rfl⟩
    | some s => exact htour (some s)

theorem fixedSlot_none (p1 p2 userid : String) (h1 : p1 ≠ userid) (h2 : p2 ≠ userid) :
    fixedSlot p1 p2 userid = none := by
  simp [fixedSlot, h1, h2]

/-- C26: `joinBattle(user, team)` rejects without changing the state. When the
room is rated, or is a tournament battle, and the id of the user is neither
the fixed `p1` nor the fixed `p2`, or when the battle already has two active
players, `joinBattle` returns false and the room with `auth`, `active`,
`title` and the log, the battle and the global battle count are as before:
only a popup goes to the user. When it accepts a user in a rated room (whose
tournament identities, if any, are those of `rated`) the battle is joined in
slot 0 for the id of `p1` and in slot 1 for the id of `p2`. -/
theorem joinBattle_rejects_or_seats (sim : Simulator) (w : BattleWorld) (user : User)
    (team : String) :
    (∀ rated, w.room.rated = some rated → rated.p1 ≠ user.userid → rated.p2 ≠ user.userid →
      ∃ popup, joinBattle sim w user team = .ok (w, some false, some popup)) ∧
    (∀ tour name, w.room.tour = some (tour, name) → tour.p1 ≠ user.userid →
      tour.p2 ≠ user.userid →
      ∃ popup, joinBattle sim w user team = .ok (w, some false, some popup)) ∧
    (∀ b, w.room.battle = some b → b.active = true →
      ∃ popup, joinBattle sim w user team = .ok (w, some false, some popup)) ∧
    (∀ rated b, w.room.rated = some rated →
      (∀ tour name, w.room.tour = some (tour, name) → tour.p1 = rated.p1 ∧ tour.p2 = rated.p2) →
      w.room.battle = some b → b.active = false →
      (rated.p1 = user.userid →
        ∃ w', joinBattle sim w user team = .ok (w', none, none) ∧
          w'.room.battle = some (sim.join b user (some 0) team)) ∧
      (rated.p1 ≠ user.userid → rated.p2 = user.userid →
        ∃ w', joinBattle sim w user team = .ok (w', none, none) ∧
          w'.room.battle = some (sim.join b user (some 1) team))) := by
  refine ⟨fun rated hr h1 h2 => ?_, fun tour name ht h1 h2 => ?_,
    fun b hb ha => joinBattle_full sim w user team b hb ha, fun rated b hr ht hb ha => ?_⟩
  · unfold joinBattle
    simp only [hr, fixedSlot_none _ _ _ h1 h2]
    exact ⟨_, rfl⟩
  · have htour : ∀ slot, ∃ popup,
        joinTour sim w user slot team = .ok (w, some false, some popup) := by
      intro slot
      unfold joinTour
      simp only [ht, fixedSlot_none _ _ _ h1 h2]
      exact ⟨_, rfl⟩
    unfold joinBattle
    cases w.room.rated with
    | none => exact htour none
    | some rated =>
      simp only
      cases fixedSlot rated.p1 rated.p2 user.userid with
      | none => exact ⟨_, rfl⟩
      | some s => exact htour (some s)
  · have hjoin : ∀ s, fixedSlot rated.p1 rated.p2 user.userid = some s →
        ∃ w', joinBattle sim w user team = .ok (w', none, none) ∧
          w'.room.battle = some (sim.join b user (some s) team) := by
      intro s hs
      obtain ⟨w', h1, h2, _⟩ := seat_accepts sim w user (some s) team b hb ha
      refine ⟨w', ?_, h2⟩
      unfold joinBattle
      simp only [hr, hs]
      unfold joinTour
      cases htour : w.room.tour with
      | none => exact h1
      | some t =>
        obtain ⟨tour, name⟩ := t
        obtain ⟨e1, e2⟩ := ht tour name htour
        simp only [e1, e2, hs]
        exact h1
    exact ⟨fun h1 => hjoin 0 (by simp [fixedSlot, h1]),
      fun h1 h2 => hjoin 1 (by simp [fixedSlot, h1, h2])⟩

theorem joinBattle_rejects_or_seats_witness :
    (∃ popup, joinBattle Example.simulator ⟨0, Example.halfSeated⟩ (Example.users 2) ""
      = .ok (⟨0, Example.halfSeated⟩, some false, some popup)) ∧
    (∃ w', joinBattle Example.simulator ⟨0, Example.halfSeated⟩ Example.bob ""
        = .ok (w', none, none) ∧
      w'.room.battle
        = some (Example.simulator.join Example.halfSeatedBattle Example.bob (some 1) "")) :=
  ⟨(joinBattle_rejects_or_seats Example.simulator ⟨0, Example.halfSeated⟩ (Example.users 2)
      "").1 ⟨"alice", "bob", "ou"⟩ rfl (by decide) (by decide),
    ((joinBattle_rejects_or_seats Example.simulator ⟨0, Example.halfSeated⟩ Example.bob "").2.2.2
      ⟨"alice", "bob", "ou"⟩ Example.halfSeatedBattle rfl
      (fun tour name h => by cases h) rfl rfl).2 (by decide) rfl⟩

end BattleRoom

namespace BattleRoom

theorem signedDelta_refl (w : BattleWorld) : SignedDelta w w := by
  unfold SignedDelta
  omega

theorem signedDelta_trans {w1 w2 w3 : BattleWorld} (h1 : SignedDelta w1 w2)
    (h2 : SignedDelta w2 w3) : SignedDelta w1 w3 := by
  unfold SignedDelta at *
  omega

/-- The count follows the flag: adding `activeDelta x a` to the count while
`active` goes from `a` to `x` is a signed change. -/
theorem signedDelta_of (w w' : BattleWorld) (x : Bool)
    (hc : w'.battleCount = w.battleCount + activeDelta x w.room.active)
    (ha : w'.room.active = x) : SignedDelta w w' := by
  unfold SignedDelta
  rw [hc, ha]
  unfold activeDelta
  omega

theorem activeDelta_self (a : Bool) : activeDelta a a = 0 := by
  unfold activeDelta
  omega

/-- The flag and the battle after `update` and `kickInactiveUpdate`. -/
theorem settled (r r' : BattleRoom) (result : Bool)
    (h : r.update.kickInactiveUpdate = .ok (r', result)) :
    r'.active = r.active ∧ r'.battle = r.battle := by
  obtain ⟨f1, f2⟩ := kickInactiveUpdate_frame _ _ _ h
  exact ⟨f1.trans (update_flags r).1, f2.trans (update_battle r)⟩

theorem seat_delta (sim : Simulator) (w w' : BattleWorld) (user : User) (slot : Option Int)
    (team : String) (ret : Option Bool) (popup : Option String)
    (h : seat sim w user slot team = .ok (w', ret, popup)) : SignedDelta w w' := by
  cases hb : w.room.battle with
  | none => unfold seat at h; rw [hb] at h; cases h
  | some b =>
    cases ha : b.active with
    | true =>
      rw [seat_full sim w user slot team b hb ha] at h
      simp only [Except.ok.injEq, Prod.mk.injEq] at h
      rw [← h.1]
      exact signedDelta_refl w
    | false =>
      obtain ⟨w2, h1, _, h3, h4⟩ := seat_accepts sim w user slot team b hb ha
      rw [h1] at h
      simp only [Except.ok.injEq, Prod.mk.injEq] at h
      rw [← h.1]
      exact signedDelta_of w w2 _ h4 h3

theorem joinTour_delta (sim : Simulator) (w w' : BattleWorld) (user : User) (slot : Option Int)
    (team : String) (ret : Option Bool) (popup : Option String)
    (h : joinTour sim w user slot team = .ok (w', ret, popup)) : SignedDelta w w' := by
  unfold joinTour at h
  split at h
  · split at h
    · exact seat_delta sim w w' user _ team ret popup h
    · simp only [Except.ok.injEq, Prod.mk.injEq] at h
      rw [← h.1]
      exact signedDelta_refl w
  · exact seat_delta sim w w' user _ team ret popup h

theorem joinBattle_delta (sim : Simulator) (w w' : BattleWorld) (user : User)
    (team : String) (ret : Option Bool) (popup : Option String)
    (h : joinBattle sim w user team = .ok (w', ret, popup)) : SignedDelta w w' := by
  unfold joinBattle at h
  split at h
  · split at h
    · exact joinTour_delta sim w w' user _ team ret popup h
    · simp only [Except.ok.injEq, Prod.mk.injEq] at h
      rw [← h.1]
      exact signedDelta_refl w
  · exact joinTour_delta sim w w' user _ team ret popup h

theorem leaveBattle_delta (sim : Simulator) (w w' : BattleWorld) (user : Option User)
    (inBattle ret : Bool) (h : leaveBattle sim w user inBattle = .ok (w', ret)) :
    SignedDelta w w' := by
  unfold leaveBattle at h
  cases user with
  | none =>
    simp only [Except.ok.injEq, Prod.mk.injEq] at h
    rw [← h.1]; exact signedDelta_refl w
  | some user =>
    simp only at h
    cases inBattle with
    | false =>
      simp only [Bool.false_eq_true, if_false, Except.ok.injEq, Prod.mk.injEq] at h
      rw [← h.1]; exact signedDelta_refl w
    | true =>
      simp only [if_true] at h
      cases hb : w.room.battle with
      | none => rw [hb] at h; cases h
      | some b =>
        rw [hb] at h
        simp only at h
        split at h
        · rename_i r res hk
          simp only [Except.ok.injEq, Prod.mk.injEq] at h
          rw [← h.1]
          refine signedDelta_of w _ (sim.leave b user).active rfl ?_
          exact (settled _ _ _ hk).1
        · cases h

theorem decision_delta (sim : Simulator) (w w' : BattleWorld) (user : User)
    (choice data : String) (h : decision sim w user choice data = .ok w') :
    SignedDelta w w' ∧
    ∃ b, w.room.battle = some b ∧ w'.room.battle = some (sim.sendFor b user choice data) ∧
      w'.room.active = (sim.sendFor b user choice data).active := by
  unfold decision at h
  cases hb : w.room.battle with
  | none => rw [hb] at h; cases h
  | some b =>
    rw [hb] at h
    simp only [Except.ok.injEq] at h
    rw [← h]
    by_cases hne : w.room.active = (sim.sendFor b user choice data).active
    · refine ⟨?_, b, rfl, ?_, ?_⟩
      · refine signedDelta_of w _ (sim.sendFor b user choice data).active ?_ ?_
        · simp only [ne_eq, hne, not_true_eq_false, if_false]
          rw [← hne, activeDelta_self]
          simp
        · simp only [ne_eq, hne, not_true_eq_false, if_false]
          rw [(update_flags _).1]
      · simp only [ne_eq, hne, not_true_eq_false, if_false]
        rw [update_battle]
      · simp only [ne_eq, hne, not_true_eq_false, if_false]
        rw [(update_flags _).1]
    · refine ⟨?_, b, rfl, ?_, ?_⟩
      · refine signedDelta_of w _ (sim.sendFor b user choice data).active ?_ ?_
        · simp only [ne_eq, hne, not_false_eq_true, if_true]
        · simp only [ne_eq, hne, not_false_eq_true, if_true]
          rw [(update_flags _).1]
      · simp only [ne_eq, hne, not_false_eq_true, if_true]
        rw [update_battle]
      · simp only [ne_eq, hne, not_false_eq_true, if_true]
        rw [(update_flags _).1]

end BattleRoom

namespace BattleRoom

theorem removeUser_frame (r r' : BattleRoom) (userid : String)
    (h : r.removeUser userid = .ok r') : r'.active = r.active ∧ r'.battle = r.battle := by
  unfold removeUser at h
  split at h
  · cases h
  · simp only [Except.ok.injEq] at h
    rw [← h]; exact ⟨rfl, rfl⟩

theorem leaveRoomEnd_delta (reportbattlejoins : Bool) (w w' : BattleWorld) (user : User)
    (h : leaveRoomEnd reportbattlejoins w user = .ok w') : SignedDelta w w' := by
  unfold leaveRoomEnd at h
  cases hr : w.room.removeUser user.userid with
  | error e => rw [hr] at h; cases h
  | ok r =>
    rw [hr] at h
    simp only at h
    have ha := (removeUser_frame _ _ _ hr).1
    split at h
    · rename_i r2 res hk
      simp only [Except.ok.injEq] at h
      rw [← h]
      have hs := (settled _ _ _ hk).1
      by_cases hempty : (r.add (if reportbattlejoins = true then "|leave|" ++ user.name
          else "|L|" ++ user.name)).users = some []
      · simp only [hempty, if_true] at hs ⊢
        unfold SignedDelta
        show w.battleCount + (0 - (if r.active = true then (1 : Int) else 0)) - w.battleCount
          = (if r2.active = true then 1 else 0) - (if w.room.active = true then 1 else 0)
        rw [hs, ha]
        simp
      · simp only [hempty, if_false] at hs ⊢
        unfold SignedDelta
        show w.battleCount - w.battleCount
          = (if r2.active = true then (1 : Int) else 0) - (if w.room.active = true then 1 else 0)
        rw [hs]
        show _ = (if r.active = true then (1 : Int) else 0) - _
        rw [ha]
        omega
    · cases h

theorem onLeave_delta (sim : Simulator) (reportbattlejoins : Bool) (w w' : BattleWorld)
    (user : Option User) (inBattle named : Bool)
    (h : onLeave sim reportbattlejoins w user inBattle named = .ok w') : SignedDelta w w' := by
  unfold onLeave at h
  cases user with
  | none =>
    simp only [Except.ok.injEq] at h
    rw [← h]; exact signedDelta_refl w
  | some user =>
    simp only at h
    cases inBattle with
    | true =>
      simp only [if_true] at h
      cases hb : w.room.battle with
      | none => rw [hb] at h; cases h
      | some b =>
        rw [hb] at h
        simp only at h
        refine signedDelta_trans ?_ (leaveRoomEnd_delta _ _ _ _ h)
        exact signedDelta_of w _ (sim.leave b user).active rfl rfl
    | false =>
      simp only [Bool.false_eq_true, if_false] at h
      cases named with
      | false =>
        simp only [if_true] at h
        cases hr : w.room.removeUser user.userid with
        | error e => rw [hr] at h; cases h
        | ok r =>
          rw [hr] at h
          simp only [Except.ok.injEq] at h
          rw [← h]
          unfold SignedDelta
          show w.battleCount - w.battleCount
            = (if r.active = true then (1 : Int) else 0) - (if w.room.active = true then 1 else 0)
          rw [(removeUser_frame _ _ _ hr).1]
          omega
      | true =>
        simp only [Bool.true_eq_false, if_false] at h
        exact leaveRoomEnd_delta _ _ _ _ h

theorem declareForfeit_delta (w : BattleWorld) (battle : Battle) (name message : String)
    (side : Int) : SignedDelta w (declareForfeit w battle name message side) := by
  refine signedDelta_of w _ battle.active ?_ ?_
  · unfold declareForfeit
    rfl
  · unfold declareForfeit
    simp only [(update_flags _).1]
    rfl

theorem forfeit_delta (w : BattleWorld) (user : Option User) (message : Option String)
    (side : Option Int) : SignedDelta w (forfeit w user message side).1 := by
  unfold forfeit
  split
  · exact signedDelta_refl w
  · split
    · exact signedDelta_refl w
    · split
      · exact signedDelta_refl w
      · exact declareForfeit_delta _ _ _ _ _

theorem win_delta (env : WinEnv) (w w' : BattleWorld) (winner : String)
    (effects : List WinEffect) (h : win env w winner = .ok (w', effects)) :
    SignedDelta w w' := by
  obtain ⟨h1, h2, _⟩ := win_returns env w w' winner effects h
  unfold SignedDelta
  rw [h1, h2]
  simp

/-- The count of active rooms follows a signed change of one room. -/
theorem activeRooms_of_delta (pre post : List BattleRoom) (w w' : BattleWorld)
    (hd : SignedDelta w w') (hc : w.battleCount = activeRooms (pre ++ w.room :: post)) :
    w'.battleCount = activeRooms (pre ++ w'.room :: post) := by
  unfold SignedDelta at hd
  unfold activeRooms at *
  simp only [List.filter_append, List.filter_cons, List.length_append] at hc ⊢
  cases h1 : w.room.active <;> cases h2 : w'.room.active <;>
    simp only [h1, h2, if_true, if_false, Bool.false_eq_true, List.length_cons] at hc hd ⊢ <;>
    push_cast at hc ⊢ <;> omega

end BattleRoom

namespace BattleRoom

theorem seat_returns (sim : Simulator) (w : BattleWorld) (user : User) (slot : Option Int)
    (team : String) (b : Battle) (hb : w.room.battle = some b) :
    ∃ res, seat sim w user slot team = .ok res := by
  cases ha : b.active with
  | true => exact ⟨_, seat_full sim w user slot team b hb ha⟩
  | false =>
    obtain ⟨w', h, _⟩ := seat_accepts sim w user slot team b hb ha
    exact ⟨_, h⟩

theorem joinBattle_returns (sim : Simulator) (w : BattleWorld) (user : User) (team : String)
    (b : Battle) (hb : w.room.battle = some b) :
    ∃ res, joinBattle sim w user team = .ok res := by
  have htour : ∀ slot, ∃ res, joinTour sim w user slot team = .ok res := by
    intro slot
    unfold joinTour
    cases w.room.tour with
    | none => exact seat_returns sim w user slot team b hb
    | some t =>
      obtain ⟨tour, name⟩ := t
      simp only
      cases fixedSlot tour.p1 tour.p2 user.userid with
      | none => exact ⟨_, rfl⟩
      | some s => exact seat_returns sim w user (some s) team b hb
  unfold joinBattle
  cases w.room.rated with
  | none => exact htour none
  | some rated =>
    simp only
    cases fixedSlot rated.p1 rated.p2 user.userid with
    | none => exact ⟨_, rfl⟩
    | some s => exact htour (some s)

theorem leaveBattle_returns (sim : Simulator) (w : BattleWorld) (user : Option User)
    (inBattle : Bool) (b : Battle) (hb : w.room.battle = some b) :
    ∃ res, leaveBattle sim w user inBattle = .ok res := by
  unfold leaveBattle
  cases user with
  | none => exact ⟨_, rfl⟩
  | some user =>
    cases inBattle with
    | false => exact ⟨_, rfl⟩
    | true =>
      simp only [if_true, hb]
      generalize hr : BattleRoom.update _ = r
      have hbat : r.battle = some (sim.leave b user) := by
        rw [← hr, update_battle]
      obtain ⟨r', res, hk⟩ := kickInactiveUpdate_returns r _ hbat
      rw [hk]
      exact ⟨_, rfl⟩

theorem decision_returns (sim : Simulator) (w : BattleWorld) (user : User)
    (choice data : String) (b : Battle) (hb : w.room.battle = some b) :
    ∃ w', decision sim w user choice data = .ok w' := by
  unfold decision
  simp only [hb]
  exact ⟨_, rfl⟩

theorem ite_room_battle (c : Prop) [Decidable c] (w1 w2 : BattleWorld) (b : Option Battle)
    (h1 : w1.room.battle = b) (h2 : w2.room.battle = b) :
    (if c then w1 else w2).room.battle = b := by
  split <;> assumption

theorem leaveRoomEnd_returns (reportbattlejoins : Bool) (w : BattleWorld) (user : User)
    (b : Battle) (users : List String) (hb : w.room.battle = some b)
    (hu : w.room.users = some users) :
    ∃ w', leaveRoomEnd reportbattlejoins w user = .ok w' := by
  unfold leaveRoomEnd removeUser
  simp only [hu]
  generalize hr : BattleRoom.update _ = r
  have hbat : r.battle = some b := by
    rw [← hr, update_battle]
    refine ite_room_battle _ _ _ _ ?_ ?_ <;> exact hb
  obtain ⟨r', res, hk⟩ := kickInactiveUpdate_returns r _ hbat
  rw [hk]
  exact ⟨_, rfl⟩

theorem onLeave_returns (sim : Simulator) (reportbattlejoins : Bool) (w : BattleWorld)
    (user : Option User) (inBattle named : Bool) (b : Battle) (users : List String)
    (hb : w.room.battle = some b) (hu : w.room.users = some users) :
    ∃ w', onLeave sim reportbattlejoins w user inBattle named = .ok w' := by
  unfold onLeave
  cases user with
  | none => exact ⟨_, rfl⟩
  | some user =>
    cases inBattle with
    | true =>
      simp only [if_true, hb]
      exact leaveRoomEnd_returns reportbattlejoins _ user (sim.leave b user) users rfl hu
    | false =>
      cases named with
      | false =>
        simp only [Bool.false_eq_true, if_false, if_true, removeUser, hu]
        exact ⟨_, rfl⟩
      | true =>
        simp only [Bool.false_eq_true, Bool.true_eq_false, if_false]
        exact leaveRoomEnd_returns reportbattlejoins w user b users hb hu

/-- C27: signed-delta accounting of active battles. Each of `joinBattle`,
`leaveBattle`, `decision`, `forfeit`, `onLeave` and `win`, whenever it returns,
has changed the global battle count by exactly (1 if the room is active after
the call, else 0) minus (1 if it was active before, else 0); so when the count
was the number of rooms whose `active` flag is set before the call, it is
after the call; and after `decision` the flag `active` of the room equals the
`active` flag of the simulator object. On a room that has its battle and its
users all six return. -/
theorem battleCount_signed_delta (sim : Simulator) (env : WinEnv) (reportbattlejoins : Bool)
    (w : BattleWorld) :
    (∀ user team w' ret popup, joinBattle sim w user team = .ok (w', ret, popup) →
      SignedDelta w w') ∧
    (∀ user inBattle w' ret, leaveBattle sim w user inBattle = .ok (w', ret) →
      SignedDelta w w') ∧
    (∀ user choice data w', decision sim w user choice data = .ok w' →
      SignedDelta w w' ∧ ∃ b, w'.room.battle = some b ∧ w'.room.active = b.active) ∧
    (∀ user message side, SignedDelta w (forfeit w user message side).1) ∧
    (∀ user inBattle named w', onLeave sim reportbattlejoins w user inBattle named = .ok w' →
      SignedDelta w w') ∧
    (∀ winner w' effects, win env w winner = .ok (w', effects) → SignedDelta w w') ∧
    (∀ w' pre post, SignedDelta w w' → w.battleCount = activeRooms (pre ++ w.room :: post) →
      w'.battleCount = activeRooms (pre ++ w'.room :: post)) ∧
    (∀ b users, w.room.battle = some b → w.room.users = some users →
      (∀ user team, ∃ res, joinBattle sim w user team = .ok res) ∧
      (∀ user inBattle, ∃ res, leaveBattle sim w user inBattle = .ok res) ∧
      (∀ user choice data, ∃ w', decision sim w user choice data = .ok w') ∧
      (∀ user inBattle named, ∃ w',
        onLeave sim reportbattlejoins w user inBattle named = .ok w') ∧
      (∀ winner, ∃ res, win env w winner = .ok res)) := by
  refine ⟨fun user team w' ret popup h => joinBattle_delta sim w w' user team ret popup h,
    fun user inBattle w' ret h => leaveBattle_delta sim w w' user inBattle ret h,
    fun user choice data w' h => ?_,
    fun user message side => forfeit_delta w user message side,
    fun user inBattle named w' h => onLeave_delta sim reportbattlejoins w w' user inBattle named h,
    fun winner w' effects h => win_delta env w w' winner effects h,
    fun w' pre post hd hc => activeRooms_of_delta pre post w w' hd hc,
    fun b users hb hu => ⟨fun user team => joinBattle_returns sim w user team b hb,
      fun user inBattle => leaveBattle_returns sim w user inBattle b hb,
      fun user choice data => decision_returns sim w user choice data b hb,
      fun user inBattle named =>
        onLeave_returns sim reportbattlejoins w user inBattle named b users hb hu,
      fun winner => ?_⟩⟩
  · obtain ⟨hd, b, _, hb2, ha⟩ := decision_delta sim w w' user choice data h
    exact ⟨hd, _, hb2, ha⟩
  · obtain ⟨w', effects, h, _⟩ := win_counts env w winner b hb
    exact ⟨_, h⟩

theorem battleCount_signed_delta_witness :
    ∃ w', onLeave Example.simulator false ⟨1, Example.startedRoom⟩ (some Example.alice) true true
        = .ok w' ∧
      SignedDelta ⟨1, Example.startedRoom⟩ w' ∧
      w'.battleCount = activeRooms ([] ++ w'.room :: []) :=
  have h := battleCount_signed_delta Example.simulator Example.winEnv false
    ⟨1, Example.startedRoom⟩
  let ⟨w', hw⟩ := (h.2.2.2.2.2.2.2 Example.runningBattle ["alice", "bob"] rfl rfl).2.2.2.1
    (some Example.alice) true true
  ⟨w', hw, h.2.2.2.2.1 _ _ _ w' hw,
    h.2.2.2.2.2.2.1 w' [] [] (h.2.2.2.2.1 _ _ _ w' hw) (by decide)⟩

end BattleRoom

-- END OF THEOREMS

end Rooms
